import Mathlib

/-!
Session lifecycle and identity migration of `api/user.go`.

A shallow embedding of the handlers of `src/api/user.go` that create, revoke and
migrate sessions, of the password-recovery redemption path, and of the account checks
around them: activation, MFA activation, email domains and invitation hashes.

* Go pointers to records become values; a handler that mutates `c *Context` and
  writes to `w http.ResponseWriter` becomes a function `State → State`.
* A channel receive `<-store.Op(..)` becomes a call of the store model that returns
  the new state together with the `result.Err` / `result.Data` pair.
* `go f()` pushes a `Task` on `State.pending`; `runTask` executes one of them.
* Every call that leaves the file is appended to `State.calls`, in program order.
* Whether a fallible external call fails is decided by the oracle `Env.fault`.
* A handler that can panic returns `Except String State`.
-/

namespace Api

/-! ## Data model -/

/-- The `*model.AppError` record, restricted to the fields the handlers read or write. -/
structure AppError where
  Where : String
  Id : String
  DetailedError : String
  StatusCode : Int
  deriving DecidableEq, Repr

/-- The `model.Session` record. A literal that does not name `CreateAt` leaves it at the
zero value, as a Go composite literal does. -/
structure Session where
  Id : String
  Token : String
  CreateAt : Int := 0
  ExpiresAt : Int
  UserId : String
  DeviceId : String
  Roles : String
  IsOAuth : Bool
  Props : List (String × String)
  deriving DecidableEq, Repr

/-- The `model.User` record, restricted to the fields the handlers read or write. -/
structure User where
  Id : String
  Email : String
  Password : String
  AuthData : Option String
  AuthService : String
  Roles : String
  DeleteAt : Int
  deriving DecidableEq, Repr

/-- The `model.PasswordRecovery` record. -/
structure PasswordRecovery where
  UserId : String
  Code : String
  CreateAt : Int
  deriving DecidableEq, Repr

/-- The `http.Cookie` record, restricted to the fields the handlers set. -/
structure Cookie where
  Name : String
  Value : String
  Path : String
  MaxAge : Int
  Expires : Int
  HttpOnly : Bool
  Secure : Bool
  deriving DecidableEq, Repr

/-- The part of `*http.Request` the handlers read: the JSON body decoded by
`model.MapFromJson`, the route variables of `mux.Vars`, the form values of `r.FormValue`,
the query values of `r.URL.Query()`, the `User-Agent` header, `r.Host` and the result of
`GetProtocol(r)`. -/
structure Request where
  props : List (String × String)
  vars : List (String × String)
  form : List (String × String)
  query : List (String × String)
  UserAgent : String
  Host : String
  Protocol : String
  deriving DecidableEq, Repr

/-- The `model.Team` record, restricted to the fields `IsVerifyHashRequired` reads. The
field `Type_` is the Go field `Type`. -/
structure Team where
  Type_ : String
  AllowedDomains : String
  deriving DecidableEq, Repr

/-- The values of type `interface{}` that `model.StringInterfaceFromJson` puts into the
map it decodes from a JSON object. -/
inductive JsonValue where
  | null
  | bool (b : Bool)
  | string (s : String)
  | number (n : Int)
  | array (items : List String)
  deriving DecidableEq, Repr

/-- Calls that leave `api/user.go`: store gateway, `app` helpers, providers, audit log and
process log. The entry `Panic` is not a call: it records that a task started with `go` ended
in a run-time panic. -/
inductive Call where
  | LogAudit (userId extraInfo : String)
  | LogError (err : AppError)
  | LogWarn (err : AppError)
  | Panic (message : String)
  | SessionGetSessions (userId : String)
  | SessionRemove (sessionId : String)
  | SessionSave (session : Session)
  | SessionUpdateRoles (userId roles : String)
  | UserGet (userId : String)
  | UserGetByEmail (email : String)
  | UserUpdate (user : User)
  | UserUpdatePassword (userId hashedPassword : String)
  | PasswordRecoveryGetByCode (code : String)
  | PasswordRecoveryDelete (userId : String)
  | RevokeAccessToken (token : String)
  | RevokeWebrtcToken (sessionId : String)
  | RevokeSessionById (sessionId : String)
  | RemoveAllSessionsForUserId (userId : String)
  | AddSessionToCache (session : Session)
  | GetUserByAuth (authData service : String)
  | CreateOAuthUser (service userData : String)
  | GetAuthDataFromJson (service userData : String)
  | LdapCheckPassword (authData password : String)
  | LdapSwitchToLdap (userId ldapId ldapPassword : String)
  | GetUser (userId : String)
  | GetUserForLogin (loginId : String) (ldapOnly : Bool)
  | SamlDoLogin (encodedXML : String) (relayProps : List (String × String))
  | IncrementLogin
  | IncrementLoginFail
  | SamlBuildRequest (relayState : String)
  | MfaGenerateSecret (userId : String)
  | RevokeSessionsForDeviceId (userId deviceId currentSessionId : String)
  | AttachDeviceId (sessionId deviceId : String) (expiresAt : Int)
  | ChannelExtraUpdateByUser (userId : String) (time : Int)
  | SetStatusOffline (userId : String) (manual : Bool)
  | ActivateMfa (userId token : String)
  | DeactivateMfa (userId : String)
  deriving DecidableEq, Repr

/-- Work started with `go`: it runs after the statement that started it, at a time the
handler does not control. -/
inductive Task where
  | PasswordRecoveryDelete (userId : String)
  | sendPasswordChangeEmail (email method : String)
  | sendSignInChangeEmail (email method : String)
  | AddDirectChannels (teamId userId : String)
  | sendMfaChangeEmail (userId : String) (activate : Bool)
  deriving DecidableEq, Repr

/-- What a handler passes to `w.Write`. -/
inductive Written where
  | MapToJson (m : List (String × String))
  | UserToJson (u : User)
  | Redirect (url : String) (code : Int)
  deriving DecidableEq, Repr

/-- The store tables, the process-wide session cache, the request context `c` and the
response `w`, threaded through every handler. -/
structure State where
  users : List User
  sessions : List Session
  recovery : List PasswordRecovery
  accessData : List String
  cache : List Session
  idCounter : Nat
  calls : List Call
  pending : List Task
  Err : Option AppError
  Session : Session
  header : List (String × String)
  cookies : List Cookie
  body : List Written
  deriving DecidableEq, Repr

/-- The `einterfaces.LdapInterface` methods used by the handlers. -/
structure LdapInterface where
  CheckPassword : String → String → Option AppError
  SwitchToLdap : String → String → String → Option AppError

/-- The `einterfaces.OauthProvider` method used by the handlers. -/
structure OauthProvider where
  GetAuthDataFromJson : String → String

/-- The `einterfaces.SamlInterface` method used by `completeSaml`. -/
structure SamlInterface where
  DoLogin : String → List (String × String) → Except AppError User
  BuildRequest : String → Except AppError String

/-- The `einterfaces.MfaInterface` method used by `generateMfaSecret`: the secret and the
image of the QR code, or an error. -/
structure MfaInterface where
  GenerateSecret : User → Except AppError (String × String)

/-- The result of the `user_agent` parser. -/
structure UserAgent where
  Platform : String
  OS : String
  BrowserName : String
  BrowserVersion : String

/-- Constants of package `model` and `store` that `api/user.go` names; their declarations
are outside this file, so they are parameters. -/
structure ModelConsts where
  USER_AUTH_SERVICE_LDAP : String
  MISSING_AUTH_ACCOUNT_ERROR : String
  HEADER_TOKEN : String
  SESSION_COOKIE_TOKEN : String
  SESSION_PROP_PLATFORM : String
  SESSION_PROP_OS : String
  SESSION_PROP_BROWSER : String
  PERMISSION_MANAGE_SYSTEM : String
  PERMISSION_MANAGE_ROLES : String
  PASSWORD_RECOVERY_CODE_SIZE : Nat
  PASSWORD_RECOVER_EXPIRY_TIME : Int
  OAUTH_ACTION_SIGNUP : String
  OAUTH_ACTION_EMAIL_TO_SSO : String
  USER_AUTH_SERVICE_SAML : String
  PUSH_NOTIFY_APPLE : String
  PUSH_NOTIFY_ANDROID : String
  TEAM_OPEN : String
  TEAM_INVITE : String

/-- Everything a handler reads but does not own: the clock (`model.GetMillis()`, taken as
constant while one handler runs), the configuration, the constants, the provider
registry, the helpers of other packages that are pure, and the oracle `fault` that decides
which fallible external call fails and with which error. The field `ToLower` is
`unicode.ToLower`, the mapping of one rune to lower case. -/
structure Env where
  model : ModelConsts
  GetMillis : Int
  SessionLengthWebInDays : Int
  SessionLengthMobileInDays : Int
  fault : Call → Option AppError
  NewId : Nat → String
  HashPassword : String → String
  IsPasswordValid : String → Option AppError
  IsValidUserRoles : String → Bool
  checkPasswordAndAllCriteria : User → String → String → Option AppError
  checkUserMfa : User → String → Option AppError
  HasPermissionTo : Session → String → Bool
  GetLdapInterface : Option LdapInterface
  GetOauthProvider : String → Option OauthProvider
  CreateOAuthUser : String → String → Except AppError User
  user_agent : String → UserAgent
  GetSamlInterface : Option SamlInterface
  GetMetricsInterface : Bool
  GetUserForLogin : List User → String → Bool → Except AppError User
  authenticateUser : User → String → String → User × Option AppError
  checkUserAdditionalAuthenticationCriteria : User → String → Option AppError
  DecodeString : String → Except String String
  MapFromJson : String → List (String × String)
  Title : String → String
  GetSiteURL : String
  GetMfaInterface : Option MfaInterface
  getTeamIdFromQuery : List (String × String) → Except AppError String
  EncodeToString : String → String
  MapToJson : List (String × String) → String
  GetSanitizeOptions : List (String × Bool)
  ToLower : Char → Char

/-! ## Helpers of other packages -/

/-- The constructor `model.NewLocAppError(where, id, params, details)`; the default of the
status code is `http.StatusInternalServerError`. -/
def NewLocAppError (where_ id details : String) : AppError :=
  { Where := where_, Id := id, DetailedError := details, StatusCode := 500 }

/-- Go map indexing `m[key]` on a `map[string]string`: the zero value when absent. -/
def lookup (m : List (String × String)) (key : String) : String :=
  match m.find? (fun kv => kv.1 == key) with
  | some kv => kv.2
  | none => ""

/-- The Go builtin `len` on a string: its number of bytes. -/
def len (s : String) : Nat := s.utf8ByteSize

/-- Appends one entry to the call trace. -/
def State.call (st : State) (c : Call) : State :=
  { st with calls := st.calls ++ [c] }

/-- Two's-complement wrap-around of an `int64` result. -/
def wrap64 (x : Int) : Int :=
  (x + 9223372036854775808) % 18446744073709551616 - 9223372036854775808

/-- Modelled from the spec: the method `(*model.Session).SetExpireInDays` of package
`model`, absent from this file. The expiry is the policy window of `days` days, counted
from the creation time of the session, or from `GetMillis()` while the session has no
creation time (`CreateAt == 0`, a session that was not saved yet). -/
def Session.SetExpireInDays (e : Env) (me : Session) (days : Int) : Session :=
  if me.CreateAt == 0 then
    { me with ExpiresAt := wrap64 (e.GetMillis + wrap64 (1000 * 60 * 60 * 24 * days)) }
  else
    { me with ExpiresAt := wrap64 (me.CreateAt + wrap64 (1000 * 60 * 60 * 24 * days)) }

/-- The method `(*model.Session).AddProp`: `me.Props[key] = value`. -/
def Session.AddProp (me : Session) (key value : String) : Session :=
  { me with Props := me.Props.filter (fun kv => kv.1 != key) ++ [(key, value)] }

/-- The method `(*model.User).GetRawRoles`. -/
def User.GetRawRoles (u : User) : String := u.Roles

/-- The error the store model reports when a record is absent. -/
def Store.notFound (where_ : String) : AppError :=
  NewLocAppError where_ "store.not_found.app_error" ""

/-! ## Store gateway

Modelled from the spec (§6, Store Gateway contract); the SQL store is outside this file. -/

/-- Modelled from the spec: `Session.get(principalId)->list`, the store method
`Session().GetSessions`, absent from this file. It returns the sessions of the principal. -/
def Store.Session.GetSessions (e : Env) (st : State) (userId : String) :
    State × Except AppError (List Session) :=
  let st1 := st.call (.SessionGetSessions userId)
  match e.fault (.SessionGetSessions userId) with
  | some err => (st1, .error err)
  | none => (st1, .ok (st.sessions.filter (fun s => s.UserId == userId)))

/-- Modelled from the spec: `Session.remove(id)`, the store method `Session().Remove`,
absent from this file. It deletes the durable record with that id. -/
def Store.Session.Remove (e : Env) (st : State) (sessionId : String) :
    State × Option AppError :=
  let st1 := st.call (.SessionRemove sessionId)
  match e.fault (.SessionRemove sessionId) with
  | some err => (st1, some err)
  | none => ({ st1 with sessions := st1.sessions.filter (fun s => s.Id != sessionId) }, none)

/-- Modelled from the spec: `Session.save(session)`, the store method `Session().Save`,
absent from this file. It gives the session a newly generated id and token and the
creation time `GetMillis()`, appends the record and returns it. -/
def Store.Session.Save (e : Env) (st : State) (session : Session) :
    State × Except AppError Session :=
  let st1 := st.call (.SessionSave session)
  match e.fault (.SessionSave session) with
  | some err => (st1, .error err)
  | none =>
    let saved := { session with Id := e.NewId st.idCounter, Token := e.NewId (st.idCounter + 1),
                                CreateAt := e.GetMillis }
    ({ st1 with sessions := st1.sessions ++ [saved], idCounter := st.idCounter + 2 }, .ok saved)

/-- Modelled from the spec: `Session.updateRoles(principalId, roles)`, the store method
`Session().UpdateRoles`, absent from this file. -/
def Store.Session.UpdateRoles (e : Env) (st : State) (userId roles : String) :
    State × Option AppError :=
  let st1 := st.call (.SessionUpdateRoles userId roles)
  match e.fault (.SessionUpdateRoles userId roles) with
  | some err => (st1, some err)
  | none =>
    let refresh := fun (s : Session) => if s.UserId == userId then { s with Roles := roles } else s
    ({ st1 with sessions := st1.sessions.map refresh }, none)

/-- Modelled from the spec: `User.get(id)`, the store method `User().Get`, absent from
this file. -/
def Store.User.Get (e : Env) (st : State) (userId : String) : State × Except AppError User :=
  let st1 := st.call (.UserGet userId)
  match e.fault (.UserGet userId) with
  | some err => (st1, .error err)
  | none =>
    match st.users.find? (fun u => u.Id == userId) with
    | some u => (st1, .ok u)
    | none => (st1, .error (Store.notFound "SqlUserStore.Get"))

/-- Modelled from the spec: `User.get(email)`, the store method `User().GetByEmail`, absent
from this file. -/
def Store.User.GetByEmail (e : Env) (st : State) (email : String) :
    State × Except AppError User :=
  let st1 := st.call (.UserGetByEmail email)
  match e.fault (.UserGetByEmail email) with
  | some err => (st1, .error err)
  | none =>
    match st.users.find? (fun u => u.Email == email) with
    | some u => (st1, .ok u)
    | none => (st1, .error (Store.notFound "SqlUserStore.GetByEmail"))

/-- Modelled from the spec: `User.updateRoles` / `User.setActive`, the store method
`User().Update`, absent from this file. It replaces the record that has the id of `user`
and returns the new record (element 0 of the pair the Go method returns). -/
def Store.User.Update (e : Env) (st : State) (user : User) : State × Except AppError User :=
  let st1 := st.call (.UserUpdate user)
  match e.fault (.UserUpdate user) with
  | some err => (st1, .error err)
  | none =>
    if st.users.any (fun u => u.Id == user.Id) then
      let replace := fun (u : User) => if u.Id == user.Id then user else u
      ({ st1 with users := st1.users.map replace }, .ok user)
    else (st1, .error (Store.notFound "SqlUserStore.Update"))

/-- Modelled from the spec: `User.updatePassword(id, hash)`, the store method
`User().UpdatePassword`, absent from this file. Per §4.4 the write sets the password hash,
clears the federated auth-data and sets the method of record to password. -/
def Store.User.UpdatePassword (e : Env) (st : State) (userId hashedPassword : String) :
    State × Option AppError :=
  let st1 := st.call (.UserUpdatePassword userId hashedPassword)
  match e.fault (.UserUpdatePassword userId hashedPassword) with
  | some err => (st1, some err)
  | none =>
    let write := fun (u : User) =>
      if u.Id == userId then
        { u with Password := hashedPassword, AuthData := none, AuthService := "" }
      else u
    ({ st1 with users := st1.users.map write }, none)

/-- Modelled from the spec: `PasswordRecovery.getByCode(code)`, the store method
`PasswordRecovery().GetByCode`, absent from this file. -/
def Store.PasswordRecovery.GetByCode (e : Env) (st : State) (code : String) :
    State × Except AppError PasswordRecovery :=
  let st1 := st.call (.PasswordRecoveryGetByCode code)
  match e.fault (.PasswordRecoveryGetByCode code) with
  | some err => (st1, .error err)
  | none =>
    match st.recovery.find? (fun r => r.Code == code) with
    | some r => (st1, .ok r)
    | none => (st1, .error (Store.notFound "SqlPasswordRecoveryStore.GetByCode"))

/-- Modelled from the spec: `PasswordRecovery.delete(principalId)`, the store method
`PasswordRecovery().Delete`, absent from this file. -/
def Store.PasswordRecovery.Delete (e : Env) (st : State) (userId : String) :
    State × Option AppError :=
  let st1 := st.call (.PasswordRecoveryDelete userId)
  match e.fault (.PasswordRecoveryDelete userId) with
  | some err => (st1, some err)
  | none => ({ st1 with recovery := st1.recovery.filter (fun r => r.UserId != userId) }, none)

/-! ## Helpers of package `app` and of `api/context.go` -/

/-- Modelled from the spec: `app.RevokeAccessToken`, absent from this file. The sweep hands
the whole revocation of a session with `IsOAuth` to it, so it is `revoke` of §4.2 for the
session that carries the token: it removes the durable record and the cache entry with
that token and invalidates the federated access grant. A failing call changes nothing;
the callers in this file discard its result. -/
def app.RevokeAccessToken (e : Env) (st : State) (token : String) : State × Option AppError :=
  let st1 := st.call (.RevokeAccessToken token)
  match e.fault (.RevokeAccessToken token) with
  | some err => (st1, some err)
  | none =>
    let sessions := st1.sessions.filter (fun s => s.Token != token)
    let cache := st1.cache.filter (fun s => s.Token != token)
    let accessData := st1.accessData.filter (fun t => t != token)
    ({ st1 with sessions := sessions, cache := cache, accessData := accessData }, none)

/-- Modelled from the spec: `app.RevokeWebrtcToken`, absent from this file: the best-effort
companion revocation of §4.2. It touches no table of this model. -/
def app.RevokeWebrtcToken (st : State) (sessionId : String) : State :=
  st.call (.RevokeWebrtcToken sessionId)

/-- Modelled from the spec: `app.RemoveAllSessionsForUserId`, absent from this file: clears
the cache entries of the principal. -/
def app.RemoveAllSessionsForUserId (st : State) (userId : String) : State :=
  let st1 := st.call (.RemoveAllSessionsForUserId userId)
  { st1 with cache := st1.cache.filter (fun s => s.UserId != userId) }

/-- Modelled from the spec: `app.AddSessionToCache`, absent from this file: inserts the
session into the process-wide session cache. -/
def app.AddSessionToCache (st : State) (session : Session) : State :=
  let st1 := st.call (.AddSessionToCache session)
  { st1 with cache := st1.cache ++ [session] }

/-- Modelled from the spec: `app.RevokeSessionById`, absent from this file, is `revoke` of
§4.2: it removes the durable record and the cache entry and, for a session established
via a federated flow, additionally invalidates the federated access grant. -/
def app.RevokeSessionById (e : Env) (st : State) (sessionId : String) :
    State × Option AppError :=
  let st1 := st.call (.RevokeSessionById sessionId)
  match e.fault (.RevokeSessionById sessionId) with
  | some err => (st1, some err)
  | none =>
    let federated :=
      (st.sessions.filter (fun s => s.Id == sessionId && s.IsOAuth)).map (fun s => s.Token)
    let sessions := st1.sessions.filter (fun s => s.Id != sessionId)
    let cache := st1.cache.filter (fun s => s.Id != sessionId)
    let accessData := st1.accessData.filter (fun t => !(federated.contains t))
    ({ st1 with sessions := sessions, cache := cache, accessData := accessData }, none)

/-- Modelled from the spec: `app.GetUserByAuth`, absent from this file: the lookup of a
principal by federated auth-data and service; a miss is reported with the id
`store.MISSING_AUTH_ACCOUNT_ERROR`. -/
def app.GetUserByAuth (e : Env) (st : State) (authData service : String) :
    State × Except AppError User :=
  let st1 := st.call (.GetUserByAuth authData service)
  match e.fault (.GetUserByAuth authData service) with
  | some err => (st1, .error err)
  | none =>
    match st.users.find? (fun u => u.AuthData == some authData && u.AuthService == service) with
    | some u => (st1, .ok u)
    | none =>
      (st1, .error (NewLocAppError "SqlUserStore.GetByAuthData" e.model.MISSING_AUTH_ACCOUNT_ERROR ""))

/-- Modelled from the spec: `app.CreateOAuthUser`, absent from this file: on success the new
principal is added to the user table. -/
def app.CreateOAuthUser (e : Env) (st : State) (service userData : String) :
    State × Except AppError User :=
  let st1 := st.call (.CreateOAuthUser service userData)
  match e.CreateOAuthUser service userData with
  | .error err => (st1, .error err)
  | .ok u => ({ st1 with users := st1.users ++ [u] }, .ok u)

/-- The methods `c.LogAuditWithUserId(userId, extraInfo)`. -/
def LogAuditWithUserId (st : State) (userId extraInfo : String) : State :=
  st.call (.LogAudit userId extraInfo)

/-- The method `c.LogAudit(extraInfo)`: the audit entry of the session's principal. -/
def LogAudit (st : State) (extraInfo : String) : State :=
  LogAuditWithUserId st st.Session.UserId extraInfo

/-- Modelled from the spec: `c.SetInvalidParam`, declared in `api/context.go`, absent from
this file: the request fails with an invalid-parameter error, status 400. -/
def SetInvalidParam (st : State) (where_ name : String) : State :=
  { st with Err := some { Where := where_, Id := "api.context.invalid_param.app_error",
                          DetailedError := name, StatusCode := 400 } }

/-- Modelled from the spec: `c.RemoveSessionCookie`, declared in `api/context.go`, absent
from this file: it overwrites the session cookie with an expired, empty one. -/
def RemoveSessionCookie (e : Env) (st : State) : State :=
  let cookie : Cookie :=
    { Name := e.model.SESSION_COOKIE_TOKEN, Value := "", Path := "/", MaxAge := -1,
      Expires := 0, HttpOnly := true, Secure := false }
  { st with cookies := st.cookies ++ [cookie] }

/-- Modelled from the spec: `HasPermissionToContext`, declared in `api/context.go`, absent
from this file: the capability check of §7; a denial sets `PermissionDenied` (403) on the
context. -/
def HasPermissionToContext (e : Env) (st : State) (permission : String) : State × Bool :=
  if e.HasPermissionTo st.Session permission then (st, true)
  else
    ({ st with Err := some { Where := "HasPermissionToContext",
                             Id := "api.context.permissions.app_error",
                             DetailedError := "", StatusCode := 403 } }, false)

/-- The call `w.Header().Set(key, value)`. -/
def setHeader (h : List (String × String)) (key value : String) : List (String × String) :=
  h.filter (fun kv => kv.1 != key) ++ [(key, value)]

/-- The function `strings.Contains`. -/
def strings.Contains (s substr : String) : Bool :=
  s.toList.tails.any (fun t => substr.toList.isPrefixOf t)

/-- Runs one task that a handler started with `go`. A failed deletion is only logged;
the mail tasks touch nothing this model tracks. The task of `updateMfa` reads the user
first: a failed `User().Get` is logged with `l4g.Warn` and leaves `user` nil, so that
`user.Email` is a nil-pointer dereference, recorded as `Panic`. -/
def runTask (e : Env) (st : State) : Task → State
  | .PasswordRecoveryDelete userId =>
    match Store.PasswordRecovery.Delete e st userId with
    | (st1, some err) => st1.call (.LogError err)
    | (st1, none) => st1
  | .sendPasswordChangeEmail _ _ => st
  | .sendSignInChangeEmail _ _ => st
  | .AddDirectChannels _ _ => st
  | .sendMfaChangeEmail userId _ =>
    match Store.User.Get e st userId with
    | (st1, .error err) =>
      (st1.call (.LogWarn err)).call (.Panic "invalid memory address or nil pointer dereference")
    | (st1, .ok _) => st1

/-- Runs every pending task, oldest first, and empties the queue. -/
def runPending (e : Env) (st : State) : State :=
  st.pending.foldl (runTask e) { st with pending := [] }

/-- Starts a task with `go`. -/
def State.go (st : State) (t : Task) : State :=
  { st with pending := st.pending ++ [t] }

/-! ## `api/user.go`: session revocation -/

/-- The `for _, session := range sessions` loop of `RevokeAllSession`. The flag is true
when the loop left the function through `return`. -/
def RevokeAllSession.loop (e : Env) (userId : String) : List Session → State → State × Bool
  | [], st => (st, false)
  | session :: rest, st =>
    let st1 := LogAuditWithUserId st userId ("session_id=" ++ session.Id)
    if session.IsOAuth then
      let st2 := (app.RevokeAccessToken e st1 session.Token).1
      RevokeAllSession.loop e userId rest (app.RevokeWebrtcToken st2 session.Id)
    else
      match Store.Session.Remove e st1 session.Id with
      | (st2, some err) => ({ st2 with Err := some err }, true)
      | (st2, none) => RevokeAllSession.loop e userId rest (app.RevokeWebrtcToken st2 session.Id)

/-- The function `RevokeAllSession(c, userId)`. -/
def RevokeAllSession (e : Env) (st : State) (userId : String) : State :=
  match Store.Session.GetSessions e st userId with
  | (st1, .error err) => { st1 with Err := some err }
  | (st1, .ok sessions) =>
    match RevokeAllSession.loop e userId sessions st1 with
    | (st2, true) => st2
    | (st2, false) => app.RemoveAllSessionsForUserId st2 userId

/-- The `for _, session := range sessions` loop of `RevokeAllSessionsNoContext`; a
returned error ends the function. -/
def RevokeAllSessionsNoContext.loop (e : Env) : List Session → State → State × Option AppError
  | [], st => (st, none)
  | session :: rest, st =>
    if session.IsOAuth then
      let st2 := (app.RevokeAccessToken e st session.Token).1
      RevokeAllSessionsNoContext.loop e rest (app.RevokeWebrtcToken st2 session.Id)
    else
      match Store.Session.Remove e st session.Id with
      | (st2, some err) => (st2, some err)
      | (st2, none) =>
        RevokeAllSessionsNoContext.loop e rest (app.RevokeWebrtcToken st2 session.Id)

/-- The function `RevokeAllSessionsNoContext(userId)`. -/
def RevokeAllSessionsNoContext (e : Env) (st : State) (userId : String) :
    State × Option AppError :=
  match Store.Session.GetSessions e st userId with
  | (st1, .error err) => (st1, some err)
  | (st1, .ok sessions) =>
    match RevokeAllSessionsNoContext.loop e sessions st1 with
    | (st2, some err) => (st2, some err)
    | (st2, none) => (app.RemoveAllSessionsForUserId st2 userId, none)

/-! ## `api/user.go`: login -/

/-- The loop of `doLogin` that logs out every other session with the same device id. A
failed revocation is logged and the error is cleared (`c.LogError(err); c.Err = nil`). -/
def doLogin.revokeLoop (e : Env) (deviceId : String) : List Session → State → State
  | [], st => st
  | session :: rest, st =>
    if session.DeviceId == deviceId then
      match app.RevokeSessionById e st session.Id with
      | (st1, some err) =>
        doLogin.revokeLoop e deviceId rest { st1.call (.LogError err) with Err := none }
      | (st1, none) => doLogin.revokeLoop e deviceId rest st1
    else doLogin.revokeLoop e deviceId rest st

/-- The part of `doLogin` from `ua := user_agent.New(r.UserAgent())` to the three
`session.AddProp` calls: the client properties derived from the request. -/
def doLogin.clientProps (e : Env) (r : Request) (session : Session) : Session :=
  let ua := e.user_agent r.UserAgent
  let plat := if ua.Platform == "" then "unknown" else ua.Platform
  let os := if ua.OS == "" then "unknown" else ua.OS
  let bname := if ua.BrowserName == "" then "unknown" else ua.BrowserName
  let bname := if strings.Contains r.UserAgent "Mattermost" then "Desktop App" else bname
  let bversion := if ua.BrowserVersion == "" then "0.0" else ua.BrowserVersion
  let session := session.AddProp e.model.SESSION_PROP_PLATFORM plat
  let session := session.AddProp e.model.SESSION_PROP_OS os
  session.AddProp e.model.SESSION_PROP_BROWSER (bname ++ "/" ++ bversion)

/-- The last part of `doLogin`, from the client properties on: `Session().Save`, cache
insertion, token header and cookie. -/
def doLogin.persist (e : Env) (st : State) (r : Request) (session : Session) (maxAge : Int) :
    State :=
  let session := doLogin.clientProps e r session
  match Store.Session.Save e st session with
  | (st1, .error err) => { st1 with Err := some { err with StatusCode := 500 } }
  | (st1, .ok session) =>
    let st2 := app.AddSessionToCache st1 session
    let secure := r.Protocol == "https"
    let expiresAt := wrap64 (Int.tdiv e.GetMillis 1000 + maxAge)
    let sessionCookie : Cookie :=
      { Name := e.model.SESSION_COOKIE_TOKEN, Value := session.Token, Path := "/",
        MaxAge := maxAge, Expires := expiresAt, HttpOnly := true, Secure := secure }
    { st2 with header := setHeader st2.header e.model.HEADER_TOKEN session.Token,
               cookies := st2.cookies ++ [sessionCookie],
               Session := session }

/-- The function `doLogin(c, w, r, user, deviceId)`. -/
def doLogin (e : Env) (st : State) (r : Request) (user : User) (deviceId : String) : State :=
  let session : Session :=
    { Id := "", Token := "", CreateAt := 0, ExpiresAt := 0, UserId := user.Id,
      Roles := user.GetRawRoles, DeviceId := deviceId, IsOAuth := false, Props := [] }
  if len deviceId > 0 then
    let session := session.SetExpireInDays e e.SessionLengthMobileInDays
    let maxAge := wrap64 (e.SessionLengthMobileInDays * 60 * 60 * 24)
    match Store.Session.GetSessions e st user.Id with
    | (st1, .error err) => { st1 with Err := some { err with StatusCode := 500 } }
    | (st1, .ok sessions) =>
      doLogin.persist e (doLogin.revokeLoop e deviceId sessions st1) r session maxAge
  else
    let session := session.SetExpireInDays e e.SessionLengthWebInDays
    doLogin.persist e st r session (wrap64 (e.SessionLengthWebInDays * 60 * 60 * 24))

/-- The function `LoginByOAuth(c, w, r, service, userData)`; the second component is the
returned `*model.User`. -/
def LoginByOAuth (e : Env) (st : State) (r : Request) (service userData : String) :
    State × Option User :=
  match e.GetOauthProvider service with
  | none =>
    ({ st with Err := some (NewLocAppError "LoginByOAuth"
        "api.user.login_by_oauth.not_available.app_error" "") }, none)
  | some provider =>
    let st0 := st.call (.GetAuthDataFromJson service userData)
    let authData := provider.GetAuthDataFromJson userData
    if len authData == 0 then
      ({ st0 with Err := some (NewLocAppError "LoginByOAuth"
          "api.user.login_by_oauth.parse.app_error" "") }, none)
    else
      match app.GetUserByAuth e st0 authData service with
      | (st1, .error err) =>
        if err.Id == e.model.MISSING_AUTH_ACCOUNT_ERROR then
          match app.CreateOAuthUser e st1 service userData with
          | (st2, .error err2) => ({ st2 with Err := some err2 }, none)
          | (st2, .ok _) => ({ st2 with Err := none }, none)
        else ({ st1 with Err := some err }, none)
      | (st1, .ok user) =>
        let st2 := doLogin e st1 r user ""
        if st2.Err.isSome then (st2, none) else (st2, some user)

/-- The statement `if einterfaces.GetMetricsInterface() != nil {..}` around a counter. -/
def metrics (e : Env) (st : State) (c : Call) : State :=
  if e.GetMetricsInterface then st.call c else st

/-- Modelled from the spec: `app.GetUser`, absent from this file: the principal with the
given id, read through the store. -/
def app.GetUser (e : Env) (st : State) (userId : String) : State × Except AppError User :=
  let st1 := st.call (.GetUser userId)
  match e.fault (.GetUser userId) with
  | some err => (st1, .error err)
  | none =>
    match st.users.find? (fun u => u.Id == userId) with
    | some u => (st1, .ok u)
    | none => (st1, .error (Store.notFound "SqlUserStore.Get"))

/-- The helper `app.GetUserForLogin(loginId, ldapOnly)`, absent from this file: the lookup
by login identifier, which may defer to the LDAP provider. -/
def app.GetUserForLogin (e : Env) (st : State) (loginId : String) (ldapOnly : Bool) :
    State × Except AppError User :=
  (st.call (.GetUserForLogin loginId ldapOnly), e.GetUserForLogin st.users loginId ldapOnly)

/-- The method `(*model.User).Sanitize(options)`, absent from this file: it blanks the
credentials before the record is written to the response, and the email when the options
are given and do not allow it. -/
def User.Sanitize (u : User) (options : List (String × Bool)) : User :=
  let showEmail := options.isEmpty || options.any (fun kv => kv.1 == "email" && kv.2)
  { u with Password := "", AuthData := some "", Email := if showEmail then u.Email else "" }

/-- The tail of `login` from `authenticateUser(user, password, mfaToken)` on. -/
def login.authenticate (e : Env) (st : State) (r : Request) (user : User)
    (password mfaToken deviceId : String) : State :=
  match e.authenticateUser user password mfaToken with
  | (user, some err) =>
    metrics e { LogAuditWithUserId st user.Id "failure" with Err := some err }
      .IncrementLoginFail
  | (user, none) =>
    let st1 := metrics e (LogAuditWithUserId st user.Id "success") .IncrementLogin
    let st2 := doLogin e st1 r user deviceId
    if st2.Err.isSome then st2
    else { st2 with body := st2.body ++ [.UserToJson (user.Sanitize [])] }

/-- The handler `login(c, w, r)`. -/
def login (e : Env) (st : State) (r : Request) : State :=
  let id := lookup r.props "id"
  let loginId := lookup r.props "login_id"
  let password := lookup r.props "password"
  let mfaToken := lookup r.props "token"
  let deviceId := lookup r.props "device_id"
  let ldapOnly := lookup r.props "ldap_only" == "true"
  if len password == 0 then
    { st with Err := some { NewLocAppError "login" "api.user.login.blank_pwd.app_error" ""
                            with StatusCode := 400 } }
  else if len id != 0 then
    let st0 := LogAuditWithUserId st id "attempt"
    match app.GetUser e st0 id with
    | (st1, .error err) =>
      metrics e { LogAuditWithUserId st1 id "failure" with
                  Err := some { err with StatusCode := 400 } } .IncrementLoginFail
    | (st1, .ok user) => login.authenticate e st1 r user password mfaToken deviceId
  else
    let st0 := LogAudit st "attempt"
    match app.GetUserForLogin e st0 loginId ldapOnly with
    | (st1, .error err) =>
      metrics e { LogAudit st1 "failure" with Err := some err } .IncrementLoginFail
    | (st1, .ok user) =>
      login.authenticate e (LogAuditWithUserId st1 user.Id "attempt") r user password mfaToken
        deviceId

/-- The tail of `completeSaml` after `samlInterface.DoLogin` and the additional criteria
succeeded: the `switch action`, `doLogin` and the redirect. -/
def completeSaml.finish (e : Env) (st : State) (r : Request) (user : User)
    (relayProps : List (String × String)) : State :=
  let action := lookup relayProps "action"
  let st1 :=
    if action == e.model.OAUTH_ACTION_SIGNUP then
      let teamId := lookup relayProps "team_id"
      if len teamId > 0 then st.go (.AddDirectChannels teamId user.Id) else st
    else if action == e.model.OAUTH_ACTION_EMAIL_TO_SSO then
      (RevokeAllSession e st user.Id).go
        (.sendSignInChangeEmail user.Email (e.Title e.model.USER_AUTH_SERVICE_SAML ++ " SSO"))
    else st
  let st2 := doLogin e st1 r user ""
  if st2.Err.isSome then st2
  else
    match relayProps.find? (fun kv => kv.1 == "redirect_to") with
    | some kv => { st2 with body := st2.body ++ [.Redirect (e.GetSiteURL ++ kv.2) 302] }
    | none => { st2 with body := st2.body ++ [.Redirect (r.Protocol ++ "://" ++ r.Host) 302] }

/-- The handler `completeSaml(c, w, r)`. -/
def completeSaml (e : Env) (st : State) (r : Request) : State :=
  match e.GetSamlInterface with
  | none =>
    { st with Err := some { NewLocAppError "completeSaml"
        "api.user.saml.not_available.app_error" "" with StatusCode := 302 } }
  | some samlInterface =>
    let encodedXML := lookup r.form "SAMLResponse"
    let relayState := lookup r.form "RelayState"
    let decoded : Except String (List (String × String)) :=
      if len relayState > 0 then
        match e.DecodeString relayState with
        | .error msg => .error msg
        | .ok stateStr => .ok (e.MapFromJson stateStr)
      else .ok []
    match decoded with
    | .error msg =>
      { st with Err := some { NewLocAppError "completeSaml"
          "api.user.authorize_oauth_user.invalid_state.app_error" msg with StatusCode := 302 } }
    | .ok relayProps =>
      let st0 := st.call (.SamlDoLogin encodedXML relayProps)
      match samlInterface.DoLogin encodedXML relayProps with
      | .error err => { st0 with Err := some { err with StatusCode := 302 } }
      | .ok user =>
        match e.checkUserAdditionalAuthenticationCriteria user "" with
        | some err => { st0 with Err := some { err with StatusCode := 302 } }
        | none => completeSaml.finish e st0 r user relayProps

/-- The provider method `ldapInterface.CheckPassword(authData, password)`. -/
def Ldap.CheckPassword (ldap : LdapInterface) (st : State) (authData password : String) :
    State × Option AppError :=
  (st.call (.LdapCheckPassword authData password), ldap.CheckPassword authData password)

/-- Modelled from the spec: the effect of `ldapInterface.SwitchToLdap`, whose body is
outside this file: on success the method of record of the account becomes ldap (§4.4). -/
def Ldap.SwitchToLdap (e : Env) (ldap : LdapInterface) (st : State)
    (userId ldapId ldapPassword : String) : State × Option AppError :=
  let st1 := st.call (.LdapSwitchToLdap userId ldapId ldapPassword)
  match ldap.SwitchToLdap userId ldapId ldapPassword with
  | some err => (st1, some err)
  | none =>
    let switch := fun (u : User) =>
      if u.Id == userId then
        { u with AuthService := e.model.USER_AUTH_SERVICE_LDAP, AuthData := some ldapId }
      else u
    ({ st1 with users := st1.users.map switch }, none)

/-- The method `(*model.AppError).Error`. -/
def AppError.Error (er : AppError) : String :=
  er.Where ++ ": " ++ er.Id ++ ", " ++ er.DetailedError

/-! ## `api/user.go`: roles -/

/-- The function `UpdateUserRoles(user, newRoles)`. Both store calls are issued before
either result is received. -/
def UpdateUserRoles (e : Env) (st : State) (user : User) (newRoles : String) :
    State × Except AppError User :=
  let user := { user with Roles := newRoles }
  let uchan := Store.User.Update e st user
  let schan := Store.Session.UpdateRoles e uchan.1 user.Id newRoles
  match uchan.2 with
  | .error err => (schan.1, .error err)
  | .ok ruser =>
    let st3 := match schan.2 with
      | some err => schan.1.call (.LogError err)
      | none => schan.1
    (app.RemoveAllSessionsForUserId st3 user.Id, .ok ruser)

/-- The handler `updateRoles(c, w, r)`. -/
def updateRoles (e : Env) (st : State) (r : Request) : State :=
  let userId := lookup r.vars "user_id"
  if len userId != 26 then SetInvalidParam st "updateMemberRoles" "user_id"
  else
    let newRoles := lookup r.props "new_roles"
    if !(e.IsValidUserRoles newRoles) then SetInvalidParam st "updateMemberRoles" "new_roles"
    else
      match HasPermissionToContext e st e.model.PERMISSION_MANAGE_ROLES with
      | (st1, false) => st1
      | (st1, true) =>
        match Store.User.Get e st1 userId with
        | (st2, .error err) => { st2 with Err := some err }
        | (st2, .ok user) =>
          match UpdateUserRoles e st2 user newRoles with
          | (st3, .error _) => st3
          | (st3, .ok _) =>
            let st4 := LogAuditWithUserId st3 user.Id ("roles=" ++ newRoles)
            { st4 with body := st4.body ++ [.MapToJson [("status", "ok")]] }

/-! ## `api/user.go`: password recovery -/

/-- The function `ResetPassword(c, userId, newPassword)`. The permission check is
evaluated only when the auth-data is present and non-empty (`&&` short-circuits). -/
def ResetPassword (e : Env) (st : State) (userId newPassword : String) :
    State × Option AppError :=
  match Store.User.Get e st userId with
  | (st1, .error err) => (st1, some err)
  | (st1, .ok user) =>
    let federated := match user.AuthData with
      | some authData => len authData != 0
      | none => false
    let perm := if federated then HasPermissionToContext e st1 e.model.PERMISSION_MANAGE_SYSTEM
      else (st1, true)
    if federated && !perm.2 then
      (perm.1, some (NewLocAppError "ResetPassword" "api.user.reset_password.sso.app_error"
        ("userId=" ++ user.Id)))
    else
      match Store.User.UpdatePassword e perm.1 userId (e.HashPassword newPassword) with
      | (st3, some err) => (st3, some err)
      | (st3, none) =>
        (st3.go (.sendPasswordChangeEmail user.Email "api.user.reset_password.method"), none)

/-- The tail of `resetPassword` for a token that passed the expiry check, with
`userId = recovery.UserId`: the deletion of the token is started with `go`, then
`ResetPassword` is called and the reply is written. -/
def resetPassword.redeem (e : Env) (st : State) (userId newPassword : String) : State :=
  let st2 := st.go (.PasswordRecoveryDelete userId)
  match ResetPassword e st2 userId newPassword with
  | (st3, some err) => { st3 with Err := some err }
  | (st3, none) =>
    let st4 := LogAuditWithUserId st3 userId "success"
    { st4 with body := st4.body ++ [.MapToJson [("status", "ok")]] }

/-- The handler `resetPassword(c, w, r)`. -/
def resetPassword (e : Env) (st : State) (r : Request) : State :=
  let code := lookup r.props "code"
  if len code != e.model.PASSWORD_RECOVERY_CODE_SIZE then SetInvalidParam st "resetPassword" "code"
  else
    let newPassword := lookup r.props "new_password"
    match e.IsPasswordValid newPassword with
    | some err => { st with Err := some err }
    | none =>
      let st0 := LogAudit st "attempt"
      match Store.PasswordRecovery.GetByCode e st0 code with
      | (st1, .error err) =>
        { LogAuditWithUserId st1 "" "fail - bad code" with
          Err := some (NewLocAppError "resetPassword"
            "api.user.reset_password.invalid_link.app_error" err.Error) }
      | (st1, .ok recovery) =>
        if wrap64 (e.GetMillis - recovery.CreateAt) < e.model.PASSWORD_RECOVER_EXPIRY_TIME then
          resetPassword.redeem e st1 recovery.UserId newPassword
        else
          { LogAuditWithUserId st1 "" "fail - link expired" with
            Err := some (NewLocAppError "resetPassword"
              "api.user.reset_password.link_expired.app_error" "") }

/-! ## `api/user.go`: identity migration -/

/-- The tail of `oauthToEmail` after the password write succeeded, from
`go sendSignInChangeEmail(..)` on: the revocation sweep, the cookie removal and the reply. -/
def oauthToEmail.revoke (e : Env) (st : State) (user : User) : State :=
  let st3 := st.go (.sendSignInChangeEmail user.Email
    "api.templates.signin_change_email.body.method_email")
  let st4 := RevokeAllSession e st3 st3.Session.UserId
  let st5 := RemoveSessionCookie e st4
  if st5.Err.isSome then st5
  else
    let st6 := LogAudit st5 "success"
    { st6 with body := st6.body ++ [.MapToJson [("follow_link", "/login?extra=signin_change")]] }

/-- The handler `oauthToEmail(c, w, r)`. -/
def oauthToEmail (e : Env) (st : State) (r : Request) : State :=
  let password := lookup r.props "password"
  match e.IsPasswordValid password with
  | some err => { st with Err := some err }
  | none =>
    let email := lookup r.props "email"
    if len email == 0 then SetInvalidParam st "oauthToEmail" "email"
    else
      let st0 := LogAudit st "attempt"
      match Store.User.GetByEmail e st0 email with
      | (st1, .error err) => { LogAudit st1 "fail - couldn\x27t get user" with Err := some err }
      | (st1, .ok user) =>
        if user.Id != st1.Session.UserId then
          { LogAudit st1 "fail - user ids didn\x27t match" with
            Err := some { NewLocAppError "oauthToEmail"
              "api.user.oauth_to_email.context.app_error" "" with StatusCode := 403 } }
        else
          match Store.User.UpdatePassword e st1 st1.Session.UserId (e.HashPassword password) with
          | (st2, some err) => { LogAudit st2 "fail - database issue" with Err := some err }
          | (st2, none) => oauthToEmail.revoke e st2 user

/-- The tail of `emailToLdap` from `ldapInterface := einterfaces.GetLdapInterface()` on. -/
def emailToLdap.switch (e : Env) (st : State) (user : User) (ldapId ldapPassword : String) :
    State :=
  match e.GetLdapInterface with
  | none =>
    { st with Err := some { NewLocAppError "emailToLdap"
        "api.user.email_to_ldap.not_available.app_error" "" with StatusCode := 501 } }
  | some ldapInterface =>
    match Ldap.SwitchToLdap e ldapInterface st user.Id ldapId ldapPassword with
    | (st1, some err) =>
      { LogAuditWithUserId st1 user.Id "fail - ldap switch failed" with Err := some err }
    | (st1, none) =>
      let st2 := st1.go (.sendSignInChangeEmail user.Email "AD/LDAP")
      let st3 := LogAudit st2 "success"
      { st3 with body := st3.body ++
          [.MapToJson [("follow_link", "/login?extra=signin_change")]] }

/-- The tail of `emailToLdap` after the password and MFA check, from
`RevokeAllSession(c, user.Id)` on. -/
def emailToLdap.revoke (e : Env) (st : State) (user : User) (ldapId ldapPassword : String) :
    State :=
  let st2 := RevokeAllSession e st user.Id
  let st3 := RemoveSessionCookie e st2
  if st3.Err.isSome then st3
  else emailToLdap.switch e st3 user ldapId ldapPassword

/-- The handler `emailToLdap(c, w, r)`. -/
def emailToLdap (e : Env) (st : State) (r : Request) : State :=
  let email := lookup r.props "email"
  if len email == 0 then SetInvalidParam st "emailToLdap" "email"
  else
    let emailPassword := lookup r.props "email_password"
    if len emailPassword == 0 then SetInvalidParam st "emailToLdap" "email_password"
    else
      let ldapId := lookup r.props "ldap_id"
      if len ldapId == 0 then SetInvalidParam st "emailToLdap" "ldap_id"
      else
        let ldapPassword := lookup r.props "ldap_password"
        if len ldapPassword == 0 then SetInvalidParam st "emailToLdap" "ldap_password"
        else
          let token := lookup r.props "token"
          let st0 := LogAudit st "attempt"
          match Store.User.GetByEmail e st0 email with
          | (st1, .error err) =>
            { LogAudit st1 "fail - couldn\x27t get user" with Err := some err }
          | (st1, .ok user) =>
            match e.checkPasswordAndAllCriteria user emailPassword token with
            | some err =>
              { LogAuditWithUserId st1 user.Id "failed - bad authentication" with
                Err := some err }
            | none => emailToLdap.revoke e st1 user ldapId ldapPassword

/-- The tail of `ldapToEmail` after the password write succeeded, from
`RevokeAllSession(c, user.Id)` on. -/
def ldapToEmail.revoke (e : Env) (st : State) (user : User) : State :=
  let st3 := RevokeAllSession e st user.Id
  let st4 := RemoveSessionCookie e st3
  if st4.Err.isSome then st4
  else
    let st5 := st4.go (.sendSignInChangeEmail user.Email
      "api.templates.signin_change_email.body.method_email")
    let st6 := LogAudit st5 "success"
    { st6 with body := st6.body ++ [.MapToJson [("follow_link", "/login?extra=signin_change")]] }

/-- The tail of `ldapToEmail` from the LDAP bind-check on; `authData` is `*user.AuthData`. -/
def ldapToEmail.migrate (e : Env) (st : State) (ldapInterface : LdapInterface) (user : User)
    (authData emailPassword ldapPassword token : String) : State :=
  match Ldap.CheckPassword ldapInterface st authData ldapPassword with
  | (st1, some err) =>
    { LogAuditWithUserId st1 user.Id "fail - ldap authentication failed" with Err := some err }
  | (st1, none) =>
    match e.checkUserMfa user token with
    | some err =>
      { LogAuditWithUserId st1 user.Id "fail - mfa token failed" with Err := some err }
    | none =>
      match Store.User.UpdatePassword e st1 user.Id (e.HashPassword emailPassword) with
      | (st2, some err) => { LogAudit st2 "fail - database issue" with Err := some err }
      | (st2, none) => ldapToEmail.revoke e st2 user

/-- The handler `ldapToEmail(c, w, r)`. -/
def ldapToEmail (e : Env) (st : State) (r : Request) : State :=
  let email := lookup r.props "email"
  if len email == 0 then SetInvalidParam st "ldapToEmail" "email"
  else
    let emailPassword := lookup r.props "email_password"
    match e.IsPasswordValid emailPassword with
    | some err => { st with Err := some err }
    | none =>
      let ldapPassword := lookup r.props "ldap_password"
      if len ldapPassword == 0 then SetInvalidParam st "ldapToEmail" "ldap_password"
      else
        let token := lookup r.props "token"
        let st0 := LogAudit st "attempt"
        match Store.User.GetByEmail e st0 email with
        | (st1, .error err) =>
          { LogAudit st1 "fail - couldn\x27t get user" with Err := some err }
        | (st1, .ok user) =>
          if user.AuthService != e.model.USER_AUTH_SERVICE_LDAP then
            { st1 with Err := some (NewLocAppError "ldapToEmail"
                "api.user.ldap_to_email.not_ldap_account.app_error" "") }
          else
            match e.GetLdapInterface, user.AuthData with
            | some ldapInterface, some authData =>
              ldapToEmail.migrate e st1 ldapInterface user authData emailPassword ldapPassword
                token
            | _, _ =>
              { st1 with Err := some { NewLocAppError "ldapToEmail"
                  "api.user.ldap_to_email.not_available.app_error" "" with StatusCode := 501 } }

/-! ## `api/user.go`: activation -/

/-- Go map assignment `m[key] = value` on a `map[string]string`. -/
def mapSet (m : List (String × String)) (key value : String) : List (String × String) :=
  m.filter (fun kv => kv.1 != key) ++ [(key, value)]

/-- Go map assignment `options[key] = value` on a `map[string]bool`. -/
def setOption (options : List (String × Bool)) (key : String) (value : Bool) :
    List (String × Bool) :=
  options.filter (fun kv => kv.1 != key) ++ [(key, value)]

/-- The store method `Channel().ExtraUpdateByUser(userId, time)`, absent from this file; it
touches no table of this model. -/
def Store.Channel.ExtraUpdateByUser (e : Env) (st : State) (userId : String) (time : Int) :
    State × Option AppError :=
  (st.call (.ChannelExtraUpdateByUser userId time),
    e.fault (.ChannelExtraUpdateByUser userId time))

/-- The function `UpdateActive(user, active)`. The value `RevokeAllSessionsNoContext`
returns is discarded. -/
def UpdateActive (e : Env) (st : State) (user : User) (active : Bool) :
    State × Except AppError User :=
  let user := if active then { user with DeleteAt := 0 } else { user with DeleteAt := e.GetMillis }
  match Store.User.Update e st user with
  | (st1, .error err) => (st1, .error err)
  | (st1, .ok ruser) =>
    let st2 := if user.DeleteAt > 0 then (RevokeAllSessionsNoContext e st1 user.Id).1 else st1
    match Store.Channel.ExtraUpdateByUser e st2 user.Id e.GetMillis with
    | (st3, some err) => (st3, .error err)
    | (st3, none) =>
      let options := setOption e.GetSanitizeOptions "passwordupdate" false
      (st3, .ok (ruser.Sanitize options))

/-! ## `api/user.go`: device binding -/

/-- The function `strings.HasPrefix`. -/
def strings.HasPrefix (s pre : String) : Bool :=
  pre.toList.isPrefixOf s.toList

/-- Modelled from the spec: `app.RevokeSessionsForDeviceId`, absent from this file: per
§4.2 `attachDevice` it revokes any other session already bound to that device id for the
principal, the current session excluded; a revocation removes the durable record and the
cache entry and, for a federated session, the grant. -/
def app.RevokeSessionsForDeviceId (e : Env) (st : State)
    (userId deviceId currentSessionId : String) : State × Option AppError :=
  let st1 := st.call (.RevokeSessionsForDeviceId userId deviceId currentSessionId)
  match e.fault (.RevokeSessionsForDeviceId userId deviceId currentSessionId) with
  | some err => (st1, some err)
  | none =>
    let other := fun (s : Session) =>
      s.UserId == userId && s.DeviceId == deviceId && s.Id != currentSessionId
    let federated := (st.sessions.filter (fun s => other s && s.IsOAuth)).map (fun s => s.Token)
    let sessions := st1.sessions.filter (fun s => !other s)
    let cache := st1.cache.filter (fun s => !other s)
    let accessData := st1.accessData.filter (fun t => !(federated.contains t))
    ({ st1 with sessions := sessions, cache := cache, accessData := accessData }, none)

/-- Modelled from the spec: `app.AttachDeviceId`, absent from this file: it persists the
device binding and the expiry on the durable record of the session. -/
def app.AttachDeviceId (e : Env) (st : State) (sessionId deviceId : String) (expiresAt : Int) :
    State × Option AppError :=
  let st1 := st.call (.AttachDeviceId sessionId deviceId expiresAt)
  match e.fault (.AttachDeviceId sessionId deviceId expiresAt) with
  | some err => (st1, some err)
  | none =>
    let bind := fun (s : Session) =>
      if s.Id == sessionId then { s with DeviceId := deviceId, ExpiresAt := expiresAt } else s
    ({ st1 with sessions := st1.sessions.map bind }, none)

/-- The tail of `attachDeviceId` for a device id that passed both checks, from
`app.RevokeSessionsForDeviceId` on. -/
def attachDeviceId.attach (e : Env) (st : State) (r : Request) (deviceId : String) : State :=
  match app.RevokeSessionsForDeviceId e st st.Session.UserId deviceId st.Session.Id with
  | (st1, some err) => { st1 with Err := some { err with StatusCode := 500 } }
  | (st1, none) =>
    let st2 := app.RemoveAllSessionsForUserId st1 st1.Session.UserId
    let st3 := { st2 with
      Session := st2.Session.SetExpireInDays e e.SessionLengthMobileInDays }
    let maxAge := wrap64 (e.SessionLengthMobileInDays * 60 * 60 * 24)
    let secure := r.Protocol == "https"
    let expiresAt := wrap64 (Int.tdiv e.GetMillis 1000 + maxAge)
    let sessionCookie : Cookie :=
      { Name := e.model.SESSION_COOKIE_TOKEN, Value := st3.Session.Token, Path := "/",
        MaxAge := maxAge, Expires := expiresAt, HttpOnly := true, Secure := secure }
    let st4 := { st3 with cookies := st3.cookies ++ [sessionCookie] }
    match app.AttachDeviceId e st4 st4.Session.Id deviceId st4.Session.ExpiresAt with
    | (st5, some err) => { st5 with Err := some err }
    | (st5, none) => { st5 with body := st5.body ++ [.MapToJson r.props] }

/-- The handler `attachDeviceId(c, w, r)`. -/
def attachDeviceId (e : Env) (st : State) (r : Request) : State :=
  let deviceId := lookup r.props "device_id"
  if len deviceId == 0 then SetInvalidParam st "attachDevice" "deviceId"
  else if !(strings.HasPrefix deviceId (e.model.PUSH_NOTIFY_APPLE ++ ":") ||
      strings.HasPrefix deviceId (e.model.PUSH_NOTIFY_ANDROID ++ ":")) then
    SetInvalidParam st "attachDevice" "deviceId"
  else attachDeviceId.attach e st r deviceId

/-! ## `api/user.go`: MFA secret and SAML request -/

/-- The part of `loginWithSaml` that builds `relayProps` from the query. -/
def loginWithSaml.relayProps (e : Env) (r : Request) (teamId : String) :
    List (String × String) :=
  let action := lookup r.query "action"
  let redirectTo := lookup r.query "redirect_to"
  let relayProps : List (String × String) :=
    if len action != 0 then
      let withAction := mapSet (mapSet [] "team_id" teamId) "action" action
      if action == e.model.OAUTH_ACTION_EMAIL_TO_SSO then
        mapSet withAction "email" (lookup r.query "email")
      else withAction
    else []
  if len redirectTo != 0 then mapSet relayProps "redirect_to" redirectTo else relayProps

/-- The predicate `unicode.IsSpace`: the runes with the Unicode property White_Space. -/
def unicode.IsSpace (c : Char) : Bool :=
  (9 ≤ c.toNat && c.toNat ≤ 13) || c.toNat == 32 || c.toNat == 133 || c.toNat == 160 ||
    c.toNat == 5760 || (8192 ≤ c.toNat && c.toNat ≤ 8202) || c.toNat == 8232 ||
    c.toNat == 8233 || c.toNat == 8239 || c.toNat == 8287 || c.toNat == 12288

/-- The function `strings.ToLower`: every rune mapped with `unicode.ToLower`. -/
def strings.ToLower (e : Env) (s : String) : String :=
  String.mk (s.data.map e.ToLower)

/-- The call `strings.Replace(s, old, new, -1)` for a one-rune `old` and a one-rune `new`:
every occurrence of the rune is replaced. -/
def strings.Replace (s : String) (old new : Char) : String :=
  String.mk (s.data.map (fun c => if c == old then new else c))

/-- The function `strings.TrimSpace`: leading and trailing white space removed. -/
def strings.TrimSpace (s : String) : String :=
  String.mk ((s.data.dropWhile unicode.IsSpace).reverse.dropWhile unicode.IsSpace).reverse

/-- The scan of `strings.FieldsFunc`: `cur` holds the runes of the field being read, last
rune first; a field ends at a rune that satisfies `f` or at the end of the input. -/
def strings.FieldsFunc.scan (f : Char → Bool) : List Char → List Char → List String
  | [], cur => if cur.isEmpty then [] else [String.mk cur.reverse]
  | c :: cs, cur =>
    if f c then
      if cur.isEmpty then strings.FieldsFunc.scan f cs []
      else String.mk cur.reverse :: strings.FieldsFunc.scan f cs []
    else strings.FieldsFunc.scan f cs (c :: cur)

/-- The function `strings.FieldsFunc`: the maximal runs of runes that do not satisfy `f`. -/
def strings.FieldsFunc (s : String) (f : Char → Bool) : List String :=
  strings.FieldsFunc.scan f s.data []

/-- The function `strings.Fields`: the fields of `s` between runs of white space. -/
def strings.Fields (s : String) : List String :=
  strings.FieldsFunc s unicode.IsSpace

/-- The function `strings.HasSuffix`. -/
def strings.HasSuffix (s suffix : String) : Bool :=
  suffix.data.reverse.isPrefixOf s.data.reverse

/-- The function `CheckUserDomain(user, domains)`. The loop with `break` is `any`. -/
def CheckUserDomain (e : Env) (user : User) (domains : String) : Bool :=
  if len domains == 0 then true
  else
    let domainArray := strings.Fields (strings.TrimSpace (strings.ToLower e
      (strings.Replace (strings.Replace domains '@' ' ') ',' ' ')))
    domainArray.any (fun d => strings.HasSuffix (strings.ToLower e user.Email) ("@" ++ d))

/-- The function `IsVerifyHashRequired(user, team, hash)`; a nil `user` is `none`. The
first `if` either returns (`.error`) or goes on with the new value of `shouldVerifyHash`. -/
def IsVerifyHashRequired (e : Env) (user : Option User) (team : Team) (hash : String) : Bool :=
  let first : Except Bool Bool :=
    match user with
    | some u =>
      if team.Type_ == e.model.TEAM_INVITE && len team.AllowedDomains > 0 && len hash == 0 then
        if CheckUserDomain e u team.AllowedDomains then .ok false else .error true
      else .ok true
    | none => .ok true
  match first with
  | .error result => result
  | .ok shouldVerifyHash =>
    let shouldVerifyHash := if team.Type_ == e.model.TEAM_OPEN then false else shouldVerifyHash
    if len hash > 0 then true else shouldVerifyHash

/-! ## `api/user.go`: activation handler -/

/-- The method `(*model.User).IsLDAPUser`, absent from this file: the method of record of
the account is ldap. -/
def User.IsLDAPUser (e : Env) (u : User) : Bool :=
  u.AuthService == e.model.USER_AUTH_SERVICE_LDAP

/-- The helper `app.SetStatusOffline(userId, manual)`, absent from this file; it touches no
table of this model. -/
def app.SetStatusOffline (st : State) (userId : String) (manual : Bool) : State :=
  st.call (.SetStatusOffline userId manual)

/-- The handler `updateActive(c, w, r)`. The permission check is evaluated only when the
request is not a self-deactivation (`&&` short-circuits). -/
def updateActive (e : Env) (st : State) (r : Request) : State :=
  let user_id := lookup r.props "user_id"
  if len user_id != 26 then SetInvalidParam st "updateActive" "user_id"
  else
    let active := lookup r.props "active" == "true"
    match Store.User.Get e st user_id with
    | (st1, .error err) => { st1 with Err := some err }
    | (st1, .ok user) =>
      let isSelfDeactive := !active && user_id == st1.Session.UserId
      let perm := if !isSelfDeactive then
          HasPermissionToContext e st1 e.model.PERMISSION_MANAGE_SYSTEM
        else (st1, true)
      if !isSelfDeactive && !perm.2 then
        { perm.1 with Err := some { NewLocAppError "updateActive"
            "api.user.update_active.permissions.app_error" ("userId=" ++ user_id)
            with StatusCode := 403 } }
      else if user.IsLDAPUser e then
        { perm.1 with Err := some { NewLocAppError "updateActive"
            "api.user.update_active.no_deactivate_ldap.app_error" ("userId=" ++ user_id)
            with StatusCode := 400 } }
      else
        match UpdateActive e perm.1 user active with
        | (st2, .error err) => { st2 with Err := some err }
        | (st2, .ok ruser) =>
          let st3 := if !active then app.SetStatusOffline st2 ruser.Id false else st2
          let st4 := LogAuditWithUserId st3 ruser.Id ("active=" ++ toString active)
          { st4 with body := st4.body ++ [.UserToJson ruser] }

/-! ## `api/user.go`: MFA activation -/

/-- Go map indexing `props[key]` on a `map[string]interface{}`: the nil interface, here
`none`, when the key is absent. -/
def lookupInterface (m : List (String × JsonValue)) (key : String) : Option JsonValue :=
  (m.find? (fun kv => kv.1 == key)).map (fun kv => kv.2)

/-- The helper `app.ActivateMfa(userId, token)`, absent from this file; it touches no table
of this model. -/
def app.ActivateMfa (e : Env) (st : State) (userId token : String) : State × Option AppError :=
  (st.call (.ActivateMfa userId token), e.fault (.ActivateMfa userId token))

/-- The helper `app.DeactivateMfa(userId)`, absent from this file; it touches no table of
this model. -/
def app.DeactivateMfa (e : Env) (st : State) (userId : String) : State × Option AppError :=
  (st.call (.DeactivateMfa userId), e.fault (.DeactivateMfa userId))

/-- The tail of `updateMfa` from `c.LogAudit("attempt")` on, once `activate` and `token` have
been read. -/
def updateMfa.apply (e : Env) (st : State) (activate : Bool) (token : String) : State :=
  let st0 := LogAudit st "attempt"
  let changed : Except State State :=
    if activate then
      match app.ActivateMfa e st0 st0.Session.UserId token with
      | (st1, some err) => .error { st1 with Err := some err }
      | (st1, none) => .ok (LogAudit st1 "success - activated")
    else
      match app.DeactivateMfa e st0 st0.Session.UserId with
      | (st1, some err) => .error { st1 with Err := some err }
      | (st1, none) => .ok (LogAudit st1 "success - deactivated")
  match changed with
  | .error st2 => st2
  | .ok st2 =>
    let st3 := st2.go (.sendMfaChangeEmail st2.Session.UserId activate)
    { st3 with body := st3.body ++ [.MapToJson [("status", "ok")]] }

/-- The handler `updateMfa(c, w, r)` on the map `model.StringInterfaceFromJson(r.Body)`.
The result `.error` is a run-time panic: the single-valued type assertion
`props["token"].(string)` on a value that is not a string, the nil interface included. The
two-valued assertion `props["activate"].(bool)` does not panic. -/
def updateMfa (e : Env) (st : State) (props : List (String × JsonValue)) :
    Except String State :=
  match lookupInterface props "activate" with
  | some (.bool activate) =>
    if activate then
      match lookupInterface props "token" with
      | some (.string token) =>
        if len token == 0 then .ok (SetInvalidParam st "updateMfa" "token")
        else .ok (updateMfa.apply e st activate token)
      | _ => .error "interface conversion: interface is not string"
    else .ok (updateMfa.apply e st activate "")
  | _ => .ok (SetInvalidParam st "updateMfa" "activate")

/-! ## Vocabulary of the statements -/

/-- True for the calls the revocation sweep issues: the enumeration, the audit entries,
the removals and revocations, and the cache eviction. -/
def Call.isSweep : Call → Bool
  | .LogAudit _ _ => true
  | .SessionGetSessions _ => true
  | .SessionRemove _ => true
  | .RevokeAccessToken _ => true
  | .RevokeWebrtcToken _ => true
  | .RemoveAllSessionsForUserId _ => true
  | _ => false

/-- A device id that is non-empty and starts with a registered platform followed by a
colon. -/
def validDeviceId (e : Env) (deviceId : String) : Bool :=
  deviceId != "" &&
    (strings.HasPrefix deviceId (e.model.PUSH_NOTIFY_APPLE ++ ":") ||
      strings.HasPrefix deviceId (e.model.PUSH_NOTIFY_ANDROID ++ ":"))


/-- The calls `RevokeAllSession` issues for one enumerated session when nothing fails. -/
def sweepCalls (userId : String) (s : Session) : List Call :=
  [.LogAudit userId ("session_id=" ++ s.Id),
   if s.IsOAuth then .RevokeAccessToken s.Token else .SessionRemove s.Id,
   .RevokeWebrtcToken s.Id]

/-- True when `Session().Remove` was called with the id of `s` during a sweep over `l`:
some enumerated session without `IsOAuth` has that id. -/
def removedBy (l : List Session) (s : Session) : Bool :=
  l.any (fun x => !x.IsOAuth && s.Id == x.Id)

/-- True when `app.RevokeAccessToken` was called with `token` during a sweep over `l`:
some enumerated session with `IsOAuth` has that token. -/
def grantRevokedBy (l : List Session) (token : String) : Bool :=
  l.any (fun x => x.IsOAuth && token == x.Token)

/-- True when `doLogin` called `app.RevokeSessionById` with the id of `s` while looping over
`l`: some enumerated session bound to the device has that id. -/
def revokedForDevice (deviceId : String) (l : List Session) (s : Session) : Bool :=
  l.any (fun x => x.DeviceId == deviceId && s.Id == x.Id)

/-- True for the calls that write to a store table, to the session cache or to a provider. -/
def Call.isMutation : Call → Bool
  | .SessionRemove _ => true
  | .SessionSave _ => true
  | .SessionUpdateRoles _ _ => true
  | .UserUpdate _ => true
  | .UserUpdatePassword _ _ => true
  | .PasswordRecoveryDelete _ => true
  | .RevokeAccessToken _ => true
  | .RevokeWebrtcToken _ => true
  | .RevokeSessionById _ => true
  | .RemoveAllSessionsForUserId _ => true
  | .AddSessionToCache _ => true
  | .CreateOAuthUser _ _ => true
  | .LdapSwitchToLdap _ _ _ => true
  | _ => false

/-- The calls a handler issued: the part of the trace of `st2` that was appended to the
trace of `st`. -/
def callsSince (st st2 : State) : List Call :=
  st2.calls.drop st.calls.length

/-- The sessions of a principal, as `Session().GetSessions` enumerates them. -/
def sessionsOf (st : State) (userId : String) : List Session :=
  st.sessions.filter (fun s => s.UserId == userId)

/-- The tokens the statement about `CheckUserDomain` speaks of: `domains` in lower case,
split on white space, `,` and `@`. -/
def domainTokens (e : Env) (domains : String) : List String :=
  strings.FieldsFunc (strings.ToLower e domains)
    (fun c => unicode.IsSpace c || c == ',' || c == '@')

/-- True for the entries of the audit log. -/
def Call.isAudit : Call → Bool
  | .LogAudit _ _ => true
  | _ => false

/-! ## Concrete scenarios -/

namespace Scenario

/-- Values for the constants of package `model`. -/
def consts : ModelConsts :=
  { USER_AUTH_SERVICE_LDAP := "ldap",
    MISSING_AUTH_ACCOUNT_ERROR := "store.sql_user.get_by_auth.missing_account.app_error",
    HEADER_TOKEN := "token", SESSION_COOKIE_TOKEN := "MMAUTHTOKEN",
    SESSION_PROP_PLATFORM := "platform", SESSION_PROP_OS := "os",
    SESSION_PROP_BROWSER := "browser",
    PERMISSION_MANAGE_SYSTEM := "manage_system", PERMISSION_MANAGE_ROLES := "manage_roles",
    PASSWORD_RECOVERY_CODE_SIZE := 4, PASSWORD_RECOVER_EXPIRY_TIME := 3600000,
    OAUTH_ACTION_SIGNUP := "signup", OAUTH_ACTION_EMAIL_TO_SSO := "email_to_sso",
    USER_AUTH_SERVICE_SAML := "saml",
    PUSH_NOTIFY_APPLE := "apple", PUSH_NOTIFY_ANDROID := "android",
    TEAM_OPEN := "O", TEAM_INVITE := "I" }

/-- The error a failing store call reports in the scenarios. -/
def storeErr : AppError := NewLocAppError "SqlStore" "store.sql.app_error" ""

/-- An LDAP provider that accepts the password `ldap-secret`. -/
def ldap : LdapInterface :=
  { CheckPassword := fun _ password =>
      if password == "ldap-secret" then none
      else some (NewLocAppError "CheckPassword" "ent.ldap.do_login.invalid_password.app_error" ""),
    SwitchToLdap := fun _ _ ldapPassword =>
      if ldapPassword == "ldap-secret" then none
      else some (NewLocAppError "SwitchToLdap" "ent.ldap.do_login.invalid_password.app_error" "") }

/-- The rule of `model.IsValidUserRoles`: the roles are separated by one space, each of
them is a built-in role, and the list is not the single role `system_admin`. -/
def isValidUserRoles (userRoles : String) : Bool :=
  let roles := (userRoles.data.splitOn ' ').map String.mk
  roles.all (fun role => ["channel_user", "channel_admin", "team_user", "team_admin",
    "system_user", "system_admin"].contains role) && !(roles == ["system_admin"])

/-- An environment in which no external call fails and no LDAP provider is registered.
Passwords of at least five bytes meet the policy; system admins hold every permission. -/
def env : Env :=
  { model := consts, GetMillis := 5000000,
    SessionLengthWebInDays := 30, SessionLengthMobileInDays := 30,
    fault := fun _ => none,
    NewId := fun n => String.mk (List.replicate (n + 1) (Char.ofNat 110)),
    HashPassword := fun p => "hash:" ++ p,
    IsPasswordValid := fun p =>
      if len p < 5 then some (NewLocAppError "IsPasswordValid" "model.user.is_valid.pwd.app_error" "")
      else none,
    IsValidUserRoles := isValidUserRoles,
    checkPasswordAndAllCriteria := fun u p _ =>
      if u.Password == "hash:" ++ p then none
      else some (NewLocAppError "checkUserPassword" "api.user.check_user_password.invalid.app_error" ""),
    checkUserMfa := fun _ _ => none,
    HasPermissionTo := fun s _ => s.Roles == "system_admin",
    GetLdapInterface := none,
    GetOauthProvider := fun _ => some { GetAuthDataFromJson := fun d => d },
    CreateOAuthUser := fun _ _ =>
      .error (NewLocAppError "CreateOAuthUser" "api.user.create_oauth_user.create.app_error" ""),
    user_agent := fun _ => { Platform := "", OS := "", BrowserName := "", BrowserVersion := "" },
    GetSamlInterface := none,
    GetMetricsInterface := false,
    GetUserForLogin := fun users loginId _ =>
      match users.find? (fun u => u.Email == loginId) with
      | some u => .ok u
      | none => .error (NewLocAppError "GetUserForLogin" "store.sql_user.get_for_login.app_error" ""),
    authenticateUser := fun u p _ =>
      if u.Password == "hash:" ++ p then (u, none)
      else (u, some (NewLocAppError "checkUserPassword"
        "api.user.check_user_password.invalid.app_error" "")),
    checkUserAdditionalAuthenticationCriteria := fun _ _ => none,
    DecodeString := fun x => .ok x,
    MapFromJson := fun x => if x == "" then [] else [("action", x)],
    Title := fun x => x,
    GetSiteURL := "https://chat.example.com",
    GetMfaInterface := none,
    getTeamIdFromQuery := fun q => .ok (lookup q "team_id"),
    EncodeToString := fun x => x,
    MapToJson := fun m => String.intercalate "&" (m.map (fun kv => kv.1 ++ "=" ++ kv.2)),
    GetSanitizeOptions := [("email", true), ("fullname", true)],
    ToLower := Char.toLower }

/-- The environment `env` with the LDAP provider registered. -/
def envLdap : Env := { env with GetLdapInterface := some ldap }

/-- A session record that was saved one second before `env.GetMillis`. -/
def sess (id token userId deviceId : String) (isOAuth : Bool) : Session :=
  { Id := id, Token := token, CreateAt := 4999000, ExpiresAt := 0, UserId := userId,
    DeviceId := deviceId, Roles := "system_user", IsOAuth := isOAuth, Props := [] }

/-- A password account. -/
def alice : User :=
  { Id := "alice", Email := "alice@example.com", Password := "hash:secret", AuthData := none,
    AuthService := "", Roles := "system_user", DeleteAt := 0 }

/-- An LDAP account. -/
def bob : User :=
  { Id := "bob", Email := "bob@example.com", Password := "", AuthData := some "uid=bob",
    AuthService := "ldap", Roles := "system_user", DeleteAt := 0 }

/-- An account whose method of record is the OAuth service `gitlab`. -/
def carol : User :=
  { Id := "carol", Email := "carol@example.com", Password := "", AuthData := some "carol-ext",
    AuthService := "gitlab", Roles := "system_user", DeleteAt := 0 }

/-- A browser session of alice. -/
def s1 : Session := sess "s1" "t1" "alice" "" false

/-- A session of alice that was issued for an OAuth access token. -/
def s2 : Session := sess "s2" "t2" "alice" "" true

/-- A mobile session of alice. -/
def s3 : Session := sess "s3" "t3" "alice" "apple:phone" false

/-- A session of bob. -/
def s4 : Session := sess "s4" "t4" "bob" "" false

/-- A store with three accounts, their sessions and one recovery token of alice that was
created one second before `env.GetMillis`; the request context is that of session `s1`. -/
def state : State :=
  { users := [alice, bob, carol], sessions := [s1, s2, s3, s4],
    recovery := [{ UserId := "alice", Code := "abcd", CreateAt := 4999000 }],
    accessData := ["t2"], cache := [s1, s4], idCounter := 0, calls := [], pending := [],
    Err := none, Session := s1, header := [], cookies := [], body := [] }

/-- A request with the given JSON body. -/
def req (props : List (String × String)) : Request :=
  { props := props, vars := [], form := [], query := [], UserAgent := "",
    Host := "chat.example.com",
    Protocol := "https" }

/-- The environment `envLdap` with `User().UpdatePassword` failing. -/
def envPasswordWriteFails : Env :=
  { envLdap with fault := fun c =>
      match c with
      | .UserUpdatePassword _ _ => some storeErr
      | _ => none }

/-- The environment `env` with `User().Update` failing. -/
def envUserUpdateFails : Env :=
  { env with fault := fun c =>
      match c with
      | .UserUpdate _ => some storeErr
      | _ => none }

/-- The environment `env` with `app.RevokeSessionById` failing. -/
def envRevokeFails : Env :=
  { env with fault := fun c =>
      match c with
      | .RevokeSessionById _ => some storeErr
      | _ => none }

/-- The environment `env` with `app.RevokeAccessToken` failing. -/
def envAccessTokenFails : Env :=
  { env with fault := fun c =>
      match c with
      | .RevokeAccessToken _ => some storeErr
      | _ => none }

/-- The request `POST /users/claim/oauth_to_email` of alice. -/
def oauthToEmailReq : Request := req [("password", "new-secret"), ("email", "alice@example.com")]

/-- The environment `env` two hours later: the recovery token of alice is older than the
validity window. -/
def envLate : Env := { env with GetMillis := 12199000 }

/-- An account with a 26-byte id, as the route `update_roles` requires. -/
def dave : User :=
  { Id := "abcdefghijklmnopqrstuvwxyz", Email := "dave@example.com", Password := "hash:secret",
    AuthData := none, AuthService := "", Roles := "system_user", DeleteAt := 0 }

/-- The session of a system admin. -/
def adminSession : Session :=
  { Id := "s9", Token := "t9", CreateAt := 4999000, ExpiresAt := 0, UserId := "root",
    DeviceId := "", Roles := "system_admin", IsOAuth := false, Props := [] }

/-- The store of `state` with dave added, in a request made by the system admin. -/
def adminState : State :=
  { state with users := [alice, bob, carol, dave], Session := adminSession }

/-- The request `POST /users/abcdefghijklmnopqrstuvwxyz/update_roles`. -/
def updateRolesReq : Request :=
  { props := [("new_roles", "system_user system_admin")],
    vars := [("user_id", "abcdefghijklmnopqrstuvwxyz")],
    form := [], query := [], UserAgent := "", Host := "chat.example.com",
    Protocol := "https" }

/-- The request `POST /users/claim/email_to_ldap` of alice with her correct password. -/
def emailToLdapReq (ldapPassword : String) : Request :=
  req [("email", "alice@example.com"), ("email_password", "secret"), ("ldap_id", "uid=alice"),
    ("ldap_password", ldapPassword)]

/-- The request `POST /users/reset_password` with the code of alice's recovery token. -/
def resetReq : Request := req [("code", "abcd"), ("new_password", "new-secret")]

/-- The request `POST /users/login` from the phone of alice; the device id is passed to
`doLogin` separately. -/
def loginReq : Request := req [("login_id", "alice@example.com"), ("password", "secret")]

/-- The request that completes the OAuth flow of carol; the provider of the scenario
returns the payload as auth-data. -/
def oauthReq : Request := req []

/-- The environment `env` with `Session().Remove` failing. -/
def envSessionRemoveFails : Env :=
  { env with fault := fun c =>
      match c with
      | .SessionRemove _ => some storeErr
      | _ => none }

/-- The environment `env` with `Session().Save` failing. -/
def envSessionSaveFails : Env :=
  { env with fault := fun c =>
      match c with
      | .SessionSave _ => some storeErr
      | _ => none }

/-- The environment `env` with `Session().UpdateRoles` failing. -/
def envUpdateRolesFails : Env :=
  { env with fault := fun c =>
      match c with
      | .SessionUpdateRoles _ _ => some storeErr
      | _ => none }

/-- The environment `env` with `app.RevokeSessionsForDeviceId` failing. -/
def envDeviceRevokeFails : Env :=
  { env with fault := fun c =>
      match c with
      | .RevokeSessionsForDeviceId _ _ _ => some storeErr
      | _ => none }

/-- The request `POST /users/attach_device` that binds the phone of alice. -/
def attachReq : Request := req [("device_id", "apple:phone")]

/-- The store of `state` with every session of alice in the cache. -/
def cachedState : State := { state with cache := [s1, s3, s4] }

/-- The store of `state` with the `IsOAuth` session of alice in the cache as well. -/
def oauthCachedState : State := { state with cache := [s1, s2, s4] }

/-- An LDAP account with a 26-byte id, as the route `update_active` requires. -/
def erin : User :=
  { Id := "ldapuserldapuserldapuser26", Email := "erin@example.com", Password := "",
    AuthData := some "uid=erin", AuthService := "ldap", Roles := "system_user", DeleteAt := 0 }

/-- A browser session of dave. -/
def daveSession : Session := sess "s7" "t7" "abcdefghijklmnopqrstuvwxyz" "" false

/-- The store of `state` with dave and erin added and the session of dave, in a request
made by dave, who does not hold the manage-system permission. -/
def daveState : State :=
  { state with users := [alice, bob, carol, dave, erin],
               sessions := [s1, s2, s3, s4, daveSession], Session := daveSession }

/-- The store of `daveState` in a request made by the system admin. -/
def adminDaveState : State := { daveState with Session := adminSession }

/-- The request `POST /users/update_active`. -/
def updateActiveReq (userId active : String) : Request :=
  req [("user_id", userId), ("active", active)]

/-- A SAML provider that signs alice in. -/
def saml : SamlInterface :=
  { DoLogin := fun _ _ => .ok alice,
    BuildRequest := fun relayState => .ok ("https://idp.example.com/?" ++ relayState) }

/-- The environment `env` with the SAML provider registered and `Session().GetSessions`
failing. -/
def envSamlSweepFails : Env :=
  { env with
    GetSamlInterface := some saml,
    fault := fun c =>
      match c with
      | .SessionGetSessions _ => some storeErr
      | _ => none }

/-- The request that completes the SAML flow with the relay action `email_to_sso`; in the
scenario the relay state decodes to the action. -/
def samlReq : Request :=
  { props := [], vars := [], form := [("SAMLResponse", "<xml/>"), ("RelayState", "email_to_sso")],
    query := [], UserAgent := "", Host := "chat.example.com", Protocol := "https" }

/-- The account that is created for frank at his first OAuth login. -/
def frank (service userData : String) : User :=
  { Id := "frank", Email := "frank@example.com", Password := "", AuthData := some userData,
    AuthService := service, Roles := "system_user", DeleteAt := 0 }

/-- The environment `env` in which `app.CreateOAuthUser` creates the account of frank. -/
def envCreateOAuth : Env :=
  { env with CreateOAuthUser := fun service userData => .ok (frank service userData) }

/-- A team that is open to everybody. -/
def openTeam : Team := { Type_ := "O", AllowedDomains := "" }

/-- An invite-only team with allowed email domains. -/
def inviteTeam : Team := { Type_ := "I", AllowedDomains := "Example.com, @corp.example.org" }

/-- The environment `env` with `Session().Remove` failing for the session `s3` only. -/
def envRemoveS3Fails : Env :=
  { env with fault := fun c => if c = .SessionRemove "s3" then some storeErr else none }

/-- The environment `env` at the moment the age of the recovery token of alice equals the
validity window of 3600000 ms. -/
def envAtExpiry : Env := { env with GetMillis := 8599000 }

/-- The environment `env` one millisecond before that moment. -/
def envBeforeExpiry : Env := { env with GetMillis := 8598999 }

end Scenario

/-! ## Revocation sweep -/

/-- The sweep loop when neither `Session().Remove` nor `app.RevokeAccessToken` fails: it runs
to the end, removes the records whose id was passed to `Session().Remove` and the records
and cache entries whose token was passed to `app.RevokeAccessToken`, revokes the grants of
the enumerated `IsOAuth` sessions and issues `sweepCalls` for each session in turn. -/
theorem RevokeAllSession_loop_ok (e : Env) (userId : String)
    (hR : ∀ id, e.fault (.SessionRemove id) = none)
    (hA : ∀ t, e.fault (.RevokeAccessToken t) = none) (l : List Session) (st : State) :
    RevokeAllSession.loop e userId l st =
      ({ st with sessions := st.sessions.filter
                   (fun s => !removedBy l s && !grantRevokedBy l s.Token),
                 cache := st.cache.filter (fun s => !grantRevokedBy l s.Token),
                 accessData := st.accessData.filter (fun t => !grantRevokedBy l t),
                 calls := st.calls ++ l.flatMap (sweepCalls userId) }, false) := by
  induction l generalizing st with
  | nil => simp [RevokeAllSession.loop, removedBy, grantRevokedBy]
  | cons x rest ih =>
    unfold RevokeAllSession.loop
    cases hx : x.IsOAuth
    · simp only [Store.Session.Remove, hR, ih, app.RevokeWebrtcToken, LogAuditWithUserId,
        State.call, hx, Bool.false_eq_true, if_false, List.filter_filter]
      simp only [removedBy, grantRevokedBy, sweepCalls, hx, List.any_cons, List.flatMap_cons,
        Bool.not_false, Bool.true_and, Bool.false_and, Bool.false_or, Bool.not_or,
        List.append_assoc, if_false, Bool.false_eq_true]
      refine congrArg (fun z => (z, false)) ?_
      congr 1
      · apply List.filter_congr
        intro s _
        simp only [bne, Bool.and_assoc, Bool.and_comm, Bool.and_left_comm]
    · simp only [app.RevokeAccessToken, hA, ih, app.RevokeWebrtcToken, LogAuditWithUserId,
        State.call, hx, if_true, List.filter_filter]
      simp only [removedBy, grantRevokedBy, sweepCalls, hx, List.any_cons, List.flatMap_cons,
        Bool.not_true, Bool.true_and, Bool.false_and, Bool.false_or, Bool.not_or,
        List.append_assoc, if_true]
      refine congrArg (fun z => (z, false)) ?_
      congr 1
      · apply List.filter_congr
        intro s _
        simp only [bne, Bool.and_assoc, Bool.and_comm, Bool.and_left_comm]
      · apply List.filter_congr
        intro t _
        simp only [bne, Bool.and_assoc, Bool.and_comm, Bool.and_left_comm]
      · apply List.filter_congr
        intro s _
        simp only [bne, Bool.and_assoc, Bool.and_comm, Bool.and_left_comm]

/-- The sweep loop under any fault oracle: it only removes session records and cache
entries, it touches nothing but the session table, the cache, the grants, the call trace
and `c.Err`; when it leaves through `return` an error is set, and when it runs to the end
no error is set, no record is left whose id was passed to `Session().Remove`, and no
record is left whose token was passed to an `app.RevokeAccessToken` that did not fail. -/
theorem RevokeAllSession_loop_spec (e : Env) (userId : String) (l : List Session) (st : State) :
    (∀ s ∈ (RevokeAllSession.loop e userId l st).1.sessions, s ∈ st.sessions) ∧
    ((RevokeAllSession.loop e userId l st).2 = true →
      (RevokeAllSession.loop e userId l st).1.Err.isSome = true) ∧
    ((RevokeAllSession.loop e userId l st).2 = false →
      (RevokeAllSession.loop e userId l st).1.Err = st.Err ∧
      ∀ s ∈ (RevokeAllSession.loop e userId l st).1.sessions,
        removedBy l s = false ∧
        ∀ x ∈ l, x.IsOAuth = true → e.fault (.RevokeAccessToken x.Token) = none →
          s.Token ≠ x.Token) ∧
    (RevokeAllSession.loop e userId l st).1.users = st.users ∧
    (∀ s ∈ (RevokeAllSession.loop e userId l st).1.cache, s ∈ st.cache) ∧
    (RevokeAllSession.loop e userId l st).1.recovery = st.recovery ∧
    (RevokeAllSession.loop e userId l st).1.pending = st.pending ∧
    (RevokeAllSession.loop e userId l st).1.Session = st.Session ∧
    (RevokeAllSession.loop e userId l st).1.cookies = st.cookies ∧
    (RevokeAllSession.loop e userId l st).1.body = st.body := by
  induction l generalizing st with
  | nil => simp [RevokeAllSession.loop, removedBy]
  | cons x rest ih =>
    unfold RevokeAllSession.loop
    cases hx : x.IsOAuth
    · cases hf : e.fault (.SessionRemove x.Id) with
      | some err =>
        simp [Store.Session.Remove, hf, LogAuditWithUserId, State.call]
      | none =>
        have h := ih (app.RevokeWebrtcToken
          (Store.Session.Remove e (LogAuditWithUserId st userId ("session_id=" ++ x.Id)) x.Id).1 x.Id)
        simp only [Store.Session.Remove, hf, LogAuditWithUserId, State.call,
          app.RevokeWebrtcToken] at h ⊢
        obtain ⟨h1, h2, h3, h4⟩ := h
        refine ⟨?_, h2, ?_, h4⟩
        · intro s hs
          exact (List.mem_filter.mp (h1 s hs)).1
        · intro hb
          obtain ⟨h5, h6⟩ := h3 hb
          refine ⟨h5, ?_⟩
          intro s hs
          have hm := List.mem_filter.mp (h1 s hs)
          obtain ⟨h7, h8⟩ := h6 s hs
          refine ⟨?_, ?_⟩
          · unfold removedBy at h7 ⊢
            rw [List.any_cons, h7, Bool.or_false]
            simpa [hx, bne] using hm.2
          · intro y hy hyo hyf
            rcases List.mem_cons.mp hy with hxy | hyr
            · rw [hxy, hx] at hyo
              exact absurd hyo (by decide)
            · exact h8 y hyr hyo hyf
    · have h := ih (app.RevokeWebrtcToken
        (app.RevokeAccessToken e (LogAuditWithUserId st userId ("session_id=" ++ x.Id)) x.Token).1 x.Id)
      cases hf : e.fault (.RevokeAccessToken x.Token) with
      | some err =>
        simp only [app.RevokeAccessToken, hf, LogAuditWithUserId, State.call,
          app.RevokeWebrtcToken, if_true] at h ⊢
        obtain ⟨h1, h2, h3, h4⟩ := h
        refine ⟨h1, h2, ?_, h4⟩
        intro hb
        obtain ⟨h5, h6⟩ := h3 hb
        refine ⟨h5, ?_⟩
        intro s hs
        obtain ⟨h7, h8⟩ := h6 s hs
        refine ⟨?_, ?_⟩
        · unfold removedBy at h7 ⊢
          rw [List.any_cons, h7, Bool.or_false]
          simp [hx]
        · intro y hy hyo hyf
          rcases List.mem_cons.mp hy with hxy | hyr
          · rw [hxy, hf] at hyf
            exact absurd hyf (by simp)
          · exact h8 y hyr hyo hyf
      | none =>
        simp only [app.RevokeAccessToken, hf, LogAuditWithUserId, State.call,
          app.RevokeWebrtcToken, if_true] at h ⊢
        obtain ⟨h1, h2, h3, hu, hc, h4⟩ := h
        refine ⟨?_, h2, ?_, hu, ?_, h4⟩
        · intro s hs
          exact (List.mem_filter.mp (h1 s hs)).1
        · intro hb
          obtain ⟨h5, h6⟩ := h3 hb
          refine ⟨h5, ?_⟩
          intro s hs
          have hm := List.mem_filter.mp (h1 s hs)
          obtain ⟨h7, h8⟩ := h6 s hs
          refine ⟨?_, ?_⟩
          · unfold removedBy at h7 ⊢
            rw [List.any_cons, h7, Bool.or_false]
            simp [hx]
          · intro y hy hyo hyf
            rcases List.mem_cons.mp hy with hxy | hyr
            · rw [hxy]
              simpa [bne] using hm.2
            · exact h8 y hyr hyo hyf
        · intro s hs
          exact (List.mem_filter.mp (hc s hs)).1

/-- The sweep under any fault oracle: it only removes session records; when it ends with
no error set, every remaining record of the principal is an `IsOAuth` session whose
`app.RevokeAccessToken` call failed, and the cache holds no entry of the principal; users,
recovery tokens, pending work, the context session, cookies and body are untouched. -/
theorem RevokeAllSession_spec (e : Env) (st : State) (userId : String) :
    (∀ s ∈ (RevokeAllSession e st userId).sessions, s ∈ st.sessions) ∧
    ((RevokeAllSession e st userId).Err = none →
      st.Err = none ∧
      (∀ s ∈ (RevokeAllSession e st userId).sessions, s.UserId = userId →
        s.IsOAuth = true ∧ e.fault (.RevokeAccessToken s.Token) ≠ none) ∧
      ∀ s ∈ (RevokeAllSession e st userId).cache, s.UserId ≠ userId) ∧
    (RevokeAllSession e st userId).users = st.users ∧
    (RevokeAllSession e st userId).recovery = st.recovery ∧
    (RevokeAllSession e st userId).pending = st.pending ∧
    (RevokeAllSession e st userId).Session = st.Session ∧
    (RevokeAllSession e st userId).cookies = st.cookies ∧
    (RevokeAllSession e st userId).body = st.body := by
  unfold RevokeAllSession Store.Session.GetSessions
  cases hf : e.fault (.SessionGetSessions userId) with
  | some err => simp [State.call]
  | none =>
    have h := RevokeAllSession_loop_spec e userId
      (st.sessions.filter (fun s => s.UserId == userId)) (st.call (.SessionGetSessions userId))
    dsimp only
    generalize RevokeAllSession.loop e userId
      (st.sessions.filter (fun s => s.UserId == userId)) (st.call (.SessionGetSessions userId))
      = res at h
    obtain ⟨st2, b⟩ := res
    obtain ⟨h1, h2, h3, hu, hc, h4⟩ := h
    cases b with
    | true =>
      simp only [State.call] at h1 h2 hu h4 ⊢
      refine ⟨h1, ?_, hu, h4⟩
      intro hn
      have := h2 trivial
      simp [hn] at this
    | false =>
      obtain ⟨h5, h6⟩ := h3 rfl
      simp only [State.call, app.RemoveAllSessionsForUserId] at h1 hu hc h4 h5 h6 ⊢
      refine ⟨h1, ?_, hu, h4⟩
      intro hn
      refine ⟨by rw [← h5]; exact hn, ?_, ?_⟩
      · intro s hs hu
        have hmem : s ∈ st.sessions.filter (fun s => s.UserId == userId) :=
          List.mem_filter.mpr ⟨h1 s hs, by simp [hu]⟩
        obtain ⟨hr, hg⟩ := h6 s hs
        cases ho : s.IsOAuth with
        | true =>
          refine ⟨rfl, ?_⟩
          intro hnone
          exact hg s hmem ho hnone rfl
        | false =>
          have : removedBy (st.sessions.filter (fun s => s.UserId == userId)) s = true := by
            unfold removedBy
            exact List.any_eq_true.mpr ⟨s, hmem, by simp [ho]⟩
          rw [hr] at this
          exact absurd this (by decide)
      · intro s hs
        simpa using (List.mem_filter.mp hs).2

/-- C3: when every external call succeeds, `RevokeAllSession(c, userId)` sets no error and
revokes each session returned by `GetSessions(userId)`: it issues `sweepCalls` for each of
them in turn (`Session().Remove` for a session without `IsOAuth`, `app.RevokeAccessToken`
for one with `IsOAuth`, `RevokeWebrtcToken` after either), the durable record of every
enumerated session is gone, the grant of every enumerated session with `IsOAuth` is gone,
and afterwards the cache holds no entry of the principal, only the entries of other
principals that no revocation evicted. -/
theorem RevokeAllSession_all_calls_succeed (e : Env) (st : State) (userId : String)
    (hok : ∀ c, e.fault c = none) :
    (RevokeAllSession e st userId).Err = st.Err ∧
    (RevokeAllSession e st userId).sessions =
      st.sessions.filter (fun s => !removedBy (sessionsOf st userId) s &&
        !grantRevokedBy (sessionsOf st userId) s.Token) ∧
    (RevokeAllSession e st userId).accessData =
      st.accessData.filter (fun t => !grantRevokedBy (sessionsOf st userId) t) ∧
    (RevokeAllSession e st userId).cache =
      (st.cache.filter (fun s => !grantRevokedBy (sessionsOf st userId) s.Token)).filter
        (fun s => s.UserId != userId) ∧
    (RevokeAllSession e st userId).calls =
      st.calls ++ [.SessionGetSessions userId] ++
        (sessionsOf st userId).flatMap (sweepCalls userId) ++
        [.RemoveAllSessionsForUserId userId] ∧
    (∀ s ∈ sessionsOf st userId, s ∉ (RevokeAllSession e st userId).sessions) ∧
    (∀ s ∈ (RevokeAllSession e st userId).sessions, s.UserId ≠ userId) ∧
    (∀ s ∈ sessionsOf st userId, s.IsOAuth = true →
      s.Token ∉ (RevokeAllSession e st userId).accessData) ∧
    (∀ s ∈ (RevokeAllSession e st userId).cache, s.UserId ≠ userId) := by
  have hloop := RevokeAllSession_loop_ok e userId (fun id => hok _) (fun t => hok _)
    (sessionsOf st userId) (st.call (.SessionGetSessions userId))
  have hrun : RevokeAllSession e st userId =
      app.RemoveAllSessionsForUserId
        { st.call (.SessionGetSessions userId) with
          sessions := st.sessions.filter (fun s => !removedBy (sessionsOf st userId) s &&
            !grantRevokedBy (sessionsOf st userId) s.Token),
          cache := st.cache.filter (fun s => !grantRevokedBy (sessionsOf st userId) s.Token),
          accessData := st.accessData.filter (fun t => !grantRevokedBy (sessionsOf st userId) t),
          calls := (st.call (.SessionGetSessions userId)).calls ++
            (sessionsOf st userId).flatMap (sweepCalls userId) } userId := by
    unfold RevokeAllSession Store.Session.GetSessions
    rw [hok]
    dsimp only
    unfold sessionsOf at hloop
    rw [hloop]
    rfl
  have hgone : ∀ s ∈ sessionsOf st userId,
      (!removedBy (sessionsOf st userId) s && !grantRevokedBy (sessionsOf st userId) s.Token)
        = false := by
    intro s hs
    cases ho : s.IsOAuth with
    | false =>
      have : removedBy (sessionsOf st userId) s = true := by
        unfold removedBy
        exact List.any_eq_true.mpr ⟨s, hs, by simp [ho]⟩
      simp [this]
    | true =>
      have : grantRevokedBy (sessionsOf st userId) s.Token = true := by
        unfold grantRevokedBy
        exact List.any_eq_true.mpr ⟨s, hs, by simp [ho]⟩
      simp [this]
  rw [hrun]
  refine ⟨rfl, rfl, rfl, rfl, ?_, ?_, ?_, ?_, ?_⟩
  · simp [app.RemoveAllSessionsForUserId, State.call]
  · intro s hs hmem
    have hm := (List.mem_filter.mp hmem).2
    rw [hgone s hs] at hm
    exact absurd hm (by decide)
  · intro s hmem hu
    have hm := List.mem_filter.mp hmem
    have hs : s ∈ sessionsOf st userId := List.mem_filter.mpr ⟨hm.1, by simp [hu]⟩
    have h2 := hm.2
    rw [hgone s hs] at h2
    exact absurd h2 (by decide)
  · intro s hs ho hmem
    have hm := (List.mem_filter.mp hmem).2
    have : grantRevokedBy (sessionsOf st userId) s.Token = true := by
      unfold grantRevokedBy
      exact List.any_eq_true.mpr ⟨s, hs, by simp [ho]⟩
    simp [this] at hm
  · intro s hmem
    have hm := (List.mem_filter.mp hmem).2
    simpa using hm

/-- Witness of C3: the statement at the scenario, where no call fails: the three sessions
of alice, the one with `IsOAuth` included, are gone from the store. -/
theorem RevokeAllSession_all_calls_succeed_witness :
    (∀ c, Scenario.env.fault c = none) ∧
    sessionsOf Scenario.state "alice" = [Scenario.s1, Scenario.s2, Scenario.s3] ∧
    (RevokeAllSession Scenario.env Scenario.state "alice").sessions = [Scenario.s4] ∧
    (RevokeAllSession Scenario.env Scenario.state "alice").accessData = [] ∧
    (RevokeAllSession Scenario.env Scenario.state "alice").cache = [Scenario.s4] :=
  have h := RevokeAllSession_all_calls_succeed Scenario.env Scenario.state "alice" (fun _ => rfl)
  ⟨fun _ => rfl, by decide, h.2.1.trans (by decide), h.2.2.1.trans (by decide),
    h.2.2.2.1.trans (by decide)⟩

/-- After `oauthToEmail.revoke` ends with no error set, the sweep has run. -/
theorem oauthToEmail_revoke_spec (e : Env) (st : State) (user : User)
    (h : (oauthToEmail.revoke e st user).Err = none) :
    (∀ s ∈ (oauthToEmail.revoke e st user).sessions,
      s ∈ st.sessions ∧ (s.UserId = st.Session.UserId →
        s.IsOAuth = true ∧ e.fault (.RevokeAccessToken s.Token) ≠ none)) ∧
    (∀ s ∈ (oauthToEmail.revoke e st user).cache, s.UserId ≠ st.Session.UserId) := by
  have hs := RevokeAllSession_spec e
    (st.go (.sendSignInChangeEmail user.Email "api.templates.signin_change_email.body.method_email"))
    st.Session.UserId
  unfold oauthToEmail.revoke at h ⊢
  simp only [State.go] at h hs ⊢
  generalize RevokeAllSession e _ st.Session.UserId = st4 at h hs ⊢
  obtain ⟨h1, h2, -⟩ := hs
  cases hE : st4.Err with
  | some err => simp [RemoveSessionCookie, hE] at h
  | none =>
    obtain ⟨-, h3, h4⟩ := h2 hE
    simp only [RemoveSessionCookie, hE, LogAudit, LogAuditWithUserId, State.call, Option.isSome_none,
      Bool.false_eq_true, if_false]
    exact ⟨fun s hs => ⟨h1 s hs, h3 s hs⟩, h4⟩

/-- After `emailToLdap.revoke` ends with no error set, the sweep has run. -/
theorem emailToLdap_revoke_spec (e : Env) (st : State) (user : User) (ldapId ldapPassword : String)
    (h : (emailToLdap.revoke e st user ldapId ldapPassword).Err = none) :
    (∀ s ∈ (emailToLdap.revoke e st user ldapId ldapPassword).sessions,
      s ∈ st.sessions ∧ (s.UserId = user.Id →
        s.IsOAuth = true ∧ e.fault (.RevokeAccessToken s.Token) ≠ none)) ∧
    (∀ s ∈ (emailToLdap.revoke e st user ldapId ldapPassword).cache, s.UserId ≠ user.Id) := by
  have hs := RevokeAllSession_spec e st user.Id
  unfold emailToLdap.revoke at h ⊢
  simp only at h hs ⊢
  generalize RevokeAllSession e st user.Id = st4 at h hs ⊢
  obtain ⟨h1, h2, -⟩ := hs
  cases hE : st4.Err with
  | some err => simp [RemoveSessionCookie, hE] at h
  | none =>
    obtain ⟨-, h3, h4⟩ := h2 hE
    have hframe : (emailToLdap.switch e (RemoveSessionCookie e st4) user ldapId ldapPassword).sessions
          = st4.sessions ∧
        (emailToLdap.switch e (RemoveSessionCookie e st4) user ldapId ldapPassword).cache
          = st4.cache := by
      unfold emailToLdap.switch Ldap.SwitchToLdap
      cases e.GetLdapInterface with
      | none => simp [RemoveSessionCookie]
      | some ldapInterface =>
        cases hsw : ldapInterface.SwitchToLdap user.Id ldapId ldapPassword <;>
          simp [hsw, RemoveSessionCookie, LogAudit, LogAuditWithUserId, State.call, State.go]
    have hc : (RemoveSessionCookie e st4).Err.isSome = false := by
      simp [RemoveSessionCookie, hE]
    simp only [hc, Bool.false_eq_true, if_false, hframe.1, hframe.2]
    exact ⟨fun s hs => ⟨h1 s hs, h3 s hs⟩, h4⟩

/-- After `ldapToEmail.revoke` ends with no error set, the sweep has run. -/
theorem ldapToEmail_revoke_spec (e : Env) (st : State) (user : User)
    (h : (ldapToEmail.revoke e st user).Err = none) :
    (∀ s ∈ (ldapToEmail.revoke e st user).sessions,
      s ∈ st.sessions ∧ (s.UserId = user.Id →
        s.IsOAuth = true ∧ e.fault (.RevokeAccessToken s.Token) ≠ none)) ∧
    (∀ s ∈ (ldapToEmail.revoke e st user).cache, s.UserId ≠ user.Id) := by
  have hs := RevokeAllSession_spec e st user.Id
  unfold ldapToEmail.revoke at h ⊢
  simp only at h hs ⊢
  generalize RevokeAllSession e st user.Id = st4 at h hs ⊢
  obtain ⟨h1, h2, -⟩ := hs
  cases hE : st4.Err with
  | some err => simp [RemoveSessionCookie, hE] at h
  | none =>
    obtain ⟨-, h3, h4⟩ := h2 hE
    simp only [RemoveSessionCookie, hE, LogAudit, LogAuditWithUserId, State.call, State.go,
      Option.isSome_none, Bool.false_eq_true, if_false]
    exact ⟨fun s hs => ⟨h1 s hs, h3 s hs⟩, h4⟩

/-- After a successful `oauthToEmail`, the sweep over the caller's sessions has run: a
session of the caller that is left is an `IsOAuth` session whose revocation failed. -/
theorem oauthToEmail_sweep (e : Env) (st : State) (r : Request)
    (h : (oauthToEmail e st r).Err = none) :
    (∀ s ∈ (oauthToEmail e st r).sessions, s.UserId = st.Session.UserId →
      s.IsOAuth = true ∧ e.fault (.RevokeAccessToken s.Token) ≠ none) ∧
    (∀ s ∈ (oauthToEmail e st r).cache, s.UserId ≠ st.Session.UserId) := by
  revert h
  cases hp : e.IsPasswordValid (lookup r.props "password") with
  | some err => simp [oauthToEmail, hp]
  | none =>
  by_cases hl : len (lookup r.props "email") = 0
  · simp [oauthToEmail, hp, hl, SetInvalidParam]
  cases hf : e.fault (.UserGetByEmail (lookup r.props "email")) with
  | some err =>
    simp [oauthToEmail, hp, hl, Store.User.GetByEmail, hf, LogAudit, LogAuditWithUserId,
      State.call]
  | none =>
  cases hu : st.users.find? (fun u => u.Email == lookup r.props "email") with
  | none =>
    simp [oauthToEmail, hp, hl, Store.User.GetByEmail, hf, hu, LogAudit, LogAuditWithUserId,
      State.call]
  | some user =>
  by_cases hid : user.Id = st.Session.UserId
  swap
  · simp [oauthToEmail, hp, hl, Store.User.GetByEmail, hf, hu, hid, LogAudit,
      LogAuditWithUserId, State.call]
  cases hw : e.fault (.UserUpdatePassword st.Session.UserId
      (e.HashPassword (lookup r.props "password"))) with
  | some err =>
    simp [oauthToEmail, hp, hl, Store.User.GetByEmail, hf, hu, hid, hw,
      Store.User.UpdatePassword, LogAudit, LogAuditWithUserId, State.call]
  | none =>
    simp only [oauthToEmail, hp, hl, Store.User.GetByEmail, hf, hu, hid, hw,
      Store.User.UpdatePassword, LogAudit, LogAuditWithUserId, State.call, beq_iff_eq,
      bne_self_eq_false, Bool.false_eq_true, if_false]
    intro h
    have key := oauthToEmail_revoke_spec e _ user h
    exact ⟨fun s hmem hu => (key.1 s hmem).2 hu, key.2⟩

/-- After a successful `emailToLdap`, the sweep over the account's sessions has run: a
session of the account that is left is an `IsOAuth` session whose revocation failed. -/
theorem emailToLdap_sweep (e : Env) (st : State) (r : Request) (user : User)
    (hu : st.users.find? (fun u => u.Email == lookup r.props "email") = some user)
    (h : (emailToLdap e st r).Err = none) :
    (∀ s ∈ (emailToLdap e st r).sessions, s.UserId = user.Id →
      s.IsOAuth = true ∧ e.fault (.RevokeAccessToken s.Token) ≠ none) ∧
    (∀ s ∈ (emailToLdap e st r).cache, s.UserId ≠ user.Id) := by
  revert h
  by_cases h1 : len (lookup r.props "email") = 0
  · simp [emailToLdap, h1, SetInvalidParam]
  by_cases h2 : len (lookup r.props "email_password") = 0
  · simp [emailToLdap, h1, h2, SetInvalidParam]
  by_cases h3 : len (lookup r.props "ldap_id") = 0
  · simp [emailToLdap, h1, h2, h3, SetInvalidParam]
  by_cases h4 : len (lookup r.props "ldap_password") = 0
  · simp [emailToLdap, h1, h2, h3, h4, SetInvalidParam]
  cases hf : e.fault (.UserGetByEmail (lookup r.props "email")) with
  | some err =>
    simp [emailToLdap, h1, h2, h3, h4, Store.User.GetByEmail, hf, LogAudit, LogAuditWithUserId,
      State.call]
  | none =>
  cases hc : e.checkPasswordAndAllCriteria user (lookup r.props "email_password")
      (lookup r.props "token") with
  | some err =>
    simp [emailToLdap, h1, h2, h3, h4, Store.User.GetByEmail, hf, hu, hc, LogAudit,
      LogAuditWithUserId, State.call]
  | none =>
    simp only [emailToLdap, h1, h2, h3, h4, Store.User.GetByEmail, hf, hu, hc, LogAudit,
      LogAuditWithUserId, State.call, beq_iff_eq, if_false]
    intro h
    have key := emailToLdap_revoke_spec e _ user _ _ h
    exact ⟨fun s hmem hu => (key.1 s hmem).2 hu, key.2⟩

/-- After a successful `ldapToEmail`, the sweep over the account's sessions has run: a
session of the account that is left is an `IsOAuth` session whose revocation failed. -/
theorem ldapToEmail_sweep (e : Env) (st : State) (r : Request) (user : User)
    (hu : st.users.find? (fun u => u.Email == lookup r.props "email") = some user)
    (h : (ldapToEmail e st r).Err = none) :
    (∀ s ∈ (ldapToEmail e st r).sessions, s.UserId = user.Id →
      s.IsOAuth = true ∧ e.fault (.RevokeAccessToken s.Token) ≠ none) ∧
    (∀ s ∈ (ldapToEmail e st r).cache, s.UserId ≠ user.Id) := by
  revert h
  by_cases h1 : len (lookup r.props "email") = 0
  · simp [ldapToEmail, h1, SetInvalidParam]
  cases hp : e.IsPasswordValid (lookup r.props "email_password") with
  | some err => simp [ldapToEmail, h1, hp]
  | none =>
  by_cases h4 : len (lookup r.props "ldap_password") = 0
  · simp [ldapToEmail, h1, hp, h4, SetInvalidParam]
  cases hf : e.fault (.UserGetByEmail (lookup r.props "email")) with
  | some err =>
    simp [ldapToEmail, h1, hp, h4, Store.User.GetByEmail, hf, LogAudit, LogAuditWithUserId,
      State.call]
  | none =>
  by_cases hs : user.AuthService = e.model.USER_AUTH_SERVICE_LDAP
  swap
  · simp [ldapToEmail, h1, hp, h4, Store.User.GetByEmail, hf, hu, hs, LogAudit,
      LogAuditWithUserId, State.call]
  cases hl : e.GetLdapInterface with
  | none =>
    simp [ldapToEmail, h1, hp, h4, Store.User.GetByEmail, hf, hu, hs, hl, LogAudit,
      LogAuditWithUserId, State.call]
  | some ldapInterface =>
  cases ha : user.AuthData with
  | none =>
    simp [ldapToEmail, h1, hp, h4, Store.User.GetByEmail, hf, hu, hs, hl, ha, LogAudit,
      LogAuditWithUserId, State.call]
  | some authData =>
  cases hc : ldapInterface.CheckPassword authData (lookup r.props "ldap_password") with
  | some err =>
    simp [ldapToEmail, ldapToEmail.migrate, Ldap.CheckPassword, h1, hp, h4,
      Store.User.GetByEmail, hf, hu, hs, hl, ha, hc, LogAudit, LogAuditWithUserId, State.call]
  | none =>
  cases hm : e.checkUserMfa user (lookup r.props "token") with
  | some err =>
    simp [ldapToEmail, ldapToEmail.migrate, Ldap.CheckPassword, h1, hp, h4,
      Store.User.GetByEmail, hf, hu, hs, hl, ha, hc, hm, LogAudit, LogAuditWithUserId,
      State.call]
  | none =>
  cases hw : e.fault (.UserUpdatePassword user.Id
      (e.HashPassword (lookup r.props "email_password"))) with
  | some err =>
    simp [ldapToEmail, ldapToEmail.migrate, Ldap.CheckPassword, h1, hp, h4,
      Store.User.GetByEmail, hf, hu, hs, hl, ha, hc, hm, hw, Store.User.UpdatePassword,
      LogAudit, LogAuditWithUserId, State.call]
  | none =>
    simp only [ldapToEmail, ldapToEmail.migrate, Ldap.CheckPassword, h1, hp, h4,
      Store.User.GetByEmail, hf, hu, hs, hl, ha, hc, hm, hw, Store.User.UpdatePassword,
      LogAudit, LogAuditWithUserId, State.call, beq_iff_eq, if_false, bne_self_eq_false,
      Bool.false_eq_true]
    intro h
    have key := ldapToEmail_revoke_spec e _ user h
    exact ⟨fun s hmem hu => (key.1 s hmem).2 hu, key.2⟩

/-- C1, as stated, fails: `app.RevokeAccessToken` fails for the token of `s2`, the session
of alice with `IsOAuth` set; the sweep discards that result, so `oauthToEmail` for alice
completes with no error set, and `s2`, which was in the store before the call, is still
there. -/
theorem oauthToEmail_keeps_oauth_session :
    Scenario.s2 ∈ Scenario.state.sessions ∧
    Scenario.s2.UserId = Scenario.state.Session.UserId ∧
    Scenario.s2.IsOAuth = true ∧
    Scenario.envAccessTokenFails.fault (.RevokeAccessToken Scenario.s2.Token) =
      some Scenario.storeErr ∧
    (oauthToEmail Scenario.envAccessTokenFails Scenario.state Scenario.oauthToEmailReq).Err =
      none ∧
    Scenario.s2 ∈
      (oauthToEmail Scenario.envAccessTokenFails Scenario.state
        Scenario.oauthToEmailReq).sessions := by
  decide

/-- C1 (amended): after `oauthToEmail`, `emailToLdap` or `ldapToEmail` completes with no error
set, a session that the store held for the principal before the call remains only if it
has `IsOAuth` set and the call of `app.RevokeAccessToken` for its token failed (the sweep
discards the result of that call); the session cache holds no entry of the principal. The
principal is the caller for `oauthToEmail` and the account found by the given email for
the other two. -/
theorem migration_removes_sessions (e : Env) (st : State) (r : Request) :
    ((oauthToEmail e st r).Err = none →
      (∀ s ∈ st.sessions, s.UserId = st.Session.UserId → s ∈ (oauthToEmail e st r).sessions →
        s.IsOAuth = true ∧ e.fault (.RevokeAccessToken s.Token) ≠ none) ∧
      (∀ s ∈ (oauthToEmail e st r).cache, s.UserId ≠ st.Session.UserId)) ∧
    (∀ user, st.users.find? (fun u => u.Email == lookup r.props "email") = some user →
      ((emailToLdap e st r).Err = none →
        (∀ s ∈ st.sessions, s.UserId = user.Id → s ∈ (emailToLdap e st r).sessions →
          s.IsOAuth = true ∧ e.fault (.RevokeAccessToken s.Token) ≠ none) ∧
        (∀ s ∈ (emailToLdap e st r).cache, s.UserId ≠ user.Id)) ∧
      ((ldapToEmail e st r).Err = none →
        (∀ s ∈ st.sessions, s.UserId = user.Id → s ∈ (ldapToEmail e st r).sessions →
          s.IsOAuth = true ∧ e.fault (.RevokeAccessToken s.Token) ≠ none) ∧
        (∀ s ∈ (ldapToEmail e st r).cache, s.UserId ≠ user.Id))) :=
  ⟨fun h => ⟨fun s _ hu hmem => (oauthToEmail_sweep e st r h).1 s hmem hu,
      (oauthToEmail_sweep e st r h).2⟩,
    fun user hu =>
      ⟨fun h => ⟨fun s _ hi hmem => (emailToLdap_sweep e st r user hu h).1 s hmem hi,
          (emailToLdap_sweep e st r user hu h).2⟩,
        fun h => ⟨fun s _ hi hmem => (ldapToEmail_sweep e st r user hu h).1 s hmem hi,
          (ldapToEmail_sweep e st r user hu h).2⟩⟩⟩

/-- Witness of C1: each of the three migrations succeeds in a scenario in which no call
fails, and no session of the migrated account is left: the `IsOAuth` session `s2` of alice
is gone after `oauthToEmail` and after `emailToLdap`, the session `s4` of bob after
`ldapToEmail`. -/
theorem migration_removes_sessions_witness :
    Scenario.s2 ∉ (oauthToEmail Scenario.env Scenario.state
      (Scenario.req [("password", "new-secret"), ("email", "alice@example.com")])).sessions ∧
    Scenario.s2 ∉ (emailToLdap Scenario.envLdap Scenario.state
      (Scenario.req [("email", "alice@example.com"), ("email_password", "secret"),
        ("ldap_id", "uid=alice"), ("ldap_password", "ldap-secret")])).sessions ∧
    Scenario.s4 ∉ (ldapToEmail Scenario.envLdap Scenario.state
      (Scenario.req [("email", "bob@example.com"), ("email_password", "new-secret"),
        ("ldap_password", "ldap-secret")])).sessions :=
  ⟨fun hmem => (((migration_removes_sessions Scenario.env Scenario.state _).1 (by decide)).1
      Scenario.s2 (by decide) rfl hmem).2 rfl,
   fun hmem => ((((migration_removes_sessions Scenario.envLdap Scenario.state _).2
      Scenario.alice (by decide)).1 (by decide)).1 Scenario.s2 (by decide) rfl hmem).2 rfl,
   fun hmem => ((((migration_removes_sessions Scenario.envLdap Scenario.state _).2
      Scenario.bob (by decide)).2 (by decide)).1 Scenario.s4 (by decide) rfl hmem).2 rfl⟩

/-! ## Migration from password to LDAP -/

/-- C2, code evaluated at the failing inputs. Alice proves her password; the sweep runs before
the provider is looked up. With no LDAP provider registered the handler ends with the
not-available error (501), with a wrong LDAP password it ends with the error of
`SwitchToLdap`; in both runs alice is still a password account, yet her browser session
`s1` has been removed from the store and from the cache. -/
theorem emailToLdap_sweeps_before_switch :
    ((emailToLdap Scenario.env Scenario.state (Scenario.emailToLdapReq "ldap-secret")).Err =
        some { NewLocAppError "emailToLdap" "api.user.email_to_ldap.not_available.app_error" ""
               with StatusCode := 501 } ∧
      (emailToLdap Scenario.env Scenario.state (Scenario.emailToLdapReq "ldap-secret")).users =
        Scenario.state.users ∧
      Scenario.s1 ∈ Scenario.state.sessions ∧
      Scenario.s1 ∉
        (emailToLdap Scenario.env Scenario.state (Scenario.emailToLdapReq "ldap-secret")).sessions ∧
      Scenario.s1 ∉
        (emailToLdap Scenario.env Scenario.state (Scenario.emailToLdapReq "ldap-secret")).cache) ∧
    ((emailToLdap Scenario.envLdap Scenario.state (Scenario.emailToLdapReq "wrong")).Err =
        some (NewLocAppError "SwitchToLdap" "ent.ldap.do_login.invalid_password.app_error" "") ∧
      (emailToLdap Scenario.envLdap Scenario.state (Scenario.emailToLdapReq "wrong")).users =
        Scenario.state.users ∧
      Scenario.s1 ∉
        (emailToLdap Scenario.envLdap Scenario.state (Scenario.emailToLdapReq "wrong")).sessions ∧
      Scenario.s1 ∉
        (emailToLdap Scenario.envLdap Scenario.state (Scenario.emailToLdapReq "wrong")).cache) := by
  decide

/-! ## Roles -/

/-- C8, code evaluated at the failing input. The role list `system_user system_admin`
passes `model.IsValidUserRoles` and the caller holds the permission; `User().Update`
fails, so `UpdateUserRoles` returns the store error; `updateRoles` returns without
assigning it to `c.Err`: the request finishes with no error set and an empty body. -/
theorem updateRoles_drops_store_error :
    Scenario.envUserUpdateFails.IsValidUserRoles "system_user system_admin" = true ∧
    (UpdateUserRoles Scenario.envUserUpdateFails Scenario.adminState Scenario.dave
      "system_user system_admin").2 = .error Scenario.storeErr ∧
    (updateRoles Scenario.envUserUpdateFails Scenario.adminState Scenario.updateRolesReq).Err =
      none ∧
    (updateRoles Scenario.envUserUpdateFails Scenario.adminState Scenario.updateRolesReq).body =
      [] ∧
    (updateRoles Scenario.envUserUpdateFails Scenario.adminState Scenario.updateRolesReq).calls =
      [.UserGet "abcdefghijklmnopqrstuvwxyz",
       .UserUpdate { Scenario.dave with Roles := "system_user system_admin" },
       .SessionUpdateRoles "abcdefghijklmnopqrstuvwxyz" "system_user system_admin"] :=
  ⟨by decide, rfl, by decide, by decide, by decide⟩

/-! ## Password recovery -/

/-- An `int64` result inside the range is not changed by the wrap-around. -/
theorem wrap64_of_int64 (x : Int) (hlo : -9223372036854775808 ≤ x)
    (hhi : x < 9223372036854775808) : wrap64 x = x := by
  unfold wrap64
  omega

/-- The function `ResetPassword` never touches the recovery tokens or the sessions, keeps
the pending work it finds, and leaves `c.Err` alone when it returns nil. -/
theorem ResetPassword_frame (e : Env) (st : State) (userId newPassword : String) :
    (ResetPassword e st userId newPassword).1.recovery = st.recovery ∧
    (ResetPassword e st userId newPassword).1.sessions = st.sessions ∧
    (∀ t ∈ st.pending, t ∈ (ResetPassword e st userId newPassword).1.pending) ∧
    ((ResetPassword e st userId newPassword).2 = none →
      (ResetPassword e st userId newPassword).1.Err = st.Err) ∧
    (ResetPassword e st userId newPassword).1.body = st.body := by
  unfold ResetPassword Store.User.Get Store.User.UpdatePassword HasPermissionToContext
  cases e.fault (.UserGet userId) with
  | some err => simp [State.call]
  | none =>
    cases st.users.find? (fun u => u.Id == userId) with
    | none => simp [State.call]
    | some user =>
      cases hw : e.fault (.UserUpdatePassword userId (e.HashPassword newPassword)) <;>
        cases hp : e.HasPermissionTo st.Session e.model.PERMISSION_MANAGE_SYSTEM <;>
        cases ha : user.AuthData <;>
        simp [State.call, State.go, hw, hp, ha] <;>
        first
          | (intro t ht; exact Or.inl ht)
          | (split <;> simp_all)

/-- C4, as stated, fails: two hours after the token of alice was created, `resetPassword`
with its code returns the link-expired error and writes no password, but the token is not
deleted: it is still in the store when the handler returns and after all work started
with `go` has run. -/
theorem resetPassword_expired_keeps_token :
    Scenario.envLate.model.PASSWORD_RECOVER_EXPIRY_TIME < Scenario.envLate.GetMillis - 4999000 ∧
    (resetPassword Scenario.envLate Scenario.state Scenario.resetReq).Err =
      some (NewLocAppError "resetPassword" "api.user.reset_password.link_expired.app_error" "") ∧
    (resetPassword Scenario.envLate Scenario.state Scenario.resetReq).users =
      Scenario.state.users ∧
    (runPending Scenario.envLate
      (resetPassword Scenario.envLate Scenario.state Scenario.resetReq)).recovery =
      [{ UserId := "alice", Code := "abcd", CreateAt := 4999000 }] := by
  decide

/-- C4 (amended): for every recovery token found by code whose age `now − CreateAt` is at
least the validity window (so also when it exceeds it), `resetPassword` returns the
link-expired error, does not change the password, and does not delete the token: the
recovery tokens are unchanged, no deletion is started and the only store call is the
lookup by code. -/
theorem resetPassword_expired (e : Env) (st : State) (r : Request) (recovery : PasswordRecovery)
    (hcode : len (lookup r.props "code") = e.model.PASSWORD_RECOVERY_CODE_SIZE)
    (hpw : e.IsPasswordValid (lookup r.props "new_password") = none)
    (hget : e.fault (.PasswordRecoveryGetByCode (lookup r.props "code")) = none)
    (hfound : st.recovery.find? (fun x => x.Code == lookup r.props "code") = some recovery)
    (hlo : -9223372036854775808 ≤ e.GetMillis - recovery.CreateAt)
    (hhi : e.GetMillis - recovery.CreateAt < 9223372036854775808)
    (hexp : e.model.PASSWORD_RECOVER_EXPIRY_TIME ≤ e.GetMillis - recovery.CreateAt) :
    (resetPassword e st r).Err =
      some (NewLocAppError "resetPassword" "api.user.reset_password.link_expired.app_error" "") ∧
    (resetPassword e st r).users = st.users ∧
    (resetPassword e st r).recovery = st.recovery ∧
    recovery ∈ (resetPassword e st r).recovery ∧
    (resetPassword e st r).pending = st.pending ∧
    (resetPassword e st r).calls =
      st.calls ++ [.LogAudit st.Session.UserId "attempt",
        .PasswordRecoveryGetByCode (lookup r.props "code"),
        .LogAudit "" "fail - link expired"] := by
  have hw := wrap64_of_int64 _ hlo hhi
  have hnot : ¬ (e.GetMillis - recovery.CreateAt < e.model.PASSWORD_RECOVER_EXPIRY_TIME) := by
    omega
  have hmem : recovery ∈ st.recovery := List.mem_of_find?_eq_some hfound
  simp [resetPassword, hcode, hpw, Store.PasswordRecovery.GetByCode, hget, hfound, hw, hnot,
    LogAudit, LogAuditWithUserId, State.call, hmem]

/-- Witness of C4: the amended statement at the scenario two hours after the token of alice
was created. -/
theorem resetPassword_expired_witness :
    (resetPassword Scenario.envLate Scenario.state Scenario.resetReq).recovery =
      Scenario.state.recovery :=
  (resetPassword_expired Scenario.envLate Scenario.state Scenario.resetReq
    { UserId := "alice", Code := "abcd", CreateAt := 4999000 }
    (by decide) (by decide) (by decide) (by decide) (by decide) (by decide) (by decide)).2.2.1

/-- The redemption tail keeps the recovery tokens and has the deletion of the
principal's token among the pending work. -/
theorem resetPassword_redeem_spec (e : Env) (st : State) (userId newPassword : String) :
    (resetPassword.redeem e st userId newPassword).recovery = st.recovery ∧
    (resetPassword.redeem e st userId newPassword).sessions = st.sessions ∧
    Task.PasswordRecoveryDelete userId ∈ (resetPassword.redeem e st userId newPassword).pending := by
  have hf := ResetPassword_frame e (st.go (.PasswordRecoveryDelete userId)) userId newPassword
  unfold resetPassword.redeem
  simp only
  generalize ResetPassword e (st.go (.PasswordRecoveryDelete userId)) userId newPassword = res
    at hf
  obtain ⟨st3, err⟩ := res
  obtain ⟨h1, h2, h3, -⟩ := hf
  have hp : Task.PasswordRecoveryDelete userId ∈ st3.pending :=
    h3 _ (by simp [State.go])
  cases err <;> simp_all [State.go, LogAuditWithUserId, State.call]

/-- A successful `resetPassword` found a token by the code, left the recovery tokens as
they were and started the deletion of the tokens of that token's principal. -/
theorem resetPassword_ok (e : Env) (st : State) (r : Request)
    (h : (resetPassword e st r).Err = none) :
    ∃ recovery, st.recovery.find? (fun x => x.Code == lookup r.props "code") = some recovery ∧
      (resetPassword e st r).recovery = st.recovery ∧
      Task.PasswordRecoveryDelete recovery.UserId ∈ (resetPassword e st r).pending := by
  revert h
  by_cases hcode : len (lookup r.props "code") = e.model.PASSWORD_RECOVERY_CODE_SIZE
  swap
  · simp [resetPassword, hcode, SetInvalidParam]
  cases hpw : e.IsPasswordValid (lookup r.props "new_password") with
  | some err => simp [resetPassword, hcode, hpw]
  | none =>
  cases hget : e.fault (.PasswordRecoveryGetByCode (lookup r.props "code")) with
  | some err =>
    simp [resetPassword, hcode, hpw, Store.PasswordRecovery.GetByCode, hget, LogAudit,
      LogAuditWithUserId, State.call]
  | none =>
  cases hfound : st.recovery.find? (fun x => x.Code == lookup r.props "code") with
  | none =>
    simp [resetPassword, hcode, hpw, Store.PasswordRecovery.GetByCode, hget, hfound, LogAudit,
      LogAuditWithUserId, State.call]
  | some recovery =>
  by_cases hexp : wrap64 (e.GetMillis - recovery.CreateAt) < e.model.PASSWORD_RECOVER_EXPIRY_TIME
  swap
  · simp [resetPassword, hcode, hpw, Store.PasswordRecovery.GetByCode, hget, hfound, hexp,
      LogAudit, LogAuditWithUserId, State.call]
  intro _
  refine ⟨recovery, rfl, ?_⟩
  simp only [resetPassword, hcode, hpw, Store.PasswordRecovery.GetByCode, hget, hfound, hexp,
    LogAudit, LogAuditWithUserId, State.call, bne_self_eq_false, Bool.false_eq_true, if_false,
    if_true]
  have hs := resetPassword_redeem_spec e
    { st with calls := st.calls ++ [.LogAudit st.Session.UserId "attempt"] ++
        [.PasswordRecoveryGetByCode (lookup r.props "code")] } recovery.UserId
    (lookup r.props "new_password")
  exact ⟨hs.1, hs.2.2⟩

/-- A task started with `go` can only delete recovery tokens. -/
theorem runTask_recovery_subset (e : Env) (st : State) (t : Task) :
    ∀ x ∈ (runTask e st t).recovery, x ∈ st.recovery := by
  intro x hx
  cases t with
  | PasswordRecoveryDelete userId =>
    unfold runTask Store.PasswordRecovery.Delete at hx
    cases hf : e.fault (.PasswordRecoveryDelete userId) <;>
      simp [hf, State.call] at hx
    · exact hx.1
    · exact hx
  | sendPasswordChangeEmail _ _ => exact hx
  | sendSignInChangeEmail _ _ => exact hx
  | AddDirectChannels _ _ => exact hx
  | sendMfaChangeEmail userId _ =>
    unfold runTask Store.User.Get at hx
    cases hf : e.fault (.UserGet userId) with
    | some err => simpa [hf, State.call] using hx
    | none =>
      cases hu : st.users.find? (fun u => u.Id == userId) <;>
        simpa [hf, hu, State.call] using hx

/-- Running a list of tasks can only delete recovery tokens. -/
theorem foldl_runTask_recovery_subset (e : Env) (tasks : List Task) (st : State) :
    ∀ x ∈ (tasks.foldl (runTask e) st).recovery, x ∈ st.recovery := by
  induction tasks generalizing st with
  | nil => intro x hx; exact hx
  | cons t rest ih =>
    intro x hx
    exact runTask_recovery_subset e st t x (ih (runTask e st t) x hx)

/-- Once the deletion for a principal is among the tasks that run, and the store call
does not fail, no recovery token of that principal is left. -/
theorem foldl_runTask_deletes (e : Env) (userId : String)
    (hdel : e.fault (.PasswordRecoveryDelete userId) = none) (tasks : List Task) (st : State)
    (hmem : Task.PasswordRecoveryDelete userId ∈ tasks) :
    ∀ x ∈ (tasks.foldl (runTask e) st).recovery, x ∈ st.recovery ∧ x.UserId ≠ userId := by
  induction tasks generalizing st with
  | nil => simp at hmem
  | cons t rest ih =>
    intro x hx
    rcases List.mem_cons.mp hmem with heq | hrest
    · subst heq
      have hx2 := foldl_runTask_recovery_subset e rest _ x hx
      simp only [runTask, Store.PasswordRecovery.Delete, hdel, State.call] at hx2
      have := List.mem_filter.mp hx2
      exact ⟨this.1, by simpa using this.2⟩
    · have := ih (runTask e st t) hrest x hx
      exact ⟨runTask_recovery_subset e st t x this.1, this.2⟩

/-- When no recovery token carries the code, `resetPassword` fails with the invalid-link
error before `ResetPassword` is reached: no user record changes and the only store call
is the lookup by code. -/
theorem resetPassword_unknown_code (e : Env) (st : State) (r : Request)
    (hcode : len (lookup r.props "code") = e.model.PASSWORD_RECOVERY_CODE_SIZE)
    (hpw : e.IsPasswordValid (lookup r.props "new_password") = none)
    (hnone : ∀ x ∈ st.recovery, x.Code ≠ lookup r.props "code") :
    (∃ detail, (resetPassword e st r).Err = some (NewLocAppError "resetPassword"
      "api.user.reset_password.invalid_link.app_error" detail)) ∧
    (e.fault (.PasswordRecoveryGetByCode (lookup r.props "code")) = none →
      (resetPassword e st r).Err = some (NewLocAppError "resetPassword"
        "api.user.reset_password.invalid_link.app_error"
        (Store.notFound "SqlPasswordRecoveryStore.GetByCode").Error)) ∧
    (resetPassword e st r).users = st.users ∧
    (resetPassword e st r).pending = st.pending ∧
    (resetPassword e st r).calls =
      st.calls ++ [.LogAudit st.Session.UserId "attempt",
        .PasswordRecoveryGetByCode (lookup r.props "code"),
        .LogAudit "" "fail - bad code"] := by
  have hfind : st.recovery.find? (fun x => x.Code == lookup r.props "code") = none := by
    rw [List.find?_eq_none]
    intro x hx
    simpa using hnone x hx
  cases hget : e.fault (.PasswordRecoveryGetByCode (lookup r.props "code")) <;>
    simp [resetPassword, hcode, hpw, Store.PasswordRecovery.GetByCode, hget, hfind, LogAudit,
      LogAuditWithUserId, State.call]

/-- C5: a recovery token is single-use. Let a first `resetPassword` with a code succeed, let
the work it started with `go` run with the store deleting the token, and let a second
`resetPassword` with the same code (and a new password that meets the policy) run on any
state whose recovery tokens are those left behind. Provided a code belongs to one
principal, the second call fails with the invalid-link error, which reports the token as not
found when the lookup itself does not fail, and it writes no password: no user record
changes and `User().UpdatePassword` is not called. -/
theorem resetPassword_single_use (e e2 : Env) (st st2 : State) (r r2 : Request)
    (hfirst : (resetPassword e st r).Err = none)
    (hdel : ∀ userId, e.fault (.PasswordRecoveryDelete userId) = none)
    (huniq : ∀ x ∈ st.recovery, ∀ y ∈ st.recovery, x.Code = y.Code → x.UserId = y.UserId)
    (hstore : st2.recovery = (runPending e (resetPassword e st r)).recovery)
    (hsame : lookup r2.props "code" = lookup r.props "code")
    (hsize : len (lookup r2.props "code") = e2.model.PASSWORD_RECOVERY_CODE_SIZE)
    (hpw : e2.IsPasswordValid (lookup r2.props "new_password") = none) :
    (∃ detail, (resetPassword e2 st2 r2).Err = some (NewLocAppError "resetPassword"
      "api.user.reset_password.invalid_link.app_error" detail)) ∧
    (e2.fault (.PasswordRecoveryGetByCode (lookup r2.props "code")) = none →
      (resetPassword e2 st2 r2).Err = some (NewLocAppError "resetPassword"
        "api.user.reset_password.invalid_link.app_error"
        (Store.notFound "SqlPasswordRecoveryStore.GetByCode").Error)) ∧
    (resetPassword e2 st2 r2).users = st2.users ∧
    (resetPassword e2 st2 r2).pending = st2.pending ∧
    (resetPassword e2 st2 r2).calls =
      st2.calls ++ [.LogAudit st2.Session.UserId "attempt",
        .PasswordRecoveryGetByCode (lookup r2.props "code"),
        .LogAudit "" "fail - bad code"] := by
  obtain ⟨recovery, hfound, hrec, hpend⟩ := resetPassword_ok e st r hfirst
  apply resetPassword_unknown_code e2 st2 r2 hsize hpw
  intro x hx hxcode
  rw [hstore] at hx
  unfold runPending at hx
  have hleft := foldl_runTask_deletes e recovery.UserId (hdel _) _
    { resetPassword e st r with pending := [] } hpend x hx
  have hxst : x ∈ st.recovery := by
    have := hleft.1
    simpa [hrec] using this
  have hrst : recovery ∈ st.recovery := List.mem_of_find?_eq_some hfound
  have hrcode : recovery.Code = lookup r.props "code" := by
    simpa using List.find?_some hfound
  exact hleft.2 (huniq x hxst recovery hrst (by rw [hxcode, hsame, hrcode]))

/-- Witness of C5: alice redeems her token, the deletion runs, and the second redemption
with the same code is refused. -/
theorem resetPassword_single_use_witness :
    (resetPassword Scenario.env Scenario.state Scenario.resetReq).Err = none ∧
    (resetPassword Scenario.env
      (runPending Scenario.env (resetPassword Scenario.env Scenario.state Scenario.resetReq))
      Scenario.resetReq).users =
      (runPending Scenario.env
        (resetPassword Scenario.env Scenario.state Scenario.resetReq)).users :=
  ⟨by decide,
   (resetPassword_single_use Scenario.env Scenario.env Scenario.state
      (runPending Scenario.env (resetPassword Scenario.env Scenario.state Scenario.resetReq))
      Scenario.resetReq Scenario.resetReq (by decide) (fun _ => rfl) (by decide) rfl rfl
      (by decide) (by decide)).2.2.1⟩

/-! ## Login -/

/-- The Go test `len(s) == 0` holds exactly for the empty string. -/
theorem len_eq_zero_iff (s : String) : len s = 0 ↔ s = "" := by
  obtain ⟨l⟩ := s
  show String.utf8ByteSize ⟨l⟩ = 0 ↔ _
  rw [String.utf8ByteSize_mk, String.utf8Len_eq_zero]
  constructor
  · intro h; subst h; rfl
  · intro h; exact congrArg String.data h

/-- The device loop of `doLogin` when no `app.RevokeSessionById` fails: exactly the records
with the id of an enumerated session bound to the device are removed, one revocation is
issued per such session, and no error is set. -/
theorem doLogin_revokeLoop_ok (e : Env) (deviceId : String)
    (hrev : ∀ id, e.fault (.RevokeSessionById id) = none) (l : List Session) (st : State) :
    (doLogin.revokeLoop e deviceId l st).sessions =
      st.sessions.filter (fun s => !revokedForDevice deviceId l s) ∧
    (doLogin.revokeLoop e deviceId l st).Err = st.Err ∧
    (doLogin.revokeLoop e deviceId l st).calls =
      st.calls ++ (l.filter (fun x => x.DeviceId == deviceId)).map
        (fun x => Call.RevokeSessionById x.Id) ∧
    (doLogin.revokeLoop e deviceId l st).idCounter = st.idCounter := by
  induction l generalizing st with
  | nil => simp [doLogin.revokeLoop, revokedForDevice]
  | cons x rest ih =>
    unfold doLogin.revokeLoop
    by_cases hx : x.DeviceId = deviceId
    · have h := ih (app.RevokeSessionById e st x.Id).1
      simp only [app.RevokeSessionById, hrev, State.call] at h ⊢
      obtain ⟨h1, h2, h3, h4⟩ := h
      simp only [hx, beq_self_eq_true, if_true]
      refine ⟨?_, h2, ?_, h4⟩
      · rw [h1]
        simp [revokedForDevice, hx, List.filter_filter, Bool.and_comm, bne]
      · rw [h3]
        simp [hx]
    · have h := ih st
      have hxb : (x.DeviceId == deviceId) = false := by simpa using hx
      simp only [beq_iff_eq, hx, if_false]
      obtain ⟨h1, h2, h3, h4⟩ := h
      refine ⟨?_, h2, ?_, h4⟩
      · rw [h1]
        simp [revokedForDevice, hxb]
      · rw [h3]
        simp [hxb]

/-- The device loop of `doLogin` under any fault oracle only removes session records. -/
theorem doLogin_revokeLoop_subset (e : Env) (deviceId : String) (l : List Session) (st : State) :
    ∀ s ∈ (doLogin.revokeLoop e deviceId l st).sessions, s ∈ st.sessions := by
  induction l generalizing st with
  | nil => intro s hs; exact hs
  | cons x rest ih =>
    intro s hs
    unfold doLogin.revokeLoop at hs
    by_cases hx : x.DeviceId = deviceId
    · cases hf : e.fault (.RevokeSessionById x.Id) with
      | some err =>
        simp only [hx, beq_self_eq_true, if_true, app.RevokeSessionById, hf, State.call] at hs
        have := ih _ s hs
        exact this
      | none =>
        simp only [hx, beq_self_eq_true, if_true, app.RevokeSessionById, hf, State.call] at hs
        exact (List.mem_filter.mp (ih _ s hs)).1
    · simp only [beq_iff_eq, hx, if_false] at hs
      exact ih _ s hs

/-- The client properties do not touch the identity fields of the session. -/
theorem doLogin_clientProps_fields (e : Env) (r : Request) (session : Session) :
    (doLogin.clientProps e r session).UserId = session.UserId ∧
    (doLogin.clientProps e r session).DeviceId = session.DeviceId ∧
    (doLogin.clientProps e r session).IsOAuth = session.IsOAuth ∧
    (doLogin.clientProps e r session).Roles = session.Roles ∧
    (doLogin.clientProps e r session).ExpiresAt = session.ExpiresAt := by
  simp [doLogin.clientProps, Session.AddProp]

/-- The last part of `doLogin` when `Session().Save` succeeds: the saved session is appended
to the store, then inserted into the cache, and becomes `c.Session`. -/
theorem doLogin_persist_ok (e : Env) (st : State) (r : Request) (session : Session) (maxAge : Int)
    (hsave : e.fault (.SessionSave (doLogin.clientProps e r session)) = none) :
    (doLogin.persist e st r session maxAge).Session =
      { doLogin.clientProps e r session with
        Id := e.NewId st.idCounter, Token := e.NewId (st.idCounter + 1),
        CreateAt := e.GetMillis } ∧
    (doLogin.persist e st r session maxAge).sessions =
      st.sessions ++ [(doLogin.persist e st r session maxAge).Session] ∧
    (doLogin.persist e st r session maxAge).cache =
      st.cache ++ [(doLogin.persist e st r session maxAge).Session] ∧
    (doLogin.persist e st r session maxAge).Err = st.Err ∧
    (doLogin.persist e st r session maxAge).calls =
      st.calls ++ [.SessionSave (doLogin.clientProps e r session),
        .AddSessionToCache (doLogin.persist e st r session maxAge).Session] := by
  simp [doLogin.persist, Store.Session.Save, hsave, app.AddSessionToCache, State.call]

/-- The last part of `doLogin` when `Session().Save` fails: a 500 error is set and neither
the store nor the cache changes. -/
theorem doLogin_persist_fail (e : Env) (st : State) (r : Request) (session : Session)
    (maxAge : Int) (err : AppError)
    (hsave : e.fault (.SessionSave (doLogin.clientProps e r session)) = some err) :
    (doLogin.persist e st r session maxAge).Err = some { err with StatusCode := 500 } ∧
    (doLogin.persist e st r session maxAge).sessions = st.sessions ∧
    (doLogin.persist e st r session maxAge).cache = st.cache := by
  simp [doLogin.persist, Store.Session.Save, hsave, State.call]

/-- C6, as stated, fails: alice logs in again from the phone that session `s3` is bound to, the
revocation of `s3` fails, `doLogin` logs the error, clears `c.Err` and saves the new
session: it completes without error and two sessions of alice carry the device id. -/
theorem doLogin_keeps_session_when_revoke_fails :
    (doLogin Scenario.envRevokeFails Scenario.state Scenario.loginReq Scenario.alice
      "apple:phone").Err = none ∧
    ((doLogin Scenario.envRevokeFails Scenario.state Scenario.loginReq Scenario.alice
      "apple:phone").sessions.filter
        (fun s => s.UserId == "alice" && s.DeviceId == "apple:phone")).length = 2 ∧
    Scenario.s3 ∈ (doLogin Scenario.envRevokeFails Scenario.state Scenario.loginReq
      Scenario.alice "apple:phone").sessions := by
  decide

/-- C6 (amended): for every principal and every non-empty device id, after `doLogin`
completes without error and no `app.RevokeSessionById` failed, exactly one session bound to
that (principal, device id) pair exists in the store, namely the newly saved one, which is
`c.Session`: `doLogin` called `app.RevokeSessionById` for every session of the principal
that carried the device id, in enumeration order, before it called `Session().Save`. (A
failed revocation is only logged, and the login proceeds.) -/
theorem doLogin_one_session_per_device (e : Env) (st : State) (r : Request) (user : User)
    (deviceId : String) (hdev : deviceId ≠ "")
    (hrev : ∀ id, e.fault (.RevokeSessionById id) = none)
    (herr : (doLogin e st r user deviceId).Err = none) :
    (doLogin e st r user deviceId).sessions.filter
        (fun s => s.UserId == user.Id && s.DeviceId == deviceId) =
      [(doLogin e st r user deviceId).Session] ∧
    (doLogin e st r user deviceId).Session.UserId = user.Id ∧
    (doLogin e st r user deviceId).Session.DeviceId = deviceId ∧
    ∃ session, (doLogin e st r user deviceId).calls =
      st.calls ++ [.SessionGetSessions user.Id] ++
        ((sessionsOf st user.Id).filter (fun x => x.DeviceId == deviceId)).map
          (fun x => Call.RevokeSessionById x.Id) ++
        [.SessionSave session, .AddSessionToCache (doLogin e st r user deviceId).Session] := by
  have hlen : len deviceId > 0 := by
    have := (len_eq_zero_iff deviceId).not.mpr hdev
    omega
  revert herr
  unfold doLogin
  simp only [hlen, if_true, Store.Session.GetSessions]
  cases hg : e.fault (.SessionGetSessions user.Id) with
  | some err => simp [State.call]
  | none =>
    simp only []
    have hL := doLogin_revokeLoop_ok e deviceId hrev (sessionsOf st user.Id)
      (st.call (.SessionGetSessions user.Id))
    unfold sessionsOf at hL ⊢
    generalize doLogin.revokeLoop e deviceId (st.sessions.filter (fun s => s.UserId == user.Id))
      (st.call (.SessionGetSessions user.Id)) = stL at hL ⊢
    obtain ⟨hL1, hL2, hL3, -⟩ := hL
    generalize hsess : Session.SetExpireInDays e
      { Id := "", Token := "", ExpiresAt := 0, UserId := user.Id, Roles := user.GetRawRoles,
        DeviceId := deviceId, IsOAuth := false, Props := [] } e.SessionLengthMobileInDays
      = session
    have hsu : session.UserId = user.Id := by rw [← hsess]; rfl
    have hsd : session.DeviceId = deviceId := by rw [← hsess]; rfl
    cases hs : e.fault (.SessionSave (doLogin.clientProps e r session)) with
    | some err =>
      intro herr
      rw [(doLogin_persist_fail e stL r session _ err hs).1] at herr
      simp at herr
    | none =>
      intro _
      obtain ⟨hP1, hP2, -, -, hP5⟩ := doLogin_persist_ok e stL r session
        (wrap64 (e.SessionLengthMobileInDays * 60 * 60 * 24)) hs
      obtain ⟨hc1, hc2, -⟩ := doLogin_clientProps_fields e r session
      have hU : (doLogin.persist e stL r session
          (wrap64 (e.SessionLengthMobileInDays * 60 * 60 * 24))).Session.UserId = user.Id := by
        rw [hP1]; simp [hc1, hsu]
      have hD : (doLogin.persist e stL r session
          (wrap64 (e.SessionLengthMobileInDays * 60 * 60 * 24))).Session.DeviceId = deviceId := by
        rw [hP1]; simp [hc2, hsd]
      refine ⟨?_, hU, hD, doLogin.clientProps e r session, ?_⟩
      · rw [hP2, List.filter_append, hL1]
        have hnil : List.filter (fun s => s.UserId == user.Id && s.DeviceId == deviceId)
            (List.filter (fun s => !revokedForDevice deviceId
              (st.sessions.filter (fun s => s.UserId == user.Id)) s)
              (st.call (.SessionGetSessions user.Id)).sessions) = [] := by
          rw [List.filter_filter, List.filter_eq_nil_iff]
          intro s hs hcond
          simp only [Bool.and_eq_true, beq_iff_eq, Bool.not_eq_true'] at hcond
          obtain ⟨⟨hu, hd⟩, hnot⟩ := hcond
          have : revokedForDevice deviceId (st.sessions.filter (fun s => s.UserId == user.Id)) s
              = true := by
            unfold revokedForDevice
            refine List.any_eq_true.mpr ⟨s, List.mem_filter.mpr ⟨hs, by simp [hu]⟩, by simp [hd]⟩
          rw [this] at hnot
          exact absurd hnot (by decide)
        rw [hnil]
        simp [hU, hD]
      · rw [hP5, hL3]
        simp [State.call, List.append_assoc]

/-- Witness of C6: alice logs in again from her phone; the old session `s3` of that phone is
gone and the new session is the only one bound to the pair. -/
theorem doLogin_one_session_per_device_witness :
    (doLogin Scenario.env Scenario.state Scenario.loginReq Scenario.alice
        "apple:phone").sessions.filter
        (fun s => s.UserId == Scenario.alice.Id && s.DeviceId == "apple:phone") =
      [(doLogin Scenario.env Scenario.state Scenario.loginReq Scenario.alice
        "apple:phone").Session] ∧
    Scenario.s3 ∉ (doLogin Scenario.env Scenario.state Scenario.loginReq Scenario.alice
      "apple:phone").sessions :=
  ⟨(doLogin_one_session_per_device Scenario.env Scenario.state Scenario.loginReq Scenario.alice
      "apple:phone" (by decide) (fun _ => rfl) (by decide)).1, by decide⟩

/-- The last part of `doLogin`, given a session without `IsOAuth`: every record it adds to
the store is without `IsOAuth`, and if it ends with no error set, `c.Session` is the added
record. -/
theorem doLogin_persist_not_oauth (e : Env) (st : State) (r : Request) (session : Session)
    (maxAge : Int) (hno : session.IsOAuth = false) :
    (∀ s ∈ (doLogin.persist e st r session maxAge).sessions,
      s ∈ st.sessions ∨ s.IsOAuth = false) ∧
    ((doLogin.persist e st r session maxAge).Err = none →
      (doLogin.persist e st r session maxAge).Session ∈
        (doLogin.persist e st r session maxAge).sessions ∧
      (doLogin.persist e st r session maxAge).Session.IsOAuth = false) := by
  cases hs : e.fault (.SessionSave (doLogin.clientProps e r session)) with
  | some err =>
    obtain ⟨h1, h2, -⟩ := doLogin_persist_fail e st r session maxAge err hs
    refine ⟨fun s hs => Or.inl (h2 ▸ hs), fun h => ?_⟩
    rw [h1] at h
    simp at h
  | none =>
    obtain ⟨h1, h2, -⟩ := doLogin_persist_ok e st r session maxAge hs
    have hno2 : (doLogin.persist e st r session maxAge).Session.IsOAuth = false := by
      rw [h1]
      simpa using (doLogin_clientProps_fields e r session).2.2.1.trans hno
    refine ⟨fun s hs => ?_, fun _ => ⟨?_, hno2⟩⟩
    · rw [h2] at hs
      rcases List.mem_append.mp hs with h | h
      · exact Or.inl h
      · rw [List.mem_singleton.mp h]
        exact Or.inr hno2
    · rw [h2]
      simp

/-- Every record `doLogin` adds to the store is without `IsOAuth`, and if it ends with no
error set, `c.Session` is the added record. -/
theorem doLogin_not_oauth (e : Env) (st : State) (r : Request) (user : User)
    (deviceId : String) :
    (∀ s ∈ (doLogin e st r user deviceId).sessions, s ∈ st.sessions ∨ s.IsOAuth = false) ∧
    ((doLogin e st r user deviceId).Err = none →
      (doLogin e st r user deviceId).Session ∈ (doLogin e st r user deviceId).sessions ∧
      (doLogin e st r user deviceId).Session.IsOAuth = false) := by
  unfold doLogin
  by_cases hlen : len deviceId > 0
  · simp only [hlen, if_true, Store.Session.GetSessions]
    cases hg : e.fault (.SessionGetSessions user.Id) with
    | some err =>
      simp only [State.call]
      exact ⟨fun s hs => Or.inl hs, fun h => by simp at h⟩
    | none =>
      simp only []
      have hsub := doLogin_revokeLoop_subset e deviceId
        (st.sessions.filter (fun s => s.UserId == user.Id)) (st.call (.SessionGetSessions user.Id))
      generalize doLogin.revokeLoop e deviceId (st.sessions.filter (fun s => s.UserId == user.Id))
        (st.call (.SessionGetSessions user.Id)) = stL at hsub ⊢
      obtain ⟨h1, h2⟩ := doLogin_persist_not_oauth e stL r
        (Session.SetExpireInDays e
          { Id := "", Token := "", ExpiresAt := 0, UserId := user.Id, Roles := user.GetRawRoles,
            DeviceId := deviceId, IsOAuth := false, Props := [] } e.SessionLengthMobileInDays)
        (wrap64 (e.SessionLengthMobileInDays * 60 * 60 * 24)) rfl
      refine ⟨fun s hs => ?_, h2⟩
      rcases h1 s hs with h | h
      · exact Or.inl (hsub s h)
      · exact Or.inr h
  · simp only [hlen, if_false]
    exact doLogin_persist_not_oauth e st r _ _ rfl

/-- Every record `LoginByOAuth` adds to the store is without `IsOAuth`, and when it returns a
user, `c.Session` is the record it added. -/
theorem LoginByOAuth_not_oauth (e : Env) (st : State) (r : Request) (service userData : String) :
    (∀ s ∈ (LoginByOAuth e st r service userData).1.sessions,
      s ∈ st.sessions ∨ s.IsOAuth = false) ∧
    (∀ user, (LoginByOAuth e st r service userData).2 = some user →
      (LoginByOAuth e st r service userData).1.Session ∈
        (LoginByOAuth e st r service userData).1.sessions ∧
      (LoginByOAuth e st r service userData).1.Session.IsOAuth = false) := by
  unfold LoginByOAuth
  cases hp : e.GetOauthProvider service with
  | none =>
    simp
    exact fun s hs => Or.inl hs
  | some provider =>
    simp only []
    by_cases hl : len (provider.GetAuthDataFromJson userData) = 0
    · simp [hl, State.call]
      exact fun s hs => Or.inl hs
    · have hlb : (len (provider.GetAuthDataFromJson userData) == 0) = false := by simpa using hl
      simp only [hlb, Bool.false_eq_true, if_false, app.GetUserByAuth]
      cases hf : e.fault (.GetUserByAuth (provider.GetAuthDataFromJson userData) service) with
      | some err =>
        simp only []
        split
        · unfold app.CreateOAuthUser
          cases e.CreateOAuthUser service userData <;> simp [State.call] <;>
            exact fun s hs => Or.inl hs
        · simp [State.call]
          exact fun s hs => Or.inl hs
      | none =>
        simp only [State.call]
        cases hu : st.users.find? (fun u => u.AuthData == some (provider.GetAuthDataFromJson userData)
            && u.AuthService == service) with
        | none =>
          simp only []
          split
          · unfold app.CreateOAuthUser
            cases e.CreateOAuthUser service userData <;> simp [State.call] <;>
              exact fun s hs => Or.inl hs
          · simp [State.call]
            exact fun s hs => Or.inl hs
        | some user =>
          simp only []
          obtain ⟨h1, h2⟩ := doLogin_not_oauth e
            { st with calls := st.calls ++ [.GetAuthDataFromJson service userData] ++
                [.GetUserByAuth (provider.GetAuthDataFromJson userData) service] } r user ""
          generalize doLogin e _ r user "" = st2 at h1 h2 ⊢
          cases hE : st2.Err with
          | some err => simpa [hE, State.call] using h1
          | none =>
            simp only [hE, Option.isSome_none, Bool.false_eq_true, if_false]
            exact ⟨h1, fun _ _ => h2 hE⟩

/-- Every record the tail of `login` adds to the store is without `IsOAuth`. -/
theorem login_authenticate_not_oauth (e : Env) (st : State) (r : Request) (user : User)
    (password mfaToken deviceId : String) :
    ∀ s ∈ (login.authenticate e st r user password mfaToken deviceId).sessions,
      s ∈ st.sessions ∨ s.IsOAuth = false := by
  unfold login.authenticate
  generalize e.authenticateUser user password mfaToken = res
  obtain ⟨user2, err⟩ := res
  cases err with
  | some err =>
    cases hm : e.GetMetricsInterface <;>
      simp [metrics, hm, LogAuditWithUserId, State.call] <;>
      exact fun s hs => Or.inl hs
  | none =>
    simp only []
    have h1 := (doLogin_not_oauth e
      (metrics e (LogAuditWithUserId st user2.Id "success") .IncrementLogin) r user2 deviceId).1
    have hsame : (metrics e (LogAuditWithUserId st user2.Id "success") .IncrementLogin).sessions
        = st.sessions := by
      cases hm : e.GetMetricsInterface <;> simp [metrics, hm, LogAuditWithUserId, State.call]
    rw [hsame] at h1
    split
    · exact h1
    · exact h1

/-- Every record `login` adds to the store is without `IsOAuth`. -/
theorem login_not_oauth (e : Env) (st : State) (r : Request) :
    ∀ s ∈ (login e st r).sessions, s ∈ st.sessions ∨ s.IsOAuth = false := by
  unfold login
  simp only []
  split
  · exact fun s hs => Or.inl hs
  · split
    · unfold app.GetUser
      cases e.fault (.GetUser (lookup r.props "id")) with
      | some err =>
        cases hm : e.GetMetricsInterface <;>
          simp [metrics, hm, LogAuditWithUserId, State.call] <;>
          exact fun s hs => Or.inl hs
      | none =>
        simp only [LogAuditWithUserId, State.call]
        cases st.users.find? (fun u => u.Id == lookup r.props "id") with
        | none =>
          cases hm : e.GetMetricsInterface <;>
            simp [metrics, hm, LogAuditWithUserId, State.call] <;>
            exact fun s hs => Or.inl hs
        | some user => exact login_authenticate_not_oauth e _ r user _ _ _
    · unfold app.GetUserForLogin
      simp only [LogAudit, LogAuditWithUserId, State.call]
      cases e.GetUserForLogin st.users (lookup r.props "login_id")
          (lookup r.props "ldap_only" == "true") with
      | error err =>
        cases hm : e.GetMetricsInterface <;>
          simp [metrics, hm, LogAuditWithUserId, State.call] <;>
          exact fun s hs => Or.inl hs
      | ok user => exact login_authenticate_not_oauth e _ r user _ _ _

/-- Every record the tail of `completeSaml` adds to the store is without `IsOAuth`. -/
theorem completeSaml_finish_not_oauth (e : Env) (st : State) (r : Request) (user : User)
    (relayProps : List (String × String)) :
    ∀ s ∈ (completeSaml.finish e st r user relayProps).sessions,
      s ∈ st.sessions ∨ s.IsOAuth = false := by
  unfold completeSaml.finish
  simp only []
  generalize hst1 : (if (lookup relayProps "action" == e.model.OAUTH_ACTION_SIGNUP) = true then
      if len (lookup relayProps "team_id") > 0 then
        st.go (.AddDirectChannels (lookup relayProps "team_id") user.Id) else st
    else if (lookup relayProps "action" == e.model.OAUTH_ACTION_EMAIL_TO_SSO) = true then
      (RevokeAllSession e st user.Id).go
        (.sendSignInChangeEmail user.Email (e.Title e.model.USER_AUTH_SERVICE_SAML ++ " SSO"))
    else st) = st1
  have hsub : ∀ s ∈ st1.sessions, s ∈ st.sessions := by
    rw [← hst1]
    split
    · split <;> simp [State.go]
    · split
      · simpa [State.go] using (RevokeAllSession_spec e st user.Id).1
      · simp
  have h1 := (doLogin_not_oauth e st1 r user "").1
  have h2 : ∀ s ∈ (doLogin e st1 r user "").sessions, s ∈ st.sessions ∨ s.IsOAuth = false := by
    intro s hs
    rcases h1 s hs with h | h
    · exact Or.inl (hsub s h)
    · exact Or.inr h
  split
  · exact h2
  · split <;> exact h2

/-- Every record `completeSaml` adds to the store is without `IsOAuth`. -/
theorem completeSaml_not_oauth (e : Env) (st : State) (r : Request) :
    ∀ s ∈ (completeSaml e st r).sessions, s ∈ st.sessions ∨ s.IsOAuth = false := by
  unfold completeSaml
  cases e.GetSamlInterface with
  | none => exact fun s hs => Or.inl hs
  | some samlInterface =>
    simp only []
    split
    · exact fun s hs => Or.inl hs
    · split
      · exact fun s hs => Or.inl hs
      · split
        · exact fun s hs => Or.inl hs
        · exact completeSaml_finish_not_oauth e _ r _ _

/-- C7, as stated, fails: carol completes the OAuth flow, `LoginByOAuth` returns her account,
and the session it established through `doLogin`, which is new in the store, has `IsOAuth`
false. -/
theorem LoginByOAuth_session_flag_false :
    (LoginByOAuth Scenario.env Scenario.state Scenario.oauthReq "gitlab" "carol-ext").2 =
      some Scenario.carol ∧
    (LoginByOAuth Scenario.env Scenario.state Scenario.oauthReq "gitlab" "carol-ext").1.Session ∈
      (LoginByOAuth Scenario.env Scenario.state Scenario.oauthReq "gitlab" "carol-ext").1.sessions ∧
    (LoginByOAuth Scenario.env Scenario.state Scenario.oauthReq "gitlab" "carol-ext").1.Session ∉
      Scenario.state.sessions ∧
    (LoginByOAuth Scenario.env Scenario.state Scenario.oauthReq "gitlab"
      "carol-ext").1.Session.IsOAuth = false := by
  decide

/-- C7 (amended): every session established by `doLogin` has its federation flag `IsOAuth`
false, whichever flow calls it. Every record that `doLogin`, `LoginByOAuth`, `completeSaml`
or the password `login` adds to the session store has `IsOAuth` false; when `doLogin` ends
with no error set, and when `LoginByOAuth` returns a user, the session of the context is
such a record. -/
theorem established_sessions_not_oauth (e : Env) (st : State) (r : Request) :
    (∀ user deviceId, ∀ s ∈ (doLogin e st r user deviceId).sessions,
      s ∈ st.sessions ∨ s.IsOAuth = false) ∧
    (∀ service userData, ∀ s ∈ (LoginByOAuth e st r service userData).1.sessions,
      s ∈ st.sessions ∨ s.IsOAuth = false) ∧
    (∀ s ∈ (completeSaml e st r).sessions, s ∈ st.sessions ∨ s.IsOAuth = false) ∧
    (∀ s ∈ (login e st r).sessions, s ∈ st.sessions ∨ s.IsOAuth = false) ∧
    (∀ user deviceId, (doLogin e st r user deviceId).Err = none →
      (doLogin e st r user deviceId).Session ∈ (doLogin e st r user deviceId).sessions ∧
      (doLogin e st r user deviceId).Session.IsOAuth = false) ∧
    (∀ service userData user, (LoginByOAuth e st r service userData).2 = some user →
      (LoginByOAuth e st r service userData).1.Session ∈
        (LoginByOAuth e st r service userData).1.sessions ∧
      (LoginByOAuth e st r service userData).1.Session.IsOAuth = false) :=
  ⟨fun user deviceId => (doLogin_not_oauth e st r user deviceId).1,
   fun service userData => (LoginByOAuth_not_oauth e st r service userData).1,
   completeSaml_not_oauth e st r,
   login_not_oauth e st r,
   fun user deviceId => (doLogin_not_oauth e st r user deviceId).2,
   fun service userData => (LoginByOAuth_not_oauth e st r service userData).2⟩

/-- Witness of C7: the password login of alice and the OAuth login of carol both succeed, and
both establish a session with `IsOAuth` false. -/
theorem established_sessions_not_oauth_witness :
    (doLogin Scenario.env Scenario.state Scenario.loginReq Scenario.alice "").Session.IsOAuth =
      false ∧
    (LoginByOAuth Scenario.env Scenario.state Scenario.oauthReq "gitlab"
      "carol-ext").1.Session.IsOAuth = false :=
  ⟨((established_sessions_not_oauth Scenario.env Scenario.state Scenario.loginReq).2.2.2.2.1
      Scenario.alice "" (by decide)).2,
   ((established_sessions_not_oauth Scenario.env Scenario.state Scenario.oauthReq).2.2.2.2.2
      "gitlab" "carol-ext" Scenario.carol (by decide)).2⟩

/-! ## A failing password write -/

/-- C9: in `oauthToEmail` and in `ldapToEmail`, if `User().UpdatePassword` fails after the
proof steps succeeded, the caller receives that store error and no revocation sweep is
attempted: no session is removed, no cache entry is evicted, no grant is revoked, the
session cookie is not overwritten, and the call trace ends with the failed write and the
audit entry, with no call of the sweep. -/
theorem password_write_failure_skips_sweep (e : Env) (st : State) (r : Request) (user : User)
    (err : AppError)
    (hemail : lookup r.props "email" ≠ "")
    (hget : e.fault (.UserGetByEmail (lookup r.props "email")) = none)
    (hfound : st.users.find? (fun u => u.Email == lookup r.props "email") = some user) :
    (e.IsPasswordValid (lookup r.props "password") = none →
      user.Id = st.Session.UserId →
      e.fault (.UserUpdatePassword st.Session.UserId
        (e.HashPassword (lookup r.props "password"))) = some err →
      (oauthToEmail e st r).Err = some err ∧
      (oauthToEmail e st r).sessions = st.sessions ∧
      (oauthToEmail e st r).cache = st.cache ∧
      (oauthToEmail e st r).accessData = st.accessData ∧
      (oauthToEmail e st r).users = st.users ∧
      (oauthToEmail e st r).cookies = st.cookies ∧
      (oauthToEmail e st r).calls = st.calls ++
        [.LogAudit st.Session.UserId "attempt",
         .UserGetByEmail (lookup r.props "email"),
         .UserUpdatePassword st.Session.UserId (e.HashPassword (lookup r.props "password")),
         .LogAudit st.Session.UserId "fail - database issue"]) ∧
    (∀ ldapInterface authData,
      e.IsPasswordValid (lookup r.props "email_password") = none →
      lookup r.props "ldap_password" ≠ "" →
      user.AuthService = e.model.USER_AUTH_SERVICE_LDAP →
      e.GetLdapInterface = some ldapInterface →
      user.AuthData = some authData →
      ldapInterface.CheckPassword authData (lookup r.props "ldap_password") = none →
      e.checkUserMfa user (lookup r.props "token") = none →
      e.fault (.UserUpdatePassword user.Id
        (e.HashPassword (lookup r.props "email_password"))) = some err →
      (ldapToEmail e st r).Err = some err ∧
      (ldapToEmail e st r).sessions = st.sessions ∧
      (ldapToEmail e st r).cache = st.cache ∧
      (ldapToEmail e st r).accessData = st.accessData ∧
      (ldapToEmail e st r).users = st.users ∧
      (ldapToEmail e st r).cookies = st.cookies ∧
      (ldapToEmail e st r).calls = st.calls ++
        [.LogAudit st.Session.UserId "attempt",
         .UserGetByEmail (lookup r.props "email"),
         .LdapCheckPassword authData (lookup r.props "ldap_password"),
         .UserUpdatePassword user.Id (e.HashPassword (lookup r.props "email_password")),
         .LogAudit st.Session.UserId "fail - database issue"]) := by
  have h1 : ¬ len (lookup r.props "email") = 0 := (len_eq_zero_iff _).not.mpr hemail
  constructor
  · intro hp hid hw
    simp [oauthToEmail, hp, h1, Store.User.GetByEmail, hget, hfound, hid, hw,
      Store.User.UpdatePassword, LogAudit, LogAuditWithUserId, State.call]
  · intro ldapInterface authData hp hlp hs hl ha hc hm hw
    have h4 : ¬ len (lookup r.props "ldap_password") = 0 := (len_eq_zero_iff _).not.mpr hlp
    simp [ldapToEmail, ldapToEmail.migrate, Ldap.CheckPassword, h1, hp, h4,
      Store.User.GetByEmail, hget, hfound, hs, hl, ha, hc, hm, hw, Store.User.UpdatePassword,
      LogAudit, LogAuditWithUserId, State.call]

/-- Witness of C9: with the password write failing, alice calls `oauthToEmail` and bob calls
`ldapToEmail` with valid proofs; both get the store error and every session stays. -/
theorem password_write_failure_skips_sweep_witness :
    (oauthToEmail Scenario.envPasswordWriteFails Scenario.state
      (Scenario.req [("password", "new-secret"), ("email", "alice@example.com")])).sessions =
      Scenario.state.sessions ∧
    (ldapToEmail Scenario.envPasswordWriteFails Scenario.state
      (Scenario.req [("email", "bob@example.com"), ("email_password", "new-secret"),
        ("ldap_password", "ldap-secret")])).sessions = Scenario.state.sessions :=
  ⟨((password_write_failure_skips_sweep Scenario.envPasswordWriteFails Scenario.state
      (Scenario.req [("password", "new-secret"), ("email", "alice@example.com")])
      Scenario.alice Scenario.storeErr (by decide) (by decide) (by decide)).1
      (by decide) (by decide) (by decide)).2.1,
   ((password_write_failure_skips_sweep Scenario.envPasswordWriteFails Scenario.state
      (Scenario.req [("email", "bob@example.com"), ("email_password", "new-secret"),
        ("ldap_password", "ldap-secret")])
      Scenario.bob Scenario.storeErr (by decide) (by decide) (by decide)).2
      Scenario.ldap "uid=bob" (by decide) (by decide) (by decide) rfl (by decide) (by decide)
      (by decide) (by decide)).2.1⟩

/-! ## Migration from LDAP to password -/

/-- Either every proof of `ldapToEmail` succeeded, or the handler changed no user record,
no session, no cache entry and no grant and issued no writing call. -/
theorem ldapToEmail_cases (e : Env) (st : State) (r : Request) :
    (∃ user ldapInterface authData,
      st.users.find? (fun u => u.Email == lookup r.props "email") = some user ∧
      e.IsPasswordValid (lookup r.props "email_password") = none ∧
      user.AuthService = e.model.USER_AUTH_SERVICE_LDAP ∧
      e.GetLdapInterface = some ldapInterface ∧ user.AuthData = some authData ∧
      ldapInterface.CheckPassword authData (lookup r.props "ldap_password") = none ∧
      e.checkUserMfa user (lookup r.props "token") = none) ∨
    ((ldapToEmail e st r).users = st.users ∧
      (ldapToEmail e st r).sessions = st.sessions ∧
      (ldapToEmail e st r).cache = st.cache ∧
      (ldapToEmail e st r).accessData = st.accessData ∧
      ∀ c ∈ callsSince st (ldapToEmail e st r), c.isMutation = false) := by
  by_cases h1 : len (lookup r.props "email") = 0
  · right
    simp [ldapToEmail, h1, SetInvalidParam, callsSince]
  cases hp : e.IsPasswordValid (lookup r.props "email_password") with
  | some err =>
    right
    simp [ldapToEmail, h1, hp, callsSince]
  | none =>
  by_cases h4 : len (lookup r.props "ldap_password") = 0
  · right
    simp [ldapToEmail, h1, hp, h4, SetInvalidParam, callsSince]
  cases hf : e.fault (.UserGetByEmail (lookup r.props "email")) with
  | some err =>
    right
    simp [ldapToEmail, h1, hp, h4, Store.User.GetByEmail, hf, LogAudit, LogAuditWithUserId,
      State.call, callsSince, Call.isMutation]
  | none =>
  cases hu : st.users.find? (fun u => u.Email == lookup r.props "email") with
  | none =>
    right
    simp [ldapToEmail, h1, hp, h4, Store.User.GetByEmail, hf, hu, LogAudit, LogAuditWithUserId,
      State.call, callsSince, Call.isMutation]
  | some user =>
  by_cases hs : user.AuthService = e.model.USER_AUTH_SERVICE_LDAP
  swap
  · right
    simp [ldapToEmail, h1, hp, h4, Store.User.GetByEmail, hf, hu, hs, LogAudit,
      LogAuditWithUserId, State.call, callsSince, Call.isMutation]
  cases hl : e.GetLdapInterface with
  | none =>
    right
    simp [ldapToEmail, h1, hp, h4, Store.User.GetByEmail, hf, hu, hs, hl, LogAudit,
      LogAuditWithUserId, State.call, callsSince, Call.isMutation]
  | some ldapInterface =>
  cases ha : user.AuthData with
  | none =>
    right
    simp [ldapToEmail, h1, hp, h4, Store.User.GetByEmail, hf, hu, hs, hl, ha, LogAudit,
      LogAuditWithUserId, State.call, callsSince, Call.isMutation]
  | some authData =>
  cases hc : ldapInterface.CheckPassword authData (lookup r.props "ldap_password") with
  | some err =>
    right
    simp [ldapToEmail, ldapToEmail.migrate, Ldap.CheckPassword, h1, hp, h4,
      Store.User.GetByEmail, hf, hu, hs, hl, ha, hc, LogAudit, LogAuditWithUserId, State.call,
      callsSince, Call.isMutation]
  | none =>
  cases hm : e.checkUserMfa user (lookup r.props "token") with
  | some err =>
    right
    simp [ldapToEmail, ldapToEmail.migrate, Ldap.CheckPassword, h1, hp, h4,
      Store.User.GetByEmail, hf, hu, hs, hl, ha, hc, hm, LogAudit, LogAuditWithUserId,
      State.call, callsSince, Call.isMutation]
  | none =>
    left
    exact ⟨user, ldapInterface, authData, rfl, rfl, hs, rfl, ha, hc, hm⟩

/-- The sweep loop only appends to the call trace. -/
theorem RevokeAllSession_loop_calls (e : Env) (userId : String) (l : List Session) (st : State) :
    ∃ extra, (RevokeAllSession.loop e userId l st).1.calls = st.calls ++ extra := by
  induction l generalizing st with
  | nil => exact ⟨[], by simp [RevokeAllSession.loop]⟩
  | cons x rest ih =>
    unfold RevokeAllSession.loop
    cases hx : x.IsOAuth
    · cases hf : e.fault (.SessionRemove x.Id) with
      | some err =>
        exact ⟨[.LogAudit userId ("session_id=" ++ x.Id), .SessionRemove x.Id], by
          simp [Store.Session.Remove, hf, LogAuditWithUserId, State.call]⟩
      | none =>
        obtain ⟨extra, h⟩ := ih (app.RevokeWebrtcToken
          (Store.Session.Remove e (LogAuditWithUserId st userId ("session_id=" ++ x.Id)) x.Id).1
          x.Id)
        simp only [Store.Session.Remove, hf, LogAuditWithUserId, State.call,
          app.RevokeWebrtcToken, Bool.false_eq_true, if_false] at h ⊢
        exact ⟨[.LogAudit userId ("session_id=" ++ x.Id), .SessionRemove x.Id,
          .RevokeWebrtcToken x.Id] ++ extra, by rw [h]; simp⟩
    · obtain ⟨extra, h⟩ := ih (app.RevokeWebrtcToken
        (app.RevokeAccessToken e (LogAuditWithUserId st userId ("session_id=" ++ x.Id))
          x.Token).1 x.Id)
      refine ⟨[.LogAudit userId ("session_id=" ++ x.Id), .RevokeAccessToken x.Token,
        .RevokeWebrtcToken x.Id] ++ extra, ?_⟩
      cases hf : e.fault (.RevokeAccessToken x.Token) <;>
        simp only [app.RevokeAccessToken, hf, LogAuditWithUserId, State.call,
          app.RevokeWebrtcToken, if_true] at h ⊢ <;>
        (rw [h]; simp)

/-- The sweep only appends to the call trace. -/
theorem RevokeAllSession_calls (e : Env) (st : State) (userId : String) :
    ∃ extra, (RevokeAllSession e st userId).calls = st.calls ++ extra := by
  unfold RevokeAllSession Store.Session.GetSessions
  cases hf : e.fault (.SessionGetSessions userId) with
  | some err => exact ⟨[.SessionGetSessions userId], by simp [State.call]⟩
  | none =>
    obtain ⟨extra, h⟩ := RevokeAllSession_loop_calls e userId
      (st.sessions.filter (fun s => s.UserId == userId)) (st.call (.SessionGetSessions userId))
    dsimp only
    generalize RevokeAllSession.loop e userId
      (st.sessions.filter (fun s => s.UserId == userId)) (st.call (.SessionGetSessions userId))
      = res at h
    obtain ⟨st2, b⟩ := res
    simp only [State.call] at h
    cases b with
    | true => exact ⟨[.SessionGetSessions userId] ++ extra, by simp [h]⟩
    | false =>
      exact ⟨[.SessionGetSessions userId] ++ extra ++ [.RemoveAllSessionsForUserId userId], by
        simp [app.RemoveAllSessionsForUserId, State.call, h]⟩

/-- The tail of `ldapToEmail` after the password write only appends to the call trace. -/
theorem ldapToEmail_revoke_calls (e : Env) (st : State) (user : User) :
    ∃ extra, (ldapToEmail.revoke e st user).calls = st.calls ++ extra := by
  obtain ⟨extra, h⟩ := RevokeAllSession_calls e st user.Id
  unfold ldapToEmail.revoke
  simp only []
  split
  · exact ⟨extra, by simp [RemoveSessionCookie, h]⟩
  · exact ⟨extra ++ [.LogAudit (RevokeAllSession e st user.Id).Session.UserId "success"], by
      simp [RemoveSessionCookie, LogAudit, LogAuditWithUserId, State.call, State.go, h]⟩

/-- The tail of `ldapToEmail` after the password write does not touch the user records. -/
theorem ldapToEmail_revoke_users (e : Env) (st : State) (user : User) :
    (ldapToEmail.revoke e st user).users = st.users := by
  have hs := (RevokeAllSession_spec e st user.Id).2.2.1
  unfold ldapToEmail.revoke
  simp only []
  split <;> simp [RemoveSessionCookie, LogAudit, LogAuditWithUserId, State.call, State.go, hs]

/-- C10: `ldapToEmail` writes the new password hash and revokes sessions only if all proofs
succeeded, checked in this order: the new password meets the policy, the method of record
of the account is ldap, the LDAP provider is present and the account has auth-data, the
LDAP bind-check of the stored auth-data with the presented LDAP password succeeds, and the
MFA check succeeds. If the handler changed a user record, a session, a cache entry or a
grant, or issued any writing call, then all of them hold; for a well-formed request the
error returned is that of the first check that fails, whatever the later checks would
say; and when all of them hold the password write is issued. -/
theorem ldapToEmail_proofs_in_order (e : Env) (st : State) (r : Request) :
    (((ldapToEmail e st r).users ≠ st.users ∨ (ldapToEmail e st r).sessions ≠ st.sessions ∨
        (ldapToEmail e st r).cache ≠ st.cache ∨
        (ldapToEmail e st r).accessData ≠ st.accessData ∨
        ∃ c ∈ callsSince st (ldapToEmail e st r), c.isMutation = true) →
      ∃ user ldapInterface authData,
        st.users.find? (fun u => u.Email == lookup r.props "email") = some user ∧
        e.IsPasswordValid (lookup r.props "email_password") = none ∧
        user.AuthService = e.model.USER_AUTH_SERVICE_LDAP ∧
        e.GetLdapInterface = some ldapInterface ∧ user.AuthData = some authData ∧
        ldapInterface.CheckPassword authData (lookup r.props "ldap_password") = none ∧
        e.checkUserMfa user (lookup r.props "token") = none) ∧
    (∀ user, lookup r.props "email" ≠ "" → lookup r.props "ldap_password" ≠ "" →
      e.fault (.UserGetByEmail (lookup r.props "email")) = none →
      st.users.find? (fun u => u.Email == lookup r.props "email") = some user →
      (∀ err, e.IsPasswordValid (lookup r.props "email_password") = some err →
        (ldapToEmail e st r).Err = some err) ∧
      (e.IsPasswordValid (lookup r.props "email_password") = none →
        (user.AuthService ≠ e.model.USER_AUTH_SERVICE_LDAP →
          (ldapToEmail e st r).Err = some (NewLocAppError "ldapToEmail"
            "api.user.ldap_to_email.not_ldap_account.app_error" "")) ∧
        (user.AuthService = e.model.USER_AUTH_SERVICE_LDAP →
          ((e.GetLdapInterface.isNone = true ∨ user.AuthData = none) →
            (ldapToEmail e st r).Err = some { NewLocAppError "ldapToEmail"
              "api.user.ldap_to_email.not_available.app_error" "" with StatusCode := 501 }) ∧
          (∀ ldapInterface authData, e.GetLdapInterface = some ldapInterface →
            user.AuthData = some authData →
            (∀ err, ldapInterface.CheckPassword authData (lookup r.props "ldap_password")
                = some err → (ldapToEmail e st r).Err = some err) ∧
            (ldapInterface.CheckPassword authData (lookup r.props "ldap_password") = none →
              (∀ err, e.checkUserMfa user (lookup r.props "token") = some err →
                (ldapToEmail e st r).Err = some err) ∧
              (e.checkUserMfa user (lookup r.props "token") = none →
                Call.UserUpdatePassword user.Id
                    (e.HashPassword (lookup r.props "email_password")) ∈
                  callsSince st (ldapToEmail e st r) ∧
                (e.fault (.UserUpdatePassword user.Id
                    (e.HashPassword (lookup r.props "email_password"))) = none →
                  (ldapToEmail e st r).users = st.users.map (fun u =>
                    if u.Id == user.Id then
                      { u with Password := e.HashPassword (lookup r.props "email_password"),
                               AuthData := none, AuthService := "" }
                    else u)))))))) := by
  constructor
  · intro hchg
    rcases ldapToEmail_cases e st r with h | ⟨hu, hs, hc, ha, hcalls⟩
    · exact h
    · exfalso
      rcases hchg with h | h | h | h | ⟨c, hc1, hc2⟩
      · exact h hu
      · exact h hs
      · exact h hc
      · exact h ha
      · rw [hcalls c hc1] at hc2
        exact absurd hc2 (by decide)
  · intro user hemail hlp hget hfound
    have h1 : ¬ len (lookup r.props "email") = 0 := (len_eq_zero_iff _).not.mpr hemail
    have h4 : ¬ len (lookup r.props "ldap_password") = 0 := (len_eq_zero_iff _).not.mpr hlp
    refine ⟨fun err hp => ?_, fun hp => ⟨fun hs => ?_, fun hs => ⟨fun hna => ?_,
      fun ldapInterface authData hl ha => ⟨fun err hc => ?_, fun hc => ⟨fun err hm => ?_,
        fun hm => ?_⟩⟩⟩⟩⟩
    · simp [ldapToEmail, h1, hp]
    · simp [ldapToEmail, h1, hp, h4, Store.User.GetByEmail, hget, hfound, hs, LogAudit,
        LogAuditWithUserId, State.call]
    · rcases hna with hl | ha
      · have hl2 : e.GetLdapInterface = none := by simpa using hl
        simp [ldapToEmail, h1, hp, h4, Store.User.GetByEmail, hget, hfound, hs, hl2, LogAudit,
          LogAuditWithUserId, State.call]
      · cases hl : e.GetLdapInterface <;>
          simp [ldapToEmail, h1, hp, h4, Store.User.GetByEmail, hget, hfound, hs, hl, ha,
            LogAudit, LogAuditWithUserId, State.call]
    · simp [ldapToEmail, ldapToEmail.migrate, Ldap.CheckPassword, h1, hp, h4,
        Store.User.GetByEmail, hget, hfound, hs, hl, ha, hc, LogAudit, LogAuditWithUserId,
        State.call]
    · simp [ldapToEmail, ldapToEmail.migrate, Ldap.CheckPassword, h1, hp, h4,
        Store.User.GetByEmail, hget, hfound, hs, hl, ha, hc, hm, LogAudit, LogAuditWithUserId,
        State.call]
    · cases hw : e.fault (.UserUpdatePassword user.Id
          (e.HashPassword (lookup r.props "email_password"))) with
      | some err =>
        simp [ldapToEmail, ldapToEmail.migrate, Ldap.CheckPassword, h1, hp, h4,
          Store.User.GetByEmail, hget, hfound, hs, hl, ha, hc, hm, hw,
          Store.User.UpdatePassword, LogAudit, LogAuditWithUserId, State.call, callsSince]
      | none =>
        simp only [ldapToEmail, ldapToEmail.migrate, Ldap.CheckPassword, h1, hp, h4,
          Store.User.GetByEmail, hget, hfound, hs, hl, ha, hc, hm, hw,
          Store.User.UpdatePassword, LogAudit, LogAuditWithUserId, State.call, beq_iff_eq,
          if_false, bne_self_eq_false, Bool.false_eq_true]
        refine ⟨?_, fun _ => ?_⟩
        · obtain ⟨extra, hx⟩ := ldapToEmail_revoke_calls e
            { st with
              users := st.users.map (fun u =>
                if u.Id = user.Id then
                  { u with Password := e.HashPassword (lookup r.props "email_password"),
                           AuthData := none, AuthService := "" }
                else u),
              calls := st.calls ++ [.LogAudit st.Session.UserId "attempt"] ++
                [.UserGetByEmail (lookup r.props "email")] ++
                [.LdapCheckPassword authData (lookup r.props "ldap_password")] ++
                [.UserUpdatePassword user.Id
                  (e.HashPassword (lookup r.props "email_password"))] } user
          unfold callsSince
          rw [hx]
          simp
        · rw [ldapToEmail_revoke_users]

/-- Witness of C10: bob presents valid proofs; `ldapToEmail` removes his session, so all
proofs hold, and the password write is among the calls it issued. -/
theorem ldapToEmail_proofs_in_order_witness :
    (∃ user ldapInterface authData,
      Scenario.state.users.find? (fun u => u.Email == "bob@example.com") = some user ∧
      Scenario.envLdap.IsPasswordValid "new-secret" = none ∧
      user.AuthService = "ldap" ∧
      Scenario.envLdap.GetLdapInterface = some ldapInterface ∧ user.AuthData = some authData ∧
      ldapInterface.CheckPassword authData "ldap-secret" = none ∧
      Scenario.envLdap.checkUserMfa user "" = none) ∧
    Call.UserUpdatePassword "bob" "hash:new-secret" ∈
      callsSince Scenario.state (ldapToEmail Scenario.envLdap Scenario.state
        (Scenario.req [("email", "bob@example.com"), ("email_password", "new-secret"),
          ("ldap_password", "ldap-secret")])) :=
  have h := ldapToEmail_proofs_in_order Scenario.envLdap Scenario.state
    (Scenario.req [("email", "bob@example.com"), ("email_password", "new-secret"),
      ("ldap_password", "ldap-secret")])
  have hB := h.2 Scenario.bob (by decide) (by decide) (by decide) (by decide)
  have hC := ((hB.2 (by decide)).2 (by decide)).2 Scenario.ldap "uid=bob" rfl rfl
  ⟨h.1 (Or.inr (Or.inl (by decide))), ((hC.2 (by decide)).2 (by decide)).1⟩

/-! ## Calls of the sweep -/

/-- The sweep loop only appends calls of the sweep to the call trace. -/
theorem RevokeAllSession_loop_calls_sweep (e : Env) (userId : String) (l : List Session)
    (st : State) :
    ∃ extra, (RevokeAllSession.loop e userId l st).1.calls = st.calls ++ extra ∧
      ∀ c ∈ extra, c.isSweep = true := by
  induction l generalizing st with
  | nil => exact ⟨[], by simp [RevokeAllSession.loop]⟩
  | cons x rest ih =>
    unfold RevokeAllSession.loop
    cases hx : x.IsOAuth
    · cases hf : e.fault (.SessionRemove x.Id) with
      | some err =>
        exact ⟨[.LogAudit userId ("session_id=" ++ x.Id), .SessionRemove x.Id], by
          simp [Store.Session.Remove, hf, LogAuditWithUserId, State.call, Call.isSweep]⟩
      | none =>
        obtain ⟨extra, h, hk⟩ := ih (app.RevokeWebrtcToken
          (Store.Session.Remove e (LogAuditWithUserId st userId ("session_id=" ++ x.Id)) x.Id).1
          x.Id)
        simp only [Store.Session.Remove, hf, LogAuditWithUserId, State.call,
          app.RevokeWebrtcToken, Bool.false_eq_true, if_false] at h ⊢
        refine ⟨[.LogAudit userId ("session_id=" ++ x.Id), .SessionRemove x.Id,
          .RevokeWebrtcToken x.Id] ++ extra, by rw [h]; simp, ?_⟩
        intro c hc
        rcases List.mem_append.mp hc with h1 | h1
        · simp at h1
          rcases h1 with h1 | h1 | h1 <;> (subst h1; rfl)
        · exact hk c h1
    · obtain ⟨extra, h, hk⟩ := ih (app.RevokeWebrtcToken
        (app.RevokeAccessToken e (LogAuditWithUserId st userId ("session_id=" ++ x.Id))
          x.Token).1 x.Id)
      refine ⟨[.LogAudit userId ("session_id=" ++ x.Id), .RevokeAccessToken x.Token,
        .RevokeWebrtcToken x.Id] ++ extra, ?_, ?_⟩
      · cases hf : e.fault (.RevokeAccessToken x.Token) <;>
          simp only [app.RevokeAccessToken, hf, LogAuditWithUserId, State.call,
            app.RevokeWebrtcToken, if_true] at h ⊢ <;>
          (rw [h]; simp)
      · intro c hc
        rcases List.mem_append.mp hc with h1 | h1
        · simp at h1
          rcases h1 with h1 | h1 | h1 <;> (subst h1; rfl)
        · exact hk c h1

/-- The sweep only appends calls of the sweep to the call trace. -/
theorem RevokeAllSession_calls_sweep (e : Env) (st : State) (userId : String) :
    ∃ extra, (RevokeAllSession e st userId).calls = st.calls ++ extra ∧
      ∀ c ∈ extra, c.isSweep = true := by
  unfold RevokeAllSession Store.Session.GetSessions
  cases hf : e.fault (.SessionGetSessions userId) with
  | some err => exact ⟨[.SessionGetSessions userId], by simp [State.call, Call.isSweep]⟩
  | none =>
    obtain ⟨extra, h, hk⟩ := RevokeAllSession_loop_calls_sweep e userId
      (st.sessions.filter (fun s => s.UserId == userId)) (st.call (.SessionGetSessions userId))
    dsimp only
    generalize RevokeAllSession.loop e userId
      (st.sessions.filter (fun s => s.UserId == userId)) (st.call (.SessionGetSessions userId))
      = res at h
    obtain ⟨st2, b⟩ := res
    simp only [State.call] at h
    cases b with
    | true =>
      refine ⟨[.SessionGetSessions userId] ++ extra, by simp [h], ?_⟩
      intro c hc
      rcases List.mem_append.mp hc with h1 | h1
      · simp at h1; subst h1; rfl
      · exact hk c h1
    | false =>
      refine ⟨[.SessionGetSessions userId] ++ extra ++ [.RemoveAllSessionsForUserId userId], by
        simp [app.RemoveAllSessionsForUserId, State.call, h], ?_⟩
      intro c hc
      rcases List.mem_append.mp hc with h1 | h1
      · rcases List.mem_append.mp h1 with h2 | h2
        · simp at h2; subst h2; rfl
        · exact hk c h2
      · simp at h1; subst h1; rfl

/-! ## Migration from OAuth to password -/

/-- The tail of `oauthToEmail` after the password write touches no user record and only
appends calls of the sweep. -/
theorem oauthToEmail_revoke_frame (e : Env) (st : State) (user : User) :
    (oauthToEmail.revoke e st user).users = st.users ∧
    ∃ extra, (oauthToEmail.revoke e st user).calls = st.calls ++ extra ∧
      ∀ c ∈ extra, c.isSweep = true := by
  have hs := (RevokeAllSession_spec e
    (st.go (.sendSignInChangeEmail user.Email
      "api.templates.signin_change_email.body.method_email")) st.Session.UserId).2.2.1
  obtain ⟨extra, h, hk⟩ := RevokeAllSession_calls_sweep e
    (st.go (.sendSignInChangeEmail user.Email
      "api.templates.signin_change_email.body.method_email")) st.Session.UserId
  unfold oauthToEmail.revoke
  simp only [State.go] at hs h ⊢
  split
  · exact ⟨by simpa [RemoveSessionCookie] using hs, extra, by simpa [RemoveSessionCookie] using h, hk⟩
  · refine ⟨by simpa [RemoveSessionCookie, LogAudit, LogAuditWithUserId, State.call] using hs,
      extra ++ [.LogAudit (RevokeAllSession e
        { st with pending := st.pending ++ [.sendSignInChangeEmail user.Email
          "api.templates.signin_change_email.body.method_email"] }
        st.Session.UserId).Session.UserId "success"], ?_, ?_⟩
    · simp [RemoveSessionCookie, LogAudit, LogAuditWithUserId, State.call, h]
    · intro c hc
      rcases List.mem_append.mp hc with h1 | h1
      · exact hk c h1
      · simp at h1; subst h1; rfl

/-- C11: `oauthToEmail` mutates only the calling principal. If the new password fails the
password policy the handler fails with that error and changes nothing; if the account
found by the given email is not the principal of the session it fails with status 403, with
no password write and no session revocation. In every run the user records are either
unchanged or differ only by the password write for the principal of the session, every
`User().UpdatePassword` call is for that principal, and on success the write has
happened. -/
theorem oauthToEmail_only_calling_principal (e : Env) (st : State) (r : Request) :
    (∀ err, e.IsPasswordValid (lookup r.props "password") = some err →
      oauthToEmail e st r = { st with Err := some err }) ∧
    (∀ user, e.IsPasswordValid (lookup r.props "password") = none →
      lookup r.props "email" ≠ "" →
      e.fault (.UserGetByEmail (lookup r.props "email")) = none →
      st.users.find? (fun u => u.Email == lookup r.props "email") = some user →
      user.Id ≠ st.Session.UserId →
      (oauthToEmail e st r).Err = some { NewLocAppError "oauthToEmail"
        "api.user.oauth_to_email.context.app_error" "" with StatusCode := 403 } ∧
      (oauthToEmail e st r).users = st.users ∧
      (oauthToEmail e st r).sessions = st.sessions ∧
      (oauthToEmail e st r).cache = st.cache ∧
      (oauthToEmail e st r).accessData = st.accessData ∧
      ∀ c ∈ callsSince st (oauthToEmail e st r), c.isMutation = false) ∧
    ((oauthToEmail e st r).users = st.users ∨
      (oauthToEmail e st r).users = st.users.map (fun u =>
        if u.Id == st.Session.UserId then
          { u with Password := e.HashPassword (lookup r.props "password"),
                   AuthData := none, AuthService := "" }
        else u)) ∧
    (∀ userId hashedPassword,
      Call.UserUpdatePassword userId hashedPassword ∈ callsSince st (oauthToEmail e st r) →
      userId = st.Session.UserId ∧
      hashedPassword = e.HashPassword (lookup r.props "password")) ∧
    ((oauthToEmail e st r).Err = none →
      (oauthToEmail e st r).users = st.users.map (fun u =>
        if u.Id == st.Session.UserId then
          { u with Password := e.HashPassword (lookup r.props "password"),
                   AuthData := none, AuthService := "" }
        else u)) := by
  refine ⟨fun err hp => by simp [oauthToEmail, hp], ?_, ?_⟩
  · intro user hp hemail hf hu hid
    have hl : ¬ len (lookup r.props "email") = 0 := (len_eq_zero_iff _).not.mpr hemail
    simp [oauthToEmail, hp, hl, Store.User.GetByEmail, hf, hu, hid, LogAudit,
      LogAuditWithUserId, State.call, callsSince, Call.isMutation]
  · cases hp : e.IsPasswordValid (lookup r.props "password") with
    | some err => simp [oauthToEmail, hp, callsSince]
    | none =>
    by_cases hl : len (lookup r.props "email") = 0
    · simp [oauthToEmail, hp, hl, SetInvalidParam, callsSince]
    cases hf : e.fault (.UserGetByEmail (lookup r.props "email")) with
    | some err =>
      simp [oauthToEmail, hp, hl, Store.User.GetByEmail, hf, LogAudit, LogAuditWithUserId,
        State.call, callsSince]
    | none =>
    cases hu : st.users.find? (fun u => u.Email == lookup r.props "email") with
    | none =>
      simp [oauthToEmail, hp, hl, Store.User.GetByEmail, hf, hu, LogAudit, LogAuditWithUserId,
        State.call, callsSince]
    | some user =>
    by_cases hid : user.Id = st.Session.UserId
    swap
    · simp [oauthToEmail, hp, hl, Store.User.GetByEmail, hf, hu, hid, LogAudit,
        LogAuditWithUserId, State.call, callsSince]
    cases hw : e.fault (.UserUpdatePassword st.Session.UserId
        (e.HashPassword (lookup r.props "password"))) with
    | some err =>
      simp [oauthToEmail, hp, hl, Store.User.GetByEmail, hf, hu, hid, hw,
        Store.User.UpdatePassword, LogAudit, LogAuditWithUserId, State.call, callsSince]
    | none =>
      simp only [oauthToEmail, hp, hl, Store.User.GetByEmail, hf, hu, hid, hw,
        Store.User.UpdatePassword, LogAudit, LogAuditWithUserId, State.call, beq_iff_eq,
        bne_self_eq_false, Bool.false_eq_true, if_false]
      obtain ⟨hus, extra, hc, hk⟩ := oauthToEmail_revoke_frame e
        { st with
          users := st.users.map (fun u =>
            if u.Id = st.Session.UserId then
              { u with Password := e.HashPassword (lookup r.props "password"),
                       AuthData := none, AuthService := "" }
            else u),
          calls := st.calls ++ [.LogAudit st.Session.UserId "attempt"] ++
            [.UserGetByEmail (lookup r.props "email")] ++
            [.UserUpdatePassword st.Session.UserId
              (e.HashPassword (lookup r.props "password"))] } user
      refine ⟨Or.inr hus, ?_, fun _ => hus⟩
      intro userId hashedPassword hmem
      unfold callsSince at hmem
      rw [hc] at hmem
      simp at hmem
      rcases hmem with h1 | h1
      · exact h1
      · have := hk _ h1
        simp [Call.isSweep] at this

/-- Witness of C11: alice, logged in, names the email of bob and gets status 403 with every
user record unchanged; with her own email the password of alice is written. -/
theorem oauthToEmail_only_calling_principal_witness :
    (oauthToEmail Scenario.env Scenario.state
      (Scenario.req [("password", "new-secret"), ("email", "bob@example.com")])).users =
      Scenario.state.users ∧
    (oauthToEmail Scenario.env Scenario.state Scenario.oauthToEmailReq).users =
      Scenario.state.users.map (fun u =>
        if u.Id == "alice" then
          { u with Password := "hash:new-secret", AuthData := none, AuthService := "" }
        else u) :=
  ⟨((oauthToEmail_only_calling_principal Scenario.env Scenario.state
      (Scenario.req [("password", "new-secret"), ("email", "bob@example.com")])).2.1
      Scenario.bob (by decide) (by decide) (by decide) (by decide) (by decide)).2.1,
   (oauthToEmail_only_calling_principal Scenario.env Scenario.state
      Scenario.oauthToEmailReq).2.2.2.2 (by decide)⟩

/-! ## Redemption of a recovery token -/

/-- C12: `ResetPassword` rejects a federated principal. For every user whose auth-data is
present and non-empty, it returns the sso error and does not call `User().UpdatePassword`,
unless the context of the caller holds the manage-system permission, in which case the
password is written; for a user with nil or empty auth-data the password is written
whatever the permissions are. Written means: `User().UpdatePassword` is called with the
hash of the new password and, when the store does not fail, the record is changed and nil
is returned. -/
theorem ResetPassword_federated (e : Env) (st : State) (userId newPassword : String)
    (user : User)
    (hget : e.fault (.UserGet userId) = none)
    (hfound : st.users.find? (fun u => u.Id == userId) = some user) :
    (∀ authData, user.AuthData = some authData → authData ≠ "" →
      (e.HasPermissionTo st.Session e.model.PERMISSION_MANAGE_SYSTEM = false →
        (ResetPassword e st userId newPassword).2 = some (NewLocAppError "ResetPassword"
          "api.user.reset_password.sso.app_error" ("userId=" ++ user.Id)) ∧
        (ResetPassword e st userId newPassword).1.users = st.users ∧
        (ResetPassword e st userId newPassword).1.calls = st.calls ++ [.UserGet userId]) ∧
      (e.HasPermissionTo st.Session e.model.PERMISSION_MANAGE_SYSTEM = true →
        (ResetPassword e st userId newPassword).1.calls = st.calls ++
          [.UserGet userId, .UserUpdatePassword userId (e.HashPassword newPassword)] ∧
        (e.fault (.UserUpdatePassword userId (e.HashPassword newPassword)) = none →
          (ResetPassword e st userId newPassword).2 = none ∧
          (ResetPassword e st userId newPassword).1.users = st.users.map (fun u =>
            if u.Id == userId then
              { u with Password := e.HashPassword newPassword, AuthData := none,
                       AuthService := "" }
            else u)))) ∧
    ((user.AuthData = none ∨ user.AuthData = some "") →
      (ResetPassword e st userId newPassword).1.calls = st.calls ++
        [.UserGet userId, .UserUpdatePassword userId (e.HashPassword newPassword)] ∧
      (e.fault (.UserUpdatePassword userId (e.HashPassword newPassword)) = none →
        (ResetPassword e st userId newPassword).2 = none ∧
        (ResetPassword e st userId newPassword).1.users = st.users.map (fun u =>
          if u.Id == userId then
            { u with Password := e.HashPassword newPassword, AuthData := none,
                     AuthService := "" }
          else u))) := by
  refine ⟨fun authData ha hne => ?_, fun ha => ?_⟩
  · have hl : ¬ len authData = 0 := (len_eq_zero_iff _).not.mpr hne
    refine ⟨fun hp => ?_, fun hp => ?_⟩
    · simp [ResetPassword, Store.User.Get, hget, hfound, ha, hl, HasPermissionToContext, hp,
        State.call]
    · cases hw : e.fault (.UserUpdatePassword userId (e.HashPassword newPassword)) <;>
        simp [ResetPassword, Store.User.Get, hget, hfound, ha, hl, HasPermissionToContext, hp,
          Store.User.UpdatePassword, hw, State.call, State.go]
  · have hfed : (match user.AuthData with
        | some authData => len authData != 0
        | none => false) = false := by
      rcases ha with ha | ha
      · simp [ha]
      · simp only [ha]
        decide
    cases hw : e.fault (.UserUpdatePassword userId (e.HashPassword newPassword)) <;>
      simp [ResetPassword, Store.User.Get, hget, hfound, hfed, Store.User.UpdatePassword, hw,
        State.call, State.go]

/-- Witness of C12: without the manage-system permission the reset for the federated
account of carol is refused and no user record changes; a system admin resets it; the
reset for the password account of alice goes through. -/
theorem ResetPassword_federated_witness :
    (ResetPassword Scenario.env Scenario.state "carol" "new-secret").1.users =
      Scenario.state.users ∧
    (ResetPassword Scenario.env Scenario.adminState "carol" "new-secret").2 = none ∧
    (ResetPassword Scenario.env Scenario.state "alice" "new-secret").2 = none :=
  ⟨((((ResetPassword_federated Scenario.env Scenario.state "carol" "new-secret" Scenario.carol
      rfl (by decide)).1 "carol-ext" rfl (by decide)).1 (by decide)).2).1,
   ((((ResetPassword_federated Scenario.env Scenario.adminState "carol" "new-secret"
      Scenario.carol rfl (by decide)).1 "carol-ext" rfl (by decide)).2 (by decide)).2 rfl).1,
   (((ResetPassword_federated Scenario.env Scenario.state "alice" "new-secret" Scenario.alice
      rfl (by decide)).2 (Or.inl rfl)).2 rfl).1⟩

/-- C13: token consumption does not depend on the password write. For every valid,
unexpired code, `resetPassword` starts the deletion of the recovery token of the principal
before it calls `ResetPassword`: the state `ResetPassword` runs in already has the deletion
pending. So the deletion is pending after the handler whatever `ResetPassword` returns,
also when it fails (user lookup failure, federated account, `UpdatePassword` failure) and
the handler reports that error; once the pending work has run, with the store deleting, no
token of the principal is left. -/
theorem resetPassword_consumes_token_first (e : Env) (st : State) (r : Request)
    (recovery : PasswordRecovery)
    (hcode : len (lookup r.props "code") = e.model.PASSWORD_RECOVERY_CODE_SIZE)
    (hpw : e.IsPasswordValid (lookup r.props "new_password") = none)
    (hget : e.fault (.PasswordRecoveryGetByCode (lookup r.props "code")) = none)
    (hfound : st.recovery.find? (fun x => x.Code == lookup r.props "code") = some recovery)
    (hlo : -9223372036854775808 ≤ e.GetMillis - recovery.CreateAt)
    (hhi : e.GetMillis - recovery.CreateAt < 9223372036854775808)
    (hfresh : e.GetMillis - recovery.CreateAt < e.model.PASSWORD_RECOVER_EXPIRY_TIME) :
    (∃ stR, stR.pending = st.pending ++ [.PasswordRecoveryDelete recovery.UserId] ∧
      stR.recovery = st.recovery ∧ stR.users = st.users ∧
      stR.calls = st.calls ++ [.LogAudit st.Session.UserId "attempt",
        .PasswordRecoveryGetByCode (lookup r.props "code")] ∧
      (∀ err, (ResetPassword e stR recovery.UserId (lookup r.props "new_password")).2 = some err →
        resetPassword e st r =
          { (ResetPassword e stR recovery.UserId (lookup r.props "new_password")).1 with
            Err := some err }) ∧
      ((ResetPassword e stR recovery.UserId (lookup r.props "new_password")).2 = none →
        (resetPassword e st r).calls =
          (ResetPassword e stR recovery.UserId (lookup r.props "new_password")).1.calls ++
            [.LogAudit recovery.UserId "success"])) ∧
    Task.PasswordRecoveryDelete recovery.UserId ∈ (resetPassword e st r).pending ∧
    (resetPassword e st r).recovery = st.recovery ∧
    (e.fault (.PasswordRecoveryDelete recovery.UserId) = none →
      ∀ x ∈ (runPending e (resetPassword e st r)).recovery, x.UserId ≠ recovery.UserId) := by
  have hw := wrap64_of_int64 _ hlo hhi
  have hrun : resetPassword e st r = resetPassword.redeem e
      { st with calls := st.calls ++ [.LogAudit st.Session.UserId "attempt"] ++
          [.PasswordRecoveryGetByCode (lookup r.props "code")] }
      recovery.UserId (lookup r.props "new_password") := by
    simp [resetPassword, hcode, hpw, Store.PasswordRecovery.GetByCode, hget, hfound, hw, hfresh,
      LogAudit, LogAuditWithUserId, State.call]
  have hs := resetPassword_redeem_spec e
    { st with calls := st.calls ++ [.LogAudit st.Session.UserId "attempt"] ++
        [.PasswordRecoveryGetByCode (lookup r.props "code")] }
    recovery.UserId (lookup r.props "new_password")
  rw [← hrun] at hs
  refine ⟨⟨({ st with calls := st.calls ++ [.LogAudit st.Session.UserId "attempt"] ++
      [.PasswordRecoveryGetByCode (lookup r.props "code")] } : State).go
      (.PasswordRecoveryDelete recovery.UserId), rfl, rfl, rfl, by simp [State.go], ?_, ?_⟩,
    hs.2.2, hs.1, ?_⟩
  · intro err herr
    rw [hrun]
    unfold resetPassword.redeem
    simp only []
    generalize ResetPassword e _ recovery.UserId (lookup r.props "new_password") = res at herr ⊢
    obtain ⟨st3, o⟩ := res
    simp only at herr
    subst herr
    rfl
  · intro hok
    rw [hrun]
    unfold resetPassword.redeem
    simp only []
    generalize ResetPassword e _ recovery.UserId (lookup r.props "new_password") = res at hok ⊢
    obtain ⟨st3, o⟩ := res
    simp only at hok
    subst hok
    simp [LogAuditWithUserId, State.call]
  · intro hdel x hx
    unfold runPending at hx
    exact (foldl_runTask_deletes e recovery.UserId hdel _
      { resetPassword e st r with pending := [] } hs.2.2 x hx).2

/-- Witness of C13: the password write fails for alice, `resetPassword` reports the store
error, and her token is gone once the pending deletion has run. -/
theorem resetPassword_consumes_token_first_witness :
    (resetPassword Scenario.envPasswordWriteFails Scenario.state Scenario.resetReq).Err =
      some Scenario.storeErr ∧
    ∀ x ∈ (runPending Scenario.envPasswordWriteFails
        (resetPassword Scenario.envPasswordWriteFails Scenario.state Scenario.resetReq)).recovery,
      x.UserId ≠ "alice" :=
  ⟨by decide,
   (resetPassword_consumes_token_first Scenario.envPasswordWriteFails Scenario.state
      Scenario.resetReq { UserId := "alice", Code := "abcd", CreateAt := 4999000 }
      (by decide) (by decide) (by decide) (by decide) (by decide) (by decide)
      (by decide)).2.2.2 (by decide)⟩

/-! ## Deactivation -/

/-- The device loop of `doLogin` under any fault oracle: it inserts nothing into the cache,
writes neither header nor cookie, and issues only revocations and log entries. -/
theorem doLogin_revokeLoop_frame (e : Env) (deviceId : String) (l : List Session) (st : State) :
    (∀ s ∈ (doLogin.revokeLoop e deviceId l st).cache, s ∈ st.cache) ∧
    (doLogin.revokeLoop e deviceId l st).header = st.header ∧
    (doLogin.revokeLoop e deviceId l st).cookies = st.cookies ∧
    ∃ extra, (doLogin.revokeLoop e deviceId l st).calls = st.calls ++ extra ∧
      ∀ c ∈ extra, (∃ id, c = Call.RevokeSessionById id) ∨ (∃ err, c = Call.LogError err) := by
  induction l generalizing st with
  | nil => exact ⟨fun s hs => hs, rfl, rfl, [], by simp [doLogin.revokeLoop], by simp⟩
  | cons x rest ih =>
    unfold doLogin.revokeLoop
    by_cases hx : x.DeviceId = deviceId
    · cases hf : e.fault (.RevokeSessionById x.Id) with
      | some err =>
        obtain ⟨h1, h2, h3, extra, h4, h5⟩ := ih
          { (app.RevokeSessionById e st x.Id).1.call (.LogError err) with Err := none }
        simp only [hx, beq_self_eq_true, if_true, app.RevokeSessionById, hf, State.call]
          at h1 h2 h3 h4 ⊢
        refine ⟨h1, h2, h3, [.RevokeSessionById x.Id, .LogError err] ++ extra, ?_, ?_⟩
        · rw [h4]; simp
        · intro c hc
          rcases List.mem_append.mp hc with hc | hc
          · simp only [List.mem_cons, List.mem_singleton, List.not_mem_nil, or_false] at hc
            rcases hc with hc | hc
            · exact Or.inl ⟨_, hc⟩
            · exact Or.inr ⟨_, hc⟩
          · exact h5 c hc
      | none =>
        obtain ⟨h1, h2, h3, extra, h4, h5⟩ := ih (app.RevokeSessionById e st x.Id).1
        simp only [hx, beq_self_eq_true, if_true, app.RevokeSessionById, hf, State.call]
          at h1 h2 h3 h4 ⊢
        refine ⟨fun s hs => (List.mem_filter.mp (h1 s hs)).1, h2, h3,
          [.RevokeSessionById x.Id] ++ extra, ?_, ?_⟩
        · rw [h4]; simp
        · intro c hc
          rcases List.mem_append.mp hc with hc | hc
          · simp only [List.mem_singleton] at hc
            exact Or.inl ⟨_, hc⟩
          · exact h5 c hc
    · simp only [beq_iff_eq, hx, if_false]
      exact ih st

/-- The two ways through `doLogin`: either the device id is non-empty and
`Session().GetSessions` failed, or the last part runs, from a state whose cache holds
nothing new and whose header and cookies are untouched, on a session with the id and the
raw roles of the principal, the device id, and the expiry of the web window when the device
id is empty and of the mobile window otherwise. -/
theorem doLogin_cases (e : Env) (st : State) (r : Request) (user : User) (deviceId : String) :
    (deviceId ≠ "" ∧ ∃ err, e.fault (.SessionGetSessions user.Id) = some err ∧
      doLogin e st r user deviceId =
        { st.call (.SessionGetSessions user.Id) with Err := some { err with StatusCode := 500 } }) ∨
    (∃ pre session maxAge,
      doLogin e st r user deviceId = doLogin.persist e pre r session maxAge ∧
      session.UserId = user.Id ∧ session.Roles = user.GetRawRoles ∧
      session.DeviceId = deviceId ∧ session.IsOAuth = false ∧
      session.ExpiresAt = wrap64 (e.GetMillis + wrap64 (1000 * 60 * 60 * 24 *
        (if deviceId = "" then e.SessionLengthWebInDays else e.SessionLengthMobileInDays))) ∧
      (∀ s ∈ pre.cache, s ∈ st.cache) ∧ (deviceId = "" → pre = st) ∧
      pre.header = st.header ∧ pre.cookies = st.cookies ∧
      ∃ extra, pre.calls = st.calls ++ extra ∧
        ∀ c ∈ extra, (∀ s, c ≠ Call.SessionSave s) ∧ (∀ s, c ≠ Call.AddSessionToCache s)) := by
  by_cases hd : deviceId = ""
  · right
    have hlen : ¬ (len deviceId > 0) := by
      have := (len_eq_zero_iff deviceId).mpr hd
      omega
    refine ⟨st, _, _, by simp only [doLogin, hlen, if_false]; rfl, rfl, rfl, rfl, rfl, ?_,
      fun s hs => hs, fun _ => rfl, rfl, rfl, [], by simp, by simp⟩
    simp [Session.SetExpireInDays, hd]
  · have hlen : len deviceId > 0 := by
      have := (len_eq_zero_iff deviceId).not.mpr hd
      omega
    cases hg : e.fault (.SessionGetSessions user.Id) with
    | some err =>
      left
      exact ⟨hd, err, rfl, by simp [doLogin, hlen, Store.Session.GetSessions, hg]⟩
    | none =>
      right
      obtain ⟨h1, h2, h3, extra, h4, h5⟩ := doLogin_revokeLoop_frame e deviceId
        (st.sessions.filter (fun s => s.UserId == user.Id)) (st.call (.SessionGetSessions user.Id))
      refine ⟨_, _, _, by simp only [doLogin, hlen, if_true, Store.Session.GetSessions, hg]; rfl,
        rfl, rfl, rfl, rfl, ?_, h1, fun h => absurd h hd, h2, h3,
        [.SessionGetSessions user.Id] ++ extra, ?_, ?_⟩
      · simp [Session.SetExpireInDays, hd]
      · rw [h4]; simp [State.call]
      · intro c hc
        rcases List.mem_append.mp hc with hc | hc
        · simp only [List.mem_singleton] at hc
          subst hc
          simp
        · rcases h5 c hc with ⟨id, h⟩ | ⟨err, h⟩ <;> subst h <;> simp

/-- The calls issued since `st` are the suffix that was appended to its trace. -/
theorem callsSince_append (st st2 : State) (extra : List Call)
    (h : st2.calls = st.calls ++ extra) : callsSince st st2 = extra := by
  unfold callsSince
  rw [h]
  simp

/-- The last part of `doLogin` under any fault oracle: `Session().Save` is called once, with
the session and its client properties; when it fails a 500 error is set, the cache, the
header and the cookies stay as they are and nothing else is called; when it succeeds the
session the store returned is inserted into the cache, then the token header and the cookie
are written, and that session becomes `c.Session`. -/
theorem doLogin_persist_cases (e : Env) (st : State) (r : Request) (session : Session)
    (maxAge : Int) :
    (∃ err, e.fault (.SessionSave (doLogin.clientProps e r session)) = some err ∧
      (doLogin.persist e st r session maxAge).Err = some { err with StatusCode := 500 } ∧
      (doLogin.persist e st r session maxAge).cache = st.cache ∧
      (doLogin.persist e st r session maxAge).sessions = st.sessions ∧
      (doLogin.persist e st r session maxAge).header = st.header ∧
      (doLogin.persist e st r session maxAge).cookies = st.cookies ∧
      (doLogin.persist e st r session maxAge).calls =
        st.calls ++ [.SessionSave (doLogin.clientProps e r session)]) ∨
    (∃ saved, e.fault (.SessionSave (doLogin.clientProps e r session)) = none ∧
      (Store.Session.Save e st (doLogin.clientProps e r session)).2 = .ok saved ∧
      saved = { doLogin.clientProps e r session with
        Id := e.NewId st.idCounter, Token := e.NewId (st.idCounter + 1),
        CreateAt := e.GetMillis } ∧
      (doLogin.persist e st r session maxAge).Err = st.Err ∧
      (doLogin.persist e st r session maxAge).Session = saved ∧
      (doLogin.persist e st r session maxAge).sessions = st.sessions ++ [saved] ∧
      (doLogin.persist e st r session maxAge).cache = st.cache ++ [saved] ∧
      (doLogin.persist e st r session maxAge).header =
        setHeader st.header e.model.HEADER_TOKEN saved.Token ∧
      (∃ cookie, cookie.Value = saved.Token ∧ cookie.Name = e.model.SESSION_COOKIE_TOKEN ∧
        (doLogin.persist e st r session maxAge).cookies = st.cookies ++ [cookie]) ∧
      (doLogin.persist e st r session maxAge).calls =
        st.calls ++ [.SessionSave (doLogin.clientProps e r session), .AddSessionToCache saved]) := by
  cases hs : e.fault (.SessionSave (doLogin.clientProps e r session)) with
  | some err =>
    left
    exact ⟨err, rfl, by simp [doLogin.persist, Store.Session.Save, hs, State.call]⟩
  | none =>
    right
    exact ⟨_, rfl, by simp [Store.Session.Save, hs], rfl,
      by simp [doLogin.persist, Store.Session.Save, hs, app.AddSessionToCache, State.call]⟩

/-- C17: the session `doLogin` builds. Every session that `doLogin` passes to
`Session().Save` has the id of the principal as `UserId`, the raw roles of the principal
as role snapshot, the given device id, and an expiry computed from
`SessionLengthWebInDays` when the device id is empty and from `SessionLengthMobileInDays`
otherwise; and when `doLogin` completes without error such a session was saved and the
record the store returned for it, which becomes `c.Session`, has these fields. -/
theorem doLogin_session_fields (e : Env) (st : State) (r : Request) (user : User)
    (deviceId : String) :
    (∀ session, Call.SessionSave session ∈ callsSince st (doLogin e st r user deviceId) →
      session.UserId = user.Id ∧ session.Roles = user.GetRawRoles ∧
      session.DeviceId = deviceId ∧
      session.ExpiresAt = wrap64 (e.GetMillis + wrap64 (1000 * 60 * 60 * 24 *
        (if deviceId = "" then e.SessionLengthWebInDays else e.SessionLengthMobileInDays)))) ∧
    ((doLogin e st r user deviceId).Err = none →
      (∃ session, Call.SessionSave session ∈ callsSince st (doLogin e st r user deviceId)) ∧
      (doLogin e st r user deviceId).Session ∈ (doLogin e st r user deviceId).sessions ∧
      (doLogin e st r user deviceId).Session.UserId = user.Id ∧
      (doLogin e st r user deviceId).Session.Roles = user.GetRawRoles ∧
      (doLogin e st r user deviceId).Session.DeviceId = deviceId ∧
      (doLogin e st r user deviceId).Session.ExpiresAt =
        wrap64 (e.GetMillis + wrap64 (1000 * 60 * 60 * 24 *
          (if deviceId = "" then e.SessionLengthWebInDays
           else e.SessionLengthMobileInDays)))) := by
  rcases doLogin_cases e st r user deviceId with ⟨_, err, _, hrun⟩ |
    ⟨pre, session, maxAge, hrun, hU, hR, hD, _, hE, _, _, _, _, extra, hcalls, hextra⟩
  · rw [hrun]
    refine ⟨?_, by simp⟩
    intro session hmem
    rw [callsSince_append st _ [.SessionGetSessions user.Id] (by simp [State.call])] at hmem
    simp at hmem
  · obtain ⟨c1, c2, -, c4, c5⟩ := doLogin_clientProps_fields e r session
    rw [hrun]
    rcases doLogin_persist_cases e pre r session maxAge with
      ⟨err, _, hErr, _, _, _, _, hc⟩ | ⟨saved, _, _, hsaved, _, hS, hss, _, _, _, hc⟩
    · refine ⟨?_, by simp [hErr]⟩
      intro s hmem
      rw [callsSince_append st _ (extra ++ [.SessionSave (doLogin.clientProps e r session)])
        (by rw [hc, hcalls, List.append_assoc])] at hmem
      rcases List.mem_append.mp hmem with hmem | hmem
      · exact absurd rfl ((hextra _ hmem).1 s)
      · simp only [List.mem_singleton, Call.SessionSave.injEq] at hmem
        subst hmem
        exact ⟨c1.trans hU, c4.trans hR, c2.trans hD, c5.trans hE⟩
    · have hcs := callsSince_append st (doLogin.persist e pre r session maxAge)
        (extra ++ [.SessionSave (doLogin.clientProps e r session), .AddSessionToCache saved])
        (by rw [hc, hcalls, List.append_assoc])
      refine ⟨?_, fun _ => ⟨⟨doLogin.clientProps e r session, by rw [hcs]; simp⟩, ?_, ?_⟩⟩
      · intro s hmem
        rw [hcs] at hmem
        rcases List.mem_append.mp hmem with hmem | hmem
        · exact absurd rfl ((hextra _ hmem).1 s)
        · simp only [List.mem_cons, List.mem_singleton, Call.SessionSave.injEq,
            List.not_mem_nil, or_false, false_or] at hmem
          rcases hmem with hmem | hmem
          · subst hmem
            exact ⟨c1.trans hU, c4.trans hR, c2.trans hD, c5.trans hE⟩
          · exact absurd hmem (by simp)
      · rw [hS, hss]; simp
      · rw [hS, hsaved]
        exact ⟨c1.trans hU, c4.trans hR, c2.trans hD, c5.trans hE⟩

/-- Witness of C17: the web login of alice in the scenario (30 days from the clock value
5000000) and her login from the phone. -/
theorem doLogin_session_fields_witness :
    (doLogin Scenario.env Scenario.state Scenario.loginReq Scenario.alice "").Session.ExpiresAt =
      2597000000 ∧
    (doLogin Scenario.env Scenario.state Scenario.loginReq Scenario.alice "").Session.UserId =
      "alice" ∧
    (doLogin Scenario.env Scenario.state Scenario.loginReq Scenario.alice
      "apple:phone").Session.DeviceId = "apple:phone" :=
  ⟨((doLogin_session_fields Scenario.env Scenario.state Scenario.loginReq Scenario.alice
      "").2 (by decide)).2.2.2.2.2,
   ((doLogin_session_fields Scenario.env Scenario.state Scenario.loginReq Scenario.alice
      "").2 (by decide)).2.2.1,
   ((doLogin_session_fields Scenario.env Scenario.state Scenario.loginReq Scenario.alice
      "apple:phone").2 (by decide)).2.2.2.2.1⟩

/-- C18, as stated, fails: alice logs in from the phone that her cached session `s3` is bound
to. The device loop revokes `s3`, which evicts its cache entry, before `Session().Save` is
called; the save fails, `doLogin` sets the 500 error, and the cache is not as it was. -/
theorem doLogin_save_failure_after_eviction :
    (doLogin Scenario.envSessionSaveFails Scenario.cachedState Scenario.loginReq Scenario.alice
      "apple:phone").Err = some { Scenario.storeErr with StatusCode := 500 } ∧
    Scenario.cachedState.cache = [Scenario.s1, Scenario.s3, Scenario.s4] ∧
    (doLogin Scenario.envSessionSaveFails Scenario.cachedState Scenario.loginReq Scenario.alice
      "apple:phone").cache = [Scenario.s1, Scenario.s4] := by
  decide

/-- C18 (amended): the cache is inserted into only after durable persistence. If the
`Session().Save` that `doLogin` calls fails, `doLogin` sets that error with status 500,
inserts nothing into the session cache (every entry was there before; for an empty device
id the cache is unchanged, for a non-empty one only the device loop before the save may
have evicted entries) and writes neither the token header nor the cookie. If it succeeds,
exactly the session the store returned is appended to the cache as it was before the
save, and that session is in the store. In every run, a call of `app.AddSessionToCache` is
the last call and directly follows a `Session().Save` that did not fail. -/
theorem doLogin_caches_after_save (e : Env) (st : State) (r : Request) (user : User)
    (deviceId : String) :
    (∀ session err, Call.SessionSave session ∈ callsSince st (doLogin e st r user deviceId) →
      e.fault (.SessionSave session) = some err →
      (doLogin e st r user deviceId).Err = some { err with StatusCode := 500 } ∧
      (∀ s ∈ (doLogin e st r user deviceId).cache, s ∈ st.cache) ∧
      (deviceId = "" → (doLogin e st r user deviceId).cache = st.cache) ∧
      (doLogin e st r user deviceId).header = st.header ∧
      (doLogin e st r user deviceId).cookies = st.cookies ∧
      ∀ s, Call.AddSessionToCache s ∉ callsSince st (doLogin e st r user deviceId)) ∧
    (∀ session, Call.SessionSave session ∈ callsSince st (doLogin e st r user deviceId) →
      e.fault (.SessionSave session) = none →
      ∃ pre saved, (Store.Session.Save e pre session).2 = .ok saved ∧
        (∀ s ∈ pre.cache, s ∈ st.cache) ∧ (deviceId = "" → pre.cache = st.cache) ∧
        (doLogin e st r user deviceId).cache = pre.cache ++ [saved] ∧
        saved ∈ (doLogin e st r user deviceId).sessions ∧
        (doLogin e st r user deviceId).Session = saved ∧
        (doLogin e st r user deviceId).header =
          setHeader st.header e.model.HEADER_TOKEN saved.Token) ∧
    (∀ c, Call.AddSessionToCache c ∈ callsSince st (doLogin e st r user deviceId) →
      ∃ session before, e.fault (.SessionSave session) = none ∧
        (∀ s, Call.AddSessionToCache s ∉ before) ∧
        callsSince st (doLogin e st r user deviceId) =
          before ++ [.SessionSave session, .AddSessionToCache c]) := by
  rcases doLogin_cases e st r user deviceId with ⟨_, err, _, hrun⟩ |
    ⟨pre, session, maxAge, hrun, _, _, _, _, _, hcache, hpre, hhead, hcook, extra, hcalls,
      hextra⟩
  · have hcs := callsSince_append st (doLogin e st r user deviceId)
      [.SessionGetSessions user.Id] (by rw [hrun]; simp [State.call])
    rw [hcs]
    simp
  · rcases doLogin_persist_cases e pre r session maxAge with
      ⟨err, hf, hErr, hC, _, hH, hK, hc⟩ | ⟨saved, hf, hst, _, _, hS, hss, hC, hH, _, hc⟩
    · have hcs := callsSince_append st (doLogin e st r user deviceId)
        (extra ++ [.SessionSave (doLogin.clientProps e r session)])
        (by rw [hrun, hc, hcalls, List.append_assoc])
      have hno : ∀ s, Call.AddSessionToCache s ∉
          extra ++ [.SessionSave (doLogin.clientProps e r session)] := by
        intro s hmem
        rcases List.mem_append.mp hmem with hmem | hmem
        · exact absurd rfl ((hextra _ hmem).2 s)
        · simp at hmem
      have hmemSave : ∀ s, Call.SessionSave s ∈
          extra ++ [.SessionSave (doLogin.clientProps e r session)] →
          s = doLogin.clientProps e r session := by
        intro s hmem
        rcases List.mem_append.mp hmem with hmem | hmem
        · exact absurd rfl ((hextra _ hmem).1 s)
        · simpa using hmem
      rw [hcs, hrun]
      refine ⟨?_, ?_, ?_⟩
      · intro s err2 hmem hfault
        rw [hmemSave s hmem, hf] at hfault
        cases hfault
        refine ⟨hErr, by rw [hC]; exact hcache, ?_, hH.trans hhead, hK.trans hcook, hno⟩
        intro hd
        rw [hC, hpre hd]
      · intro s hmem hfault
        rw [hmemSave s hmem, hf] at hfault
        cases hfault
      · intro c hmem
        exact absurd hmem (hno c)
    · have hcs := callsSince_append st (doLogin e st r user deviceId)
        (extra ++ [.SessionSave (doLogin.clientProps e r session), .AddSessionToCache saved])
        (by rw [hrun, hc, hcalls, List.append_assoc])
      have hmemSave : ∀ s, Call.SessionSave s ∈
          extra ++ [.SessionSave (doLogin.clientProps e r session), .AddSessionToCache saved] →
          s = doLogin.clientProps e r session := by
        intro s hmem
        rcases List.mem_append.mp hmem with hmem | hmem
        · exact absurd rfl ((hextra _ hmem).1 s)
        · simpa using hmem
      rw [hcs, hrun]
      refine ⟨?_, ?_, ?_⟩
      · intro s err2 hmem hfault
        rw [hmemSave s hmem, hf] at hfault
        cases hfault
      · intro s hmem _
        rw [hmemSave s hmem]
        refine ⟨pre, saved, hst, hcache, fun hd => by rw [hpre hd], hC, by rw [hss]; simp, hS,
          by rw [hH, hhead]⟩
      · intro c hmem
        have hc2 : c = saved := by
          rcases List.mem_append.mp hmem with hmem | hmem
          · exact absurd rfl ((hextra _ hmem).2 c)
          · simpa using hmem
        subst hc2
        exact ⟨_, extra, hf, fun s hs => absurd rfl ((hextra _ hs).2 s), rfl⟩

/-- Witness of C18: the save fails during the web login of alice and the cache, the header
and the cookies are as before; with no failing call the saved session is the last cache
entry. -/
theorem doLogin_caches_after_save_witness :
    (doLogin Scenario.envSessionSaveFails Scenario.state Scenario.loginReq Scenario.alice
      "").cache = Scenario.state.cache ∧
    (doLogin Scenario.envSessionSaveFails Scenario.state Scenario.loginReq Scenario.alice
      "").cookies = Scenario.state.cookies ∧
    (doLogin Scenario.env Scenario.state Scenario.loginReq Scenario.alice "").cache =
      Scenario.state.cache ++
        [(doLogin Scenario.env Scenario.state Scenario.loginReq Scenario.alice "").Session] :=
  have h := (doLogin_caches_after_save Scenario.envSessionSaveFails Scenario.state
    Scenario.loginReq Scenario.alice "").1
    (doLogin.clientProps Scenario.envSessionSaveFails Scenario.loginReq
      (Session.SetExpireInDays Scenario.envSessionSaveFails
        { Id := "", Token := "", ExpiresAt := 0, UserId := "alice", Roles := "system_user",
          DeviceId := "", IsOAuth := false, Props := [] } 30))
    Scenario.storeErr (by decide) rfl
  ⟨h.2.2.1 rfl, h.2.2.2.2.1, by decide⟩

/-! ## Device binding -/

/-- A device id is valid exactly when it passes the two checks of `attachDeviceId`. -/
theorem validDeviceId_iff (e : Env) (deviceId : String) :
    validDeviceId e deviceId = true ↔
      ¬ len deviceId = 0 ∧
      (strings.HasPrefix deviceId (e.model.PUSH_NOTIFY_APPLE ++ ":") ||
        strings.HasPrefix deviceId (e.model.PUSH_NOTIFY_ANDROID ++ ":")) = true := by
  unfold validDeviceId
  rw [Bool.and_eq_true, len_eq_zero_iff]
  simp

/-- The expiry `SetExpireInDays` sets: the window of `days` days counted from the creation
time of the session, or from the current time for a session without creation time. -/
theorem SetExpireInDays_eq (e : Env) (me : Session) (days : Int) :
    me.SetExpireInDays e days =
      { me with ExpiresAt := wrap64 ((if me.CreateAt = 0 then e.GetMillis else me.CreateAt) +
          wrap64 (1000 * 60 * 60 * 24 * days)) } := by
  unfold Session.SetExpireInDays
  by_cases h : me.CreateAt = 0 <;> simp [h]

/-- The tail of `attachDeviceId` for a device id that passed the checks. -/
theorem attachDeviceId_attach_spec (e : Env) (st : State) (r : Request) (deviceId : String) :
    (∀ err, e.fault (.RevokeSessionsForDeviceId st.Session.UserId deviceId st.Session.Id) =
        some err →
      attachDeviceId.attach e st r deviceId =
        { st.call (.RevokeSessionsForDeviceId st.Session.UserId deviceId st.Session.Id) with
          Err := some { err with StatusCode := 500 } }) ∧
    (e.fault (.RevokeSessionsForDeviceId st.Session.UserId deviceId st.Session.Id) = none →
      (attachDeviceId.attach e st r deviceId).calls = st.calls ++
        [.RevokeSessionsForDeviceId st.Session.UserId deviceId st.Session.Id,
         .RemoveAllSessionsForUserId st.Session.UserId,
         .AttachDeviceId st.Session.Id deviceId
           (wrap64 ((if st.Session.CreateAt = 0 then e.GetMillis else st.Session.CreateAt) +
             wrap64 (1000 * 60 * 60 * 24 * e.SessionLengthMobileInDays)))] ∧
      (attachDeviceId.attach e st r deviceId).Session =
        { st.Session with ExpiresAt := wrap64 ((if st.Session.CreateAt = 0 then e.GetMillis
            else st.Session.CreateAt) + wrap64 (1000 * 60 * 60 * 24 * e.SessionLengthMobileInDays)) } ∧
      (∀ s ∈ (attachDeviceId.attach e st r deviceId).cache,
        s ∈ st.cache ∧ s.UserId ≠ st.Session.UserId) ∧
      (∀ s ∈ (attachDeviceId.attach e st r deviceId).sessions,
        s.UserId = st.Session.UserId → s.DeviceId = deviceId → s.Id = st.Session.Id) ∧
      (e.fault (.AttachDeviceId st.Session.Id deviceId
          (wrap64 ((if st.Session.CreateAt = 0 then e.GetMillis else st.Session.CreateAt) +
             wrap64 (1000 * 60 * 60 * 24 * e.SessionLengthMobileInDays))))
          = none →
        (attachDeviceId.attach e st r deviceId).Err = st.Err ∧
        ∀ s ∈ (attachDeviceId.attach e st r deviceId).sessions, s.Id = st.Session.Id →
          s.DeviceId = deviceId ∧ s.ExpiresAt =
            wrap64 ((if st.Session.CreateAt = 0 then e.GetMillis else st.Session.CreateAt) +
              wrap64 (1000 * 60 * 60 * 24 * e.SessionLengthMobileInDays))) ∧
      (∀ err, e.fault (.AttachDeviceId st.Session.Id deviceId
          (wrap64 ((if st.Session.CreateAt = 0 then e.GetMillis else st.Session.CreateAt) +
             wrap64 (1000 * 60 * 60 * 24 * e.SessionLengthMobileInDays))))
          = some err →
        (attachDeviceId.attach e st r deviceId).Err = some err) ∧
      ∃ cookie, (attachDeviceId.attach e st r deviceId).cookies = st.cookies ++ [cookie] ∧
        cookie.Value = st.Session.Token ∧
        cookie.MaxAge = wrap64 (e.SessionLengthMobileInDays * 60 * 60 * 24)) := by
  refine ⟨?_, ?_⟩
  · intro err hf
    simp [attachDeviceId.attach, app.RevokeSessionsForDeviceId, hf, State.call]
  · intro hf
    have hkeep : ∀ s ∈ st.sessions.filter (fun s =>
        !(s.UserId == st.Session.UserId && s.DeviceId == deviceId && s.Id != st.Session.Id)),
        s.UserId = st.Session.UserId → s.DeviceId = deviceId → s.Id = st.Session.Id := by
      intro s hs hu hd
      have := (List.mem_filter.mp hs).2
      simpa [hu, hd] using this
    cases ha : e.fault (.AttachDeviceId st.Session.Id deviceId
        (wrap64 ((if st.Session.CreateAt = 0 then e.GetMillis else st.Session.CreateAt) +
             wrap64 (1000 * 60 * 60 * 24 * e.SessionLengthMobileInDays))))
    · simp only [attachDeviceId.attach, app.RevokeSessionsForDeviceId, hf, State.call,
        app.RemoveAllSessionsForUserId, SetExpireInDays_eq, app.AttachDeviceId, ha]
      refine ⟨by simp, trivial, ?_, ?_, ?_, by simp, ⟨_, rfl, rfl, rfl⟩⟩
      · intro s hs
        have h1 := List.mem_filter.mp hs
        exact ⟨(List.mem_filter.mp h1.1).1, by simpa using h1.2⟩
      · intro s hs hu hd
        obtain ⟨s0, hs0, rfl⟩ := List.mem_map.mp hs
        by_cases hid : s0.Id = st.Session.Id
        · simp [hid]
        · simp only [beq_iff_eq, hid, if_false] at hu hd ⊢
          exact absurd (hkeep s0 hs0 hu hd) hid
      · intro _
        refine ⟨trivial, ?_⟩
        intro s hs hid
        obtain ⟨s0, hs0, rfl⟩ := List.mem_map.mp hs
        by_cases hid0 : s0.Id = st.Session.Id
        · simp [hid0]
        · simp only [beq_iff_eq, hid0, if_false] at hid
    · simp only [attachDeviceId.attach, app.RevokeSessionsForDeviceId, hf, State.call,
        app.RemoveAllSessionsForUserId, SetExpireInDays_eq, app.AttachDeviceId, ha]
      refine ⟨by simp, trivial, ?_, hkeep, by simp, by simp, ⟨_, rfl, rfl, rfl⟩⟩
      intro s hs
      have h1 := List.mem_filter.mp hs
      exact ⟨(List.mem_filter.mp h1.1).1, by simpa using h1.2⟩

/-- For a valid device id `attachDeviceId` runs its tail. -/
theorem attachDeviceId_valid (e : Env) (st : State) (r : Request)
    (hvalid : validDeviceId e (lookup r.props "device_id") = true) :
    attachDeviceId e st r = attachDeviceId.attach e st r (lookup r.props "device_id") := by
  obtain ⟨h1, h2⟩ := (validDeviceId_iff e _).mp hvalid
  unfold attachDeviceId
  simp only [beq_iff_eq, h1, if_false, h2, Bool.not_true, Bool.false_eq_true]

/-- For any other device id `attachDeviceId` rejects the parameter. -/
theorem attachDeviceId_invalid (e : Env) (st : State) (r : Request)
    (hvalid : validDeviceId e (lookup r.props "device_id") = false) :
    attachDeviceId e st r = SetInvalidParam st "attachDevice" "deviceId" := by
  have h := (validDeviceId_iff e (lookup r.props "device_id")).not.mp (by simp [hvalid])
  unfold attachDeviceId
  by_cases h1 : len (lookup r.props "device_id") = 0
  · simp [h1]
  · have h2 : ¬ (strings.HasPrefix (lookup r.props "device_id") (e.model.PUSH_NOTIFY_APPLE ++ ":") ||
        strings.HasPrefix (lookup r.props "device_id") (e.model.PUSH_NOTIFY_ANDROID ++ ":")) = true :=
      fun h2 => h ⟨h1, h2⟩
    simp only [beq_iff_eq, h1, if_false]
    simp only [Bool.not_eq_true] at h2
    simp [h2]

/-- C15: the steps of `attachDeviceId` for a valid device id. It first calls
`app.RevokeSessionsForDeviceId` for the principal, the device id and the current session,
which is thereby excluded. If that fails it sets the error with status 500 and does
nothing else: the cache, the expiry of the current session, the store and the cookies are
as before. Otherwise it then evicts all cache entries of the principal, sets the expiry of
the current session to the mobile window, counted from the creation time of the session
(from the current time when the session has no creation time), and calls
`app.AttachDeviceId` with the device id and that expiry, in this order; no other session
of the principal bound to the device id is left, and when the binding is persisted the
record of the current session carries the device id and that expiry. -/
theorem attachDeviceId_step_order (e : Env) (st : State) (r : Request)
    (hvalid : validDeviceId e (lookup r.props "device_id") = true) :
    (∀ err, e.fault (.RevokeSessionsForDeviceId st.Session.UserId (lookup r.props "device_id")
        st.Session.Id) = some err →
      (attachDeviceId e st r).Err = some { err with StatusCode := 500 } ∧
      (attachDeviceId e st r).cache = st.cache ∧
      (attachDeviceId e st r).Session = st.Session ∧
      (attachDeviceId e st r).sessions = st.sessions ∧
      (attachDeviceId e st r).cookies = st.cookies ∧
      callsSince st (attachDeviceId e st r) =
        [.RevokeSessionsForDeviceId st.Session.UserId (lookup r.props "device_id")
          st.Session.Id]) ∧
    (e.fault (.RevokeSessionsForDeviceId st.Session.UserId (lookup r.props "device_id")
        st.Session.Id) = none →
      callsSince st (attachDeviceId e st r) =
        [.RevokeSessionsForDeviceId st.Session.UserId (lookup r.props "device_id")
           st.Session.Id,
         .RemoveAllSessionsForUserId st.Session.UserId,
         .AttachDeviceId st.Session.Id (lookup r.props "device_id")
           (wrap64 ((if st.Session.CreateAt = 0 then e.GetMillis else st.Session.CreateAt) +
             wrap64 (1000 * 60 * 60 * 24 * e.SessionLengthMobileInDays)))] ∧
      (∀ s ∈ (attachDeviceId e st r).cache, s.UserId ≠ st.Session.UserId) ∧
      (attachDeviceId e st r).Session.ExpiresAt =
        wrap64 ((if st.Session.CreateAt = 0 then e.GetMillis else st.Session.CreateAt) +
              wrap64 (1000 * 60 * 60 * 24 * e.SessionLengthMobileInDays)) ∧
      (∀ s ∈ (attachDeviceId e st r).sessions, s.UserId = st.Session.UserId →
        s.DeviceId = lookup r.props "device_id" → s.Id = st.Session.Id) ∧
      (e.fault (.AttachDeviceId st.Session.Id (lookup r.props "device_id")
          (wrap64 ((if st.Session.CreateAt = 0 then e.GetMillis else st.Session.CreateAt) +
             wrap64 (1000 * 60 * 60 * 24 * e.SessionLengthMobileInDays))))
          = none →
        ∀ s ∈ (attachDeviceId e st r).sessions, s.Id = st.Session.Id →
          s.DeviceId = lookup r.props "device_id" ∧ s.ExpiresAt =
            wrap64 ((if st.Session.CreateAt = 0 then e.GetMillis else st.Session.CreateAt) +
              wrap64 (1000 * 60 * 60 * 24 * e.SessionLengthMobileInDays)))) := by
  rw [attachDeviceId_valid e st r hvalid]
  obtain ⟨hfail, hok⟩ := attachDeviceId_attach_spec e st r (lookup r.props "device_id")
  refine ⟨?_, ?_⟩
  · intro err hf
    rw [hfail err hf]
    exact ⟨rfl, rfl, rfl, rfl, rfl, callsSince_append st _ _ (by simp [State.call])⟩
  · intro hf
    obtain ⟨h1, h2, h3, h4, h5, -, -⟩ := hok hf
    refine ⟨callsSince_append st _ _ h1, fun s hs => (h3 s hs).2, by rw [h2], h4,
      fun ha => (h5 ha).2⟩

/-- Witness of C15: alice binds her phone from the browser session `s1`, which was created
at 4999000; her older phone session `s3` is revoked first, then her cache entries are
evicted and the binding is persisted with the expiry 4999000 + 30 days. When the
revocation fails the cache is as before. -/
theorem attachDeviceId_step_order_witness :
    Scenario.state.Session.CreateAt = 4999000 ∧
    callsSince Scenario.state (attachDeviceId Scenario.env Scenario.state Scenario.attachReq) =
      [.RevokeSessionsForDeviceId "alice" "apple:phone" "s1",
       .RemoveAllSessionsForUserId "alice",
       .AttachDeviceId "s1" "apple:phone" 2596999000] ∧
    (attachDeviceId Scenario.envDeviceRevokeFails Scenario.state Scenario.attachReq).cache =
      Scenario.state.cache :=
  ⟨rfl,
   ((attachDeviceId_step_order Scenario.env Scenario.state Scenario.attachReq (by decide)).2
      rfl).1,
   ((attachDeviceId_step_order Scenario.envDeviceRevokeFails Scenario.state Scenario.attachReq
      (by decide)).1 Scenario.storeErr rfl).2.1⟩

/-- C16: `attachDeviceId` accepts a device id if and only if it is non-empty and starts with
`PUSH_NOTIFY_APPLE + ":"` or `PUSH_NOTIFY_ANDROID + ":"`. Every other device id is rejected
with the invalid-parameter error and nothing else happens: no call is issued, no session is
revoked, no cache entry evicted and no cookie set. An accepted device id gets past the
checks: the revocation for the device is called. -/
theorem attachDeviceId_accepts_iff (e : Env) (st : State) (r : Request) :
    (attachDeviceId e st r = SetInvalidParam st "attachDevice" "deviceId" ↔
      validDeviceId e (lookup r.props "device_id") = false) ∧
    (validDeviceId e (lookup r.props "device_id") = false →
      (attachDeviceId e st r).Err = some
        { Where := "attachDevice", Id := "api.context.invalid_param.app_error",
          DetailedError := "deviceId", StatusCode := 400 } ∧
      (attachDeviceId e st r).calls = st.calls ∧
      (attachDeviceId e st r).sessions = st.sessions ∧
      (attachDeviceId e st r).cache = st.cache ∧
      (attachDeviceId e st r).accessData = st.accessData ∧
      (attachDeviceId e st r).cookies = st.cookies ∧
      (attachDeviceId e st r).Session = st.Session) ∧
    (validDeviceId e (lookup r.props "device_id") = true →
      ∃ extra, (attachDeviceId e st r).calls = st.calls ++
        Call.RevokeSessionsForDeviceId st.Session.UserId (lookup r.props "device_id")
          st.Session.Id :: extra) := by
  have hacc : validDeviceId e (lookup r.props "device_id") = true →
      ∃ extra, (attachDeviceId e st r).calls = st.calls ++
        Call.RevokeSessionsForDeviceId st.Session.UserId (lookup r.props "device_id")
          st.Session.Id :: extra := by
    intro hvalid
    rw [attachDeviceId_valid e st r hvalid]
    obtain ⟨hfail, hok⟩ := attachDeviceId_attach_spec e st r (lookup r.props "device_id")
    cases hf : e.fault (.RevokeSessionsForDeviceId st.Session.UserId
        (lookup r.props "device_id") st.Session.Id) with
    | some err => exact ⟨[], by rw [hfail err hf]; simp [State.call]⟩
    | none => exact ⟨_, (hok hf).1⟩
  refine ⟨⟨?_, attachDeviceId_invalid e st r⟩, ?_, hacc⟩
  · intro heq
    cases hv : validDeviceId e (lookup r.props "device_id") with
    | false => rfl
    | true =>
      obtain ⟨extra, hcalls⟩ := hacc hv
      rw [heq] at hcalls
      have := congrArg List.length hcalls
      simp [SetInvalidParam] at this
  · intro hvalid
    rw [attachDeviceId_invalid e st r hvalid]
    exact ⟨rfl, rfl, rfl, rfl, rfl, rfl, rfl⟩

/-- Witness of C16: the device ids `apple:phone` and `android:tab` are accepted; the empty
one, `phone` and `windows:phone` are rejected and nothing is called. -/
theorem attachDeviceId_accepts_iff_witness :
    validDeviceId Scenario.env "apple:phone" = true ∧
    validDeviceId Scenario.env "android:tab" = true ∧
    validDeviceId Scenario.env "" = false ∧
    validDeviceId Scenario.env "phone" = false ∧
    (attachDeviceId Scenario.env Scenario.state
      (Scenario.req [("device_id", "windows:phone")])).calls = Scenario.state.calls ∧
    (attachDeviceId Scenario.env Scenario.state
      (Scenario.req [("device_id", "windows:phone")])).cache = Scenario.state.cache :=
  have h := (attachDeviceId_accepts_iff Scenario.env Scenario.state
    (Scenario.req [("device_id", "windows:phone")])).2.1 (by decide)
  ⟨by decide, by decide, by decide, by decide, h.2.1, h.2.2.2.1⟩

/-! ## Propagation of roles to open sessions -/

/-- C19: soft failure of role propagation. Whenever `User().Update` succeeds,
`UpdateUserRoles` returns the updated principal and a nil error, also when
`Session().UpdateRoles` fails: then the error is only logged and the session records keep
their role snapshot, and in either case the cache entries of the principal are evicted.
When `User().Update` fails it returns that error and evicts nothing; so an error is
returned exactly when `User().Update` fails. -/
theorem UpdateUserRoles_soft_failure (e : Env) (st : State) (user : User) (newRoles : String) :
    (∀ ruser, (Store.User.Update e st { user with Roles := newRoles }).2 = .ok ruser →
      (UpdateUserRoles e st user newRoles).2 = .ok ruser ∧
      (UpdateUserRoles e st user newRoles).1.cache =
        st.cache.filter (fun s => s.UserId != user.Id) ∧
      (∀ s ∈ (UpdateUserRoles e st user newRoles).1.cache, s.UserId ≠ user.Id) ∧
      Call.RemoveAllSessionsForUserId user.Id ∈
        callsSince st (UpdateUserRoles e st user newRoles).1 ∧
      (∀ err, e.fault (.SessionUpdateRoles user.Id newRoles) = some err →
        (UpdateUserRoles e st user newRoles).1.sessions = st.sessions ∧
        Call.LogError err ∈ callsSince st (UpdateUserRoles e st user newRoles).1) ∧
      (e.fault (.SessionUpdateRoles user.Id newRoles) = none →
        (UpdateUserRoles e st user newRoles).1.sessions = st.sessions.map (fun s =>
          if s.UserId == user.Id then { s with Roles := newRoles } else s))) ∧
    (∀ err, (Store.User.Update e st { user with Roles := newRoles }).2 = .error err →
      (UpdateUserRoles e st user newRoles).2 = .error err ∧
      (UpdateUserRoles e st user newRoles).1.cache = st.cache ∧
      (UpdateUserRoles e st user newRoles).1.users = st.users ∧
      Call.RemoveAllSessionsForUserId user.Id ∉
        callsSince st (UpdateUserRoles e st user newRoles).1) ∧
    ((∃ err, (UpdateUserRoles e st user newRoles).2 = .error err) ↔
      ∃ err, (Store.User.Update e st { user with Roles := newRoles }).2 = .error err) := by
  cases hs : e.fault (.SessionUpdateRoles user.Id newRoles) <;>
  cases hf : e.fault (.UserUpdate { user with Roles := newRoles }) <;>
  cases hany : st.users.any (fun u => u.Id == user.Id) <;>
  simp [UpdateUserRoles, Store.User.Update, Store.Session.UpdateRoles, hs, hf, hany, State.call,
    app.RemoveAllSessionsForUserId, callsSince]

/-- Witness of C19: the propagation to the sessions fails while the admin gives alice a new
role; the update is reported as successful, her cache entry is evicted and her session
records keep the old snapshot. -/
theorem UpdateUserRoles_soft_failure_witness :
    (UpdateUserRoles Scenario.envUpdateRolesFails Scenario.state Scenario.alice
      "system_admin").2 = .ok { Scenario.alice with Roles := "system_admin" } ∧
    (UpdateUserRoles Scenario.envUpdateRolesFails Scenario.state Scenario.alice
      "system_admin").1.cache = [Scenario.s4] ∧
    (UpdateUserRoles Scenario.envUpdateRolesFails Scenario.state Scenario.alice
      "system_admin").1.sessions = Scenario.state.sessions ∧
    (UpdateUserRoles Scenario.envUserUpdateFails Scenario.state Scenario.alice
      "system_admin").1.cache = Scenario.state.cache :=
  have h := (UpdateUserRoles_soft_failure Scenario.envUpdateRolesFails Scenario.state
    Scenario.alice "system_admin").1 { Scenario.alice with Roles := "system_admin" } rfl
  ⟨h.1, h.2.1.trans (by decide), (h.2.2.2.2.1 Scenario.storeErr rfl).1,
   ((UpdateUserRoles_soft_failure Scenario.envUserUpdateFails Scenario.state
    Scenario.alice "system_admin").2.1 Scenario.storeErr rfl).2.1⟩

/-! ## Absent providers -/

/-- The last part of `doLogin` when `Session().Save` succeeds: the token header and the
cookie it writes. -/
theorem doLogin_persist_cookie (e : Env) (st : State) (r : Request) (session : Session)
    (maxAge : Int)
    (hsave : e.fault (.SessionSave (doLogin.clientProps e r session)) = none) :
    (doLogin.persist e st r session maxAge).header =
      setHeader st.header e.model.HEADER_TOKEN (doLogin.persist e st r session maxAge).Session.Token ∧
    (doLogin.persist e st r session maxAge).cookies = st.cookies ++
      [{ Name := e.model.SESSION_COOKIE_TOKEN,
         Value := (doLogin.persist e st r session maxAge).Session.Token, Path := "/",
         MaxAge := maxAge, Expires := wrap64 (Int.tdiv e.GetMillis 1000 + maxAge),
         HttpOnly := true, Secure := r.Protocol == "https" }] := by
  simp [doLogin.persist, Store.Session.Save, hsave, app.AddSessionToCache, State.call]

/-- The two ways through `doLogin`, with the cookie age: either the device id is non-empty
and `Session().GetSessions` failed, or the last part runs with the age of the web window
when the device id is empty and of the mobile window otherwise. -/
theorem doLogin_maxAge (e : Env) (st : State) (r : Request) (user : User) (deviceId : String) :
    ((doLogin e st r user deviceId).cookies = st.cookies ∧
      (doLogin e st r user deviceId).header = st.header ∧
      (doLogin e st r user deviceId).Err.isSome = true) ∨
    (∃ pre session, pre.cookies = st.cookies ∧ pre.header = st.header ∧
      doLogin e st r user deviceId = doLogin.persist e pre r session
        (wrap64 ((if deviceId = "" then e.SessionLengthWebInDays
          else e.SessionLengthMobileInDays) * 60 * 60 * 24))) := by
  by_cases hd : deviceId = ""
  · right
    have hlen : ¬ (len deviceId > 0) := by
      have := (len_eq_zero_iff deviceId).mpr hd
      omega
    subst hd
    exact ⟨st, _, rfl, rfl, by simp only [doLogin, hlen, if_false, if_true]; rfl⟩
  · have hlen : len deviceId > 0 := by
      have := (len_eq_zero_iff deviceId).not.mpr hd
      omega
    cases hg : e.fault (.SessionGetSessions user.Id) with
    | some err =>
      left
      simp [doLogin, hlen, Store.Session.GetSessions, hg, State.call]
    | none =>
      right
      obtain ⟨-, h2, h3, -⟩ := doLogin_revokeLoop_frame e deviceId
        (st.sessions.filter (fun s => s.UserId == user.Id)) (st.call (.SessionGetSessions user.Id))
      exact ⟨_, _, h3, h2, by
        simp only [doLogin, hlen, if_true, Store.Session.GetSessions, hg, hd, if_false]; rfl⟩

/-- C21: the session cookie. When `doLogin` sets a cookie, and it does whenever it ends
without error, the cookie carries the token that is also written to the bearer header (the
token of the new session), the path `/`, `HttpOnly`, `Secure` exactly when the protocol of
the request is `https`, and as `MaxAge` the number of days of the window used for the
expiry (web for an empty device id, mobile otherwise) times 60 * 60 * 24, which is 86400
times that number when the product is within `int64`. For a valid device id whose
revocation succeeds, `attachDeviceId` sets the same cookie for the token of the current
session, with the mobile window. -/
theorem session_cookie_attributes (e : Env) (st : State) (r : Request) (user : User)
    (deviceId : String) :
    (((doLogin e st r user deviceId).cookies = st.cookies ∧
        (doLogin e st r user deviceId).header = st.header ∧
        (doLogin e st r user deviceId).Err.isSome = true) ∨
      ∃ cookie, (doLogin e st r user deviceId).cookies = st.cookies ++ [cookie] ∧
        (doLogin e st r user deviceId).header =
          setHeader st.header e.model.HEADER_TOKEN cookie.Value ∧
        cookie.Value = (doLogin e st r user deviceId).Session.Token ∧
        cookie.Name = e.model.SESSION_COOKIE_TOKEN ∧
        cookie.Path = "/" ∧ cookie.HttpOnly = true ∧
        (cookie.Secure = true ↔ r.Protocol = "https") ∧
        cookie.MaxAge = wrap64 ((if deviceId = "" then e.SessionLengthWebInDays
          else e.SessionLengthMobileInDays) * 60 * 60 * 24) ∧
        (-9223372036854775808 ≤ 86400 * (if deviceId = "" then e.SessionLengthWebInDays
            else e.SessionLengthMobileInDays) →
          86400 * (if deviceId = "" then e.SessionLengthWebInDays
            else e.SessionLengthMobileInDays) < 9223372036854775808 →
          cookie.MaxAge = 86400 * (if deviceId = "" then e.SessionLengthWebInDays
            else e.SessionLengthMobileInDays))) ∧
    (validDeviceId e (lookup r.props "device_id") = true →
      e.fault (.RevokeSessionsForDeviceId st.Session.UserId (lookup r.props "device_id")
        st.Session.Id) = none →
      ∃ cookie, (attachDeviceId e st r).cookies = st.cookies ++ [cookie] ∧
        cookie.Value = st.Session.Token ∧
        cookie.Name = e.model.SESSION_COOKIE_TOKEN ∧
        cookie.Path = "/" ∧ cookie.HttpOnly = true ∧
        (cookie.Secure = true ↔ r.Protocol = "https") ∧
        cookie.MaxAge = wrap64 (e.SessionLengthMobileInDays * 60 * 60 * 24) ∧
        (-9223372036854775808 ≤ 86400 * e.SessionLengthMobileInDays →
          86400 * e.SessionLengthMobileInDays < 9223372036854775808 →
          cookie.MaxAge = 86400 * e.SessionLengthMobileInDays)) := by
  have hwrap : ∀ days : Int, -9223372036854775808 ≤ 86400 * days →
      86400 * days < 9223372036854775808 → wrap64 (days * 60 * 60 * 24) = 86400 * days := by
    intro days hlo hhi
    have heq : days * 60 * 60 * 24 = 86400 * days := by ring
    rw [heq]
    exact wrap64_of_int64 _ hlo hhi
  refine ⟨?_, ?_⟩
  · rcases doLogin_maxAge e st r user deviceId with h | ⟨pre, session, hc, hh, hrun⟩
    · exact Or.inl h
    · cases hs : e.fault (.SessionSave (doLogin.clientProps e r session)) with
      | some err =>
        left
        rw [hrun]
        simp [doLogin.persist, Store.Session.Save, hs, State.call, hc, hh]
      | none =>
        right
        obtain ⟨h1, h2⟩ := doLogin_persist_cookie e pre r session
          (wrap64 ((if deviceId = "" then e.SessionLengthWebInDays
            else e.SessionLengthMobileInDays) * 60 * 60 * 24)) hs
        rw [hrun]
        refine ⟨_, by rw [h2, hc], by rw [h1, hh], rfl, rfl, rfl, rfl, by simp, rfl, ?_⟩
        exact hwrap _
  · intro hvalid hf
    rw [attachDeviceId_valid e st r hvalid]
    refine ⟨
      { Name := e.model.SESSION_COOKIE_TOKEN, Value := st.Session.Token, Path := "/",
        MaxAge := wrap64 (e.SessionLengthMobileInDays * 60 * 60 * 24),
        Expires := wrap64 (Int.tdiv e.GetMillis 1000 +
          wrap64 (e.SessionLengthMobileInDays * 60 * 60 * 24)),
        HttpOnly := true, Secure := r.Protocol == "https" }, ?_, rfl, rfl, rfl, rfl, by simp, rfl,
      hwrap _⟩
    cases ha : e.fault (.AttachDeviceId st.Session.Id (lookup r.props "device_id")
        (wrap64 ((if st.Session.CreateAt = 0 then e.GetMillis else st.Session.CreateAt) +
          wrap64 (1000 * 60 * 60 * 24 * e.SessionLengthMobileInDays)))) <;>
      (simp only [attachDeviceId.attach, app.RevokeSessionsForDeviceId, hf, State.call,
        app.RemoveAllSessionsForUserId, SetExpireInDays_eq, app.AttachDeviceId, ha]
       try rfl)

/-- Witness of C21: the web login of alice over https with the window of 30 days, and the
binding of her phone. -/
theorem session_cookie_attributes_witness :
    (doLogin Scenario.env Scenario.state Scenario.loginReq Scenario.alice "").cookies =
      [{ Name := "MMAUTHTOKEN", Value := "nn", Path := "/", MaxAge := 2592000, Expires := 2597000,
         HttpOnly := true, Secure := true }] ∧
    (doLogin Scenario.env Scenario.state Scenario.loginReq Scenario.alice "").header =
      [("token", "nn")] ∧
    ∃ cookie, (attachDeviceId Scenario.env Scenario.state Scenario.attachReq).cookies =
        Scenario.state.cookies ++ [cookie] ∧
      cookie.Value = "t1" ∧ cookie.Name = "MMAUTHTOKEN" ∧ cookie.Path = "/" ∧
      cookie.HttpOnly = true ∧ (cookie.Secure = true ↔ "https" = "https") ∧
      cookie.MaxAge = wrap64 (30 * 60 * 60 * 24) ∧
      (-9223372036854775808 ≤ (86400 : Int) * 30 → (86400 : Int) * 30 < 9223372036854775808 →
        cookie.MaxAge = 86400 * 30) :=
  ⟨by decide, by decide,
   (session_cookie_attributes Scenario.env Scenario.state Scenario.attachReq Scenario.alice
      "").2 (by decide) rfl⟩

/-! ## Email domains -/

/-- Fields are the same when the runes that end a field correspond and the other runes are
equal. -/
theorem FieldsFunc_scan_congr (p q : Char → Bool) (g h : Char → Char) (l cur : List Char)
    (hsep : ∀ c ∈ l, p (g c) = q (h c))
    (hkeep : ∀ c ∈ l, q (h c) = false → g c = h c) :
    strings.FieldsFunc.scan p (l.map g) cur = strings.FieldsFunc.scan q (l.map h) cur := by
  induction l generalizing cur with
  | nil => rfl
  | cons c cs ih =>
    have hc := hsep c (List.mem_cons_self _ _)
    have ih2 := fun cur => ih cur (fun x hx => hsep x (List.mem_cons_of_mem _ hx))
      (fun x hx => hkeep x (List.mem_cons_of_mem _ hx))
    simp only [List.map_cons, strings.FieldsFunc.scan, hc]
    cases hq : q (h c) with
    | true => simp [ih2]
    | false =>
      have := hkeep c (List.mem_cons_self _ _) hq
      simp [ih2, this]

/-- Leading runes that end a field do not change the fields. -/
theorem FieldsFunc_scan_dropWhile (p : Char → Bool) (l : List Char) :
    strings.FieldsFunc.scan p (l.dropWhile p) [] = strings.FieldsFunc.scan p l [] := by
  induction l with
  | nil => rfl
  | cons c cs ih =>
    cases hp : p c with
    | true => simp [List.dropWhile, hp, strings.FieldsFunc.scan, ih]
    | false => simp [List.dropWhile, hp]

/-- A run of runes that end a field yields no field of its own. -/
theorem FieldsFunc_scan_seps (p : Char → Bool) (t cur : List Char) (ht : ∀ c ∈ t, p c = true) :
    strings.FieldsFunc.scan p t cur = strings.FieldsFunc.scan p [] cur := by
  induction t generalizing cur with
  | nil => rfl
  | cons c cs ih =>
    have hc := ht c (List.mem_cons_self _ _)
    have ih2 := ih [] (fun x hx => ht x (List.mem_cons_of_mem _ hx))
    simp only [strings.FieldsFunc.scan, hc, if_true, ih2]
    cases cur <;> simp

/-- Trailing runes that end a field do not change the fields. -/
theorem FieldsFunc_scan_append_seps (p : Char → Bool) (l t cur : List Char)
    (ht : ∀ c ∈ t, p c = true) :
    strings.FieldsFunc.scan p (l ++ t) cur = strings.FieldsFunc.scan p l cur := by
  induction l generalizing cur with
  | nil => simpa using FieldsFunc_scan_seps p t cur ht
  | cons c cs ih => simp only [List.cons_append, strings.FieldsFunc.scan, List.append_eq, ih]

/-- The call of `strings.TrimSpace` before `strings.Fields` does not change the fields. -/
theorem Fields_TrimSpace (s : String) :
    strings.Fields (strings.TrimSpace s) = strings.Fields s := by
  unfold strings.Fields strings.FieldsFunc strings.TrimSpace
  show strings.FieldsFunc.scan unicode.IsSpace
    ((s.data.dropWhile unicode.IsSpace).reverse.dropWhile unicode.IsSpace).reverse [] = _
  rw [← FieldsFunc_scan_dropWhile unicode.IsSpace s.data]
  generalize s.data.dropWhile unicode.IsSpace = l
  have hsplit : l = (l.reverse.dropWhile unicode.IsSpace).reverse ++
      (l.reverse.takeWhile unicode.IsSpace).reverse := by
    rw [← List.reverse_append, List.takeWhile_append_dropWhile, List.reverse_reverse]
  conv_rhs => rw [hsplit]
  rw [FieldsFunc_scan_append_seps]
  intro c hc
  exact (List.mem_takeWhile_imp (List.mem_reverse.mp hc))

/-- The fields `CheckUserDomain` loops over are the tokens of `domainTokens`, for a
lower-casing that maps the space to white space, keeps `@` and `,`, and maps no other
rune to one of these two. -/
theorem CheckUserDomain_domainArray (e : Env) (domains : String)
    (hspace : unicode.IsSpace (e.ToLower ' ') = true)
    (hat : e.ToLower '@' = '@') (hcomma : e.ToLower ',' = ',')
    (hother : ∀ c, c ≠ '@' → c ≠ ',' → e.ToLower c ≠ '@' ∧ e.ToLower c ≠ ',') :
    strings.Fields (strings.TrimSpace (strings.ToLower e
      (strings.Replace (strings.Replace domains '@' ' ') ',' ' '))) = domainTokens e domains := by
  rw [Fields_TrimSpace]
  unfold strings.Fields domainTokens strings.FieldsFunc strings.ToLower strings.Replace
  show strings.FieldsFunc.scan unicode.IsSpace
      (((domains.data.map (fun c => if c == '@' then ' ' else c)).map
        (fun c => if c == ',' then ' ' else c)).map e.ToLower) [] =
    strings.FieldsFunc.scan (fun c => unicode.IsSpace c || c == ',' || c == '@')
      (domains.data.map e.ToLower) []
  rw [List.map_map, List.map_map]
  apply FieldsFunc_scan_congr
  · intro c _
    by_cases h1 : c = '@'
    · subst h1
      simp [hspace, hat]
    · by_cases h2 : c = ','
      · subst h2
        simp [hspace, hcomma]
      · obtain ⟨h3, h4⟩ := hother c h1 h2
        have hb3 : (e.ToLower c == '@') = false := by simpa using h3
        have hb4 : (e.ToLower c == ',') = false := by simpa using h4
        simp [h1, h2, hb3, hb4]
  · intro c _ hq
    by_cases h1 : c = '@'
    · subst h1
      simp [hat] at hq
    · by_cases h2 : c = ','
      · subst h2
        simp [hcomma] at hq
      · simp [h1, h2]

/-- C22: `CheckUserDomain(user, domains)` returns true if and only if `domains` is empty, or
the lower-cased email of the user ends with `@` followed by one of the tokens obtained by
lower-casing `domains` and splitting it on white space, `,` and `@`. The lower-casing is
`unicode.ToLower` rune by rune; it maps the space to white space, keeps `@` and `,` and
maps no other rune to one of these two. The match is case-insensitive in both arguments:
lower-casing the email or `domains` beforehand does not change the result. -/
theorem CheckUserDomain_iff (e : Env) (user : User) (domains : String)
    (hspace : unicode.IsSpace (e.ToLower ' ') = true)
    (hat : e.ToLower '@' = '@') (hcomma : e.ToLower ',' = ',')
    (hother : ∀ c, c ≠ '@' → c ≠ ',' → e.ToLower c ≠ '@' ∧ e.ToLower c ≠ ',') :
    (CheckUserDomain e user domains = true ↔
      domains = "" ∨ ∃ d ∈ domainTokens e domains,
        strings.HasSuffix (strings.ToLower e user.Email) ("@" ++ d) = true) ∧
    ((∀ c, e.ToLower (e.ToLower c) = e.ToLower c) →
      CheckUserDomain e { user with Email := strings.ToLower e user.Email }
        (strings.ToLower e domains) = CheckUserDomain e user domains) := by
  have harr := CheckUserDomain_domainArray e domains hspace hat hcomma hother
  have hmain : ∀ (u : User) (d : String), CheckUserDomain e u d = true ↔
      d = "" ∨ ∃ t ∈ domainTokens e d,
        strings.HasSuffix (strings.ToLower e u.Email) ("@" ++ t) = true := by
    intro u d
    have harr := CheckUserDomain_domainArray e d hspace hat hcomma hother
    unfold CheckUserDomain
    by_cases hd : d = ""
    · subst hd
      have h0 : len "" = 0 := (len_eq_zero_iff "").mpr rfl
      simp [h0]
    · have := (len_eq_zero_iff d).not.mpr hd
      simp only [beq_iff_eq, this, if_false, harr, List.any_eq_true, hd, false_or]
  refine ⟨hmain user domains, ?_⟩
  intro hidem
  have hlow : ∀ s : String, strings.ToLower e (strings.ToLower e s) = strings.ToLower e s := by
    intro s
    unfold strings.ToLower
    simp [List.map_map, Function.comp_def, hidem]
  have htok : domainTokens e (strings.ToLower e domains) = domainTokens e domains := by
    unfold domainTokens
    rw [hlow]
  have hempty : strings.ToLower e domains = "" ↔ domains = "" := by
    unfold strings.ToLower
    constructor
    · intro h
      have h2 := congrArg String.data h
      simp only [List.map_eq_nil_iff] at h2
      exact String.ext h2
    · intro h
      subst h
      rfl
  rw [Bool.eq_iff_iff, hmain, hmain, htok, hempty]
  simp only [hlow]

/-- The rune-wise lower-casing of the scenario meets the conditions of C22. -/
theorem Char_toLower_separators :
    unicode.IsSpace (Char.toLower ' ') = true ∧ Char.toLower '@' = '@' ∧
    Char.toLower ',' = ',' ∧
    ∀ c, c ≠ '@' → c ≠ ',' → Char.toLower c ≠ '@' ∧ Char.toLower c ≠ ',' := by
  refine ⟨by decide, by decide, by decide, ?_⟩
  intro c h1 h2
  unfold Char.toLower
  by_cases hup : c.toNat ≥ 65 ∧ c.toNat ≤ 90
  · simp only [hup, and_self, if_true]
    obtain ⟨hlo, hhi⟩ := hup
    generalize c.toNat = n at hlo hhi
    interval_cases n <;> decide
  · simp only [hup, if_false]
    exact ⟨h1, h2⟩

/-- Witness of C22: the allowed domains `Example.com, @corp.example.org` give the tokens
`example.com` and `corp.example.org`; the address of alice matches the first, whatever its
case, and an address at another domain matches none. -/
theorem CheckUserDomain_iff_witness :
    domainTokens Scenario.env "Example.com, @corp.example.org" =
      ["example.com", "corp.example.org"] ∧
    CheckUserDomain Scenario.env { Scenario.alice with Email := "Alice@EXAMPLE.com" }
      "Example.com, @corp.example.org" = true ∧
    CheckUserDomain Scenario.env { Scenario.alice with Email := "alice@example.com.evil.net" }
      "Example.com, @corp.example.org" = false :=
  ⟨by decide,
   (CheckUserDomain_iff Scenario.env { Scenario.alice with Email := "Alice@EXAMPLE.com" }
      "Example.com, @corp.example.org" Char_toLower_separators.1 Char_toLower_separators.2.1
      Char_toLower_separators.2.2.1 Char_toLower_separators.2.2.2).1.mpr
      (Or.inr ⟨"example.com", by decide, by decide⟩),
   by decide⟩

/-! ## Invitation hashes -/

/-- C30: `IsVerifyHashRequired(user, team, hash)` returns true if `hash` is non-empty. For
an empty hash it returns false exactly when the team is of type `TEAM_OPEN`, or the team is
of type `TEAM_INVITE` with non-empty `AllowedDomains`, `user` is non-nil and
`CheckUserDomain(user, team.AllowedDomains)` holds; in every other case it returns true.
The two team types are different constants. -/
theorem IsVerifyHashRequired_iff (e : Env) (user : Option User) (team : Team) (hash : String)
    (hconst : e.model.TEAM_OPEN ≠ e.model.TEAM_INVITE) :
    (hash ≠ "" → IsVerifyHashRequired e user team hash = true) ∧
    (hash = "" →
      (IsVerifyHashRequired e user team hash = false ↔
        team.Type_ = e.model.TEAM_OPEN ∨
        (team.Type_ = e.model.TEAM_INVITE ∧ team.AllowedDomains ≠ "" ∧
          ∃ u, user = some u ∧ CheckUserDomain e u team.AllowedDomains = true))) := by
  refine ⟨?_, ?_⟩
  · intro hh
    have hlen : len hash > 0 := by
      have := (len_eq_zero_iff hash).not.mpr hh
      omega
    have hne : ¬ len hash = 0 := by omega
    cases user with
    | none => simp [IsVerifyHashRequired, hlen]
    | some u => simp [IsVerifyHashRequired, hlen, hne]
  · intro hh
    subst hh
    have h0 : len "" = 0 := (len_eq_zero_iff "").mpr rfl
    cases user with
    | none =>
      by_cases hopen : team.Type_ = e.model.TEAM_OPEN <;>
        simp [IsVerifyHashRequired, h0, hopen]
    | some u =>
      by_cases hinv : team.Type_ = e.model.TEAM_INVITE
      · have hopen : ¬ team.Type_ = e.model.TEAM_OPEN := fun h => hconst (h.symm.trans hinv)
        have hopen2 : ¬ e.model.TEAM_INVITE = e.model.TEAM_OPEN := fun h => hconst h.symm
        by_cases hdom : team.AllowedDomains = ""
        · have hl : len team.AllowedDomains = 0 := (len_eq_zero_iff _).mpr hdom
          simp [IsVerifyHashRequired, h0, hinv, hopen2, hdom, hl]
        · have hl : 0 < len team.AllowedDomains := by
            have := (len_eq_zero_iff _).not.mpr hdom
            omega
          cases hm : CheckUserDomain e u team.AllowedDomains <;>
            simp [IsVerifyHashRequired, h0, hinv, hopen2, hdom, hl, hm]
      · by_cases hopen : team.Type_ = e.model.TEAM_OPEN
        · simp [IsVerifyHashRequired, h0, hopen, hconst]
        · simp [IsVerifyHashRequired, h0, hinv, hopen]

/-- Witness of C30: with the team types `O` and `I`, no hash is required for the open team
nor for alice in the invite-only team that allows her domain; it is required for a nil
user in that team, and whenever a hash is given. -/
theorem IsVerifyHashRequired_iff_witness :
    IsVerifyHashRequired Scenario.env none Scenario.openTeam "" = false ∧
    IsVerifyHashRequired Scenario.env (some Scenario.alice) Scenario.inviteTeam "" = false ∧
    IsVerifyHashRequired Scenario.env none Scenario.inviteTeam "" = true ∧
    IsVerifyHashRequired Scenario.env (some Scenario.alice) Scenario.openTeam "abc" = true :=
  ⟨((IsVerifyHashRequired_iff Scenario.env none Scenario.openTeam "" (by decide)).2 rfl).mpr
      (Or.inl rfl),
   ((IsVerifyHashRequired_iff Scenario.env (some Scenario.alice) Scenario.inviteTeam ""
      (by decide)).2 rfl).mpr (Or.inr ⟨rfl, by decide, Scenario.alice, rfl, by decide⟩),
   by decide,
   (IsVerifyHashRequired_iff Scenario.env (some Scenario.alice) Scenario.openTeam "abc"
      (by decide)).1 (by decide)⟩

/-! ## The two copies of the sweep -/

/-- The loops of `RevokeAllSession` and `RevokeAllSessionsNoContext`, started in states with
the same tables and with traces that agree up to audit entries, end in such states; one
leaves through `return` with the error in `c.Err` exactly when the other returns that
error. -/
theorem RevokeAllSession_loop_NoContext (e : Env) (userId : String) (l : List Session)
    (sa sb : State) (base xa xb : List Call)
    (hca : sa.calls = base ++ xa) (hcb : sb.calls = base ++ xb)
    (hfil : xa.filter (fun c => !c.isAudit) = xb)
    (hs : sa.sessions = sb.sessions) (hacc : sa.accessData = sb.accessData)
    (hcache : sa.cache = sb.cache) (hu : sa.users = sb.users) :
    (RevokeAllSession.loop e userId l sa).1.sessions =
      (RevokeAllSessionsNoContext.loop e l sb).1.sessions ∧
    (RevokeAllSession.loop e userId l sa).1.accessData =
      (RevokeAllSessionsNoContext.loop e l sb).1.accessData ∧
    (RevokeAllSession.loop e userId l sa).1.cache =
      (RevokeAllSessionsNoContext.loop e l sb).1.cache ∧
    (RevokeAllSession.loop e userId l sa).1.users =
      (RevokeAllSessionsNoContext.loop e l sb).1.users ∧
    (∃ ya yb, (RevokeAllSession.loop e userId l sa).1.calls = base ++ ya ∧
      (RevokeAllSessionsNoContext.loop e l sb).1.calls = base ++ yb ∧
      ya.filter (fun c => !c.isAudit) = yb) ∧
    (((RevokeAllSession.loop e userId l sa).2 = false ∧
        (RevokeAllSessionsNoContext.loop e l sb).2 = none ∧
        (RevokeAllSession.loop e userId l sa).1.Err = sa.Err) ∨
      ∃ err, (RevokeAllSession.loop e userId l sa).2 = true ∧
        (RevokeAllSessionsNoContext.loop e l sb).2 = some err ∧
        (RevokeAllSession.loop e userId l sa).1.Err = some err) := by
  induction l generalizing sa sb xa xb with
  | nil =>
    exact ⟨hs, hacc, hcache, hu, ⟨xa, xb, hca, hcb, hfil⟩, Or.inl ⟨rfl, rfl, rfl⟩⟩
  | cons x rest ih =>
    unfold RevokeAllSession.loop RevokeAllSessionsNoContext.loop
    cases hx : x.IsOAuth
    · cases hf : e.fault (.SessionRemove x.Id) with
      | some err =>
        simp only [Store.Session.Remove, hf, LogAuditWithUserId, State.call, Bool.false_eq_true,
          if_false]
        refine ⟨hs, hacc, hcache, hu,
          ⟨xa ++ [.LogAudit userId ("session_id=" ++ x.Id), .SessionRemove x.Id],
           xb ++ [.SessionRemove x.Id], by simp [hca], by simp [hcb], ?_⟩, by simp⟩
        rw [List.filter_append, hfil]
        rfl
      | none =>
        have h := ih
          (app.RevokeWebrtcToken
            (Store.Session.Remove e (LogAuditWithUserId sa userId ("session_id=" ++ x.Id)) x.Id).1
            x.Id)
          (app.RevokeWebrtcToken (Store.Session.Remove e sb x.Id).1 x.Id)
          (xa ++ [.LogAudit userId ("session_id=" ++ x.Id), .SessionRemove x.Id,
            .RevokeWebrtcToken x.Id])
          (xb ++ [.SessionRemove x.Id, .RevokeWebrtcToken x.Id])
          (by simp [Store.Session.Remove, hf, LogAuditWithUserId, State.call,
            app.RevokeWebrtcToken, hca])
          (by simp [Store.Session.Remove, hf, State.call, app.RevokeWebrtcToken, hcb])
          (by rw [List.filter_append, hfil]; rfl)
          (by simp [Store.Session.Remove, hf, LogAuditWithUserId, State.call,
            app.RevokeWebrtcToken, hs])
          (by simp [Store.Session.Remove, hf, LogAuditWithUserId, State.call,
            app.RevokeWebrtcToken, hacc])
          (by simp [Store.Session.Remove, hf, LogAuditWithUserId, State.call,
            app.RevokeWebrtcToken, hcache])
          (by simp [Store.Session.Remove, hf, LogAuditWithUserId, State.call,
            app.RevokeWebrtcToken, hu])
        simp only [Store.Session.Remove, hf, LogAuditWithUserId, State.call,
          app.RevokeWebrtcToken, Bool.false_eq_true, if_false] at h ⊢
        exact h
    · have h := ih
        (app.RevokeWebrtcToken
          (app.RevokeAccessToken e (LogAuditWithUserId sa userId ("session_id=" ++ x.Id))
            x.Token).1 x.Id)
        (app.RevokeWebrtcToken (app.RevokeAccessToken e sb x.Token).1 x.Id)
        (xa ++ [.LogAudit userId ("session_id=" ++ x.Id), .RevokeAccessToken x.Token,
          .RevokeWebrtcToken x.Id])
        (xb ++ [.RevokeAccessToken x.Token, .RevokeWebrtcToken x.Id])
        (by cases hf : e.fault (.RevokeAccessToken x.Token) <;>
          simp [app.RevokeAccessToken, hf, LogAuditWithUserId, State.call,
            app.RevokeWebrtcToken, hca])
        (by cases hf : e.fault (.RevokeAccessToken x.Token) <;>
          simp [app.RevokeAccessToken, hf, State.call, app.RevokeWebrtcToken, hcb])
        (by rw [List.filter_append, hfil]; rfl)
        (by cases hf : e.fault (.RevokeAccessToken x.Token) <;>
          simp [app.RevokeAccessToken, hf, LogAuditWithUserId, State.call,
            app.RevokeWebrtcToken, hs])
        (by cases hf : e.fault (.RevokeAccessToken x.Token) <;>
          simp [app.RevokeAccessToken, hf, LogAuditWithUserId, State.call,
            app.RevokeWebrtcToken, hacc])
        (by cases hf : e.fault (.RevokeAccessToken x.Token) <;>
          simp [app.RevokeAccessToken, hf, LogAuditWithUserId, State.call,
            app.RevokeWebrtcToken, hcache])
        (by cases hf : e.fault (.RevokeAccessToken x.Token) <;>
          simp [app.RevokeAccessToken, hf, LogAuditWithUserId, State.call,
            app.RevokeWebrtcToken, hu])
      have hE : (app.RevokeWebrtcToken
          (app.RevokeAccessToken e (LogAuditWithUserId sa userId ("session_id=" ++ x.Id))
            x.Token).1 x.Id).Err = sa.Err := by
        cases hf : e.fault (.RevokeAccessToken x.Token) <;>
          simp [app.RevokeAccessToken, hf, LogAuditWithUserId, State.call, app.RevokeWebrtcToken]
      rw [hE] at h
      simpa using h

/-- The two sweeps, run in the same state, leave the same tables and cache; since that
state their traces agree up to audit entries, and `RevokeAllSessionsNoContext` writes no
audit entry; the error one of them returns is the error the other puts into `c.Err`. -/
theorem RevokeAllSession_NoContext_rel (e : Env) (st : State) (userId : String) :
    (RevokeAllSession e st userId).sessions =
      (RevokeAllSessionsNoContext e st userId).1.sessions ∧
    (RevokeAllSession e st userId).accessData =
      (RevokeAllSessionsNoContext e st userId).1.accessData ∧
    (RevokeAllSession e st userId).cache = (RevokeAllSessionsNoContext e st userId).1.cache ∧
    (RevokeAllSession e st userId).users = (RevokeAllSessionsNoContext e st userId).1.users ∧
    (callsSince st (RevokeAllSession e st userId)).filter (fun c => !c.isAudit) =
      callsSince st (RevokeAllSessionsNoContext e st userId).1 ∧
    ((RevokeAllSessionsNoContext e st userId).2 = none →
      (RevokeAllSession e st userId).Err = st.Err) ∧
    (∀ err, (RevokeAllSessionsNoContext e st userId).2 = some err →
      (RevokeAllSession e st userId).Err = some err) := by
  unfold RevokeAllSession RevokeAllSessionsNoContext Store.Session.GetSessions
  cases hf : e.fault (.SessionGetSessions userId) with
  | some err =>
    simp [State.call, callsSince, Call.isAudit]
  | none =>
    have h := RevokeAllSession_loop_NoContext e userId
      (st.sessions.filter (fun s => s.UserId == userId))
      (st.call (.SessionGetSessions userId)) (st.call (.SessionGetSessions userId))
      st.calls [.SessionGetSessions userId] [.SessionGetSessions userId] rfl rfl
      (by simp [Call.isAudit]) rfl rfl rfl rfl
    dsimp only
    generalize RevokeAllSession.loop e userId
      (st.sessions.filter (fun s => s.UserId == userId)) (st.call (.SessionGetSessions userId))
      = ra at h
    generalize RevokeAllSessionsNoContext.loop e
      (st.sessions.filter (fun s => s.UserId == userId)) (st.call (.SessionGetSessions userId))
      = rb at h
    obtain ⟨sa, ba⟩ := ra
    obtain ⟨sb, ob⟩ := rb
    obtain ⟨h1, h2, h3, h4, ⟨ya, yb, h5, h6, h7⟩, h8⟩ := h
    simp only at h1 h2 h3 h4 h5 h6 h8
    rcases h8 with ⟨hb, ho, hE⟩ | ⟨err, hb, ho, hE⟩
    · subst hb ho
      simp only [State.call] at hE
      dsimp only
      refine ⟨h1, h2, ?_, h4, ?_, ?_, ?_⟩
      · simp [app.RemoveAllSessionsForUserId, State.call, h3]
      · rw [callsSince_append st _ (ya ++ [.RemoveAllSessionsForUserId userId])
            (by simp [app.RemoveAllSessionsForUserId, State.call, h5]),
          callsSince_append st _ (yb ++ [.RemoveAllSessionsForUserId userId])
            (by simp [app.RemoveAllSessionsForUserId, State.call, h6])]
        rw [List.filter_append, h7]
        rfl
      · intro _
        simpa [app.RemoveAllSessionsForUserId, State.call] using hE
      · intro err h
        cases h
    · subst hb ho
      dsimp only
      refine ⟨h1, h2, h3, h4, ?_, ?_, ?_⟩
      · rw [callsSince_append st _ ya h5, callsSince_append st _ yb h6]
        exact h7
      · intro h
        cases h
      · intro err2 h
        cases h
        exact hE

/-- C23: `RevokeAllSession(c, userId)` and `RevokeAllSessionsNoContext(userId)` are
equivalent up to audit logging. For every store state and every outcome of the store
calls, they leave the same users, session records, grants and cache; the calls
`RevokeAllSession` issues, with the audit entries left out, are the calls
`RevokeAllSessionsNoContext` issues, in the same order, and the latter writes no audit
entry; and the error one returns is the error the other puts into `c.Err`: in a request
context without error, `c.Err` after `RevokeAllSession` is exactly what
`RevokeAllSessionsNoContext` returns. -/
theorem RevokeAllSession_equiv_NoContext (e : Env) (st : State) (userId : String) :
    (RevokeAllSession e st userId).users = (RevokeAllSessionsNoContext e st userId).1.users ∧
    (RevokeAllSession e st userId).sessions =
      (RevokeAllSessionsNoContext e st userId).1.sessions ∧
    (RevokeAllSession e st userId).accessData =
      (RevokeAllSessionsNoContext e st userId).1.accessData ∧
    (RevokeAllSession e st userId).cache = (RevokeAllSessionsNoContext e st userId).1.cache ∧
    (callsSince st (RevokeAllSession e st userId)).filter (fun c => !c.isAudit) =
      callsSince st (RevokeAllSessionsNoContext e st userId).1 ∧
    (∀ c ∈ callsSince st (RevokeAllSessionsNoContext e st userId).1, c.isAudit = false) ∧
    (∀ err, (RevokeAllSessionsNoContext e st userId).2 = some err →
      (RevokeAllSession e st userId).Err = some err) ∧
    ((RevokeAllSessionsNoContext e st userId).2 = none →
      (RevokeAllSession e st userId).Err = st.Err) ∧
    (st.Err = none →
      (RevokeAllSession e st userId).Err = (RevokeAllSessionsNoContext e st userId).2) := by
  obtain ⟨h1, h2, h3, h4, h5, h6, h7⟩ := RevokeAllSession_NoContext_rel e st userId
  refine ⟨h4, h1, h2, h3, h5, ?_, h7, h6, ?_⟩
  · intro c hc
    rw [← h5] at hc
    simpa using (List.mem_filter.mp hc).2
  · intro hE
    cases ho : (RevokeAllSessionsNoContext e st userId).2 with
    | none => rw [h6 ho, hE]
    | some err => exact h7 err ho

/-- Witness of C23: the two sweeps over the sessions of alice, with no failing call and with
`Session().Remove` failing. -/
theorem RevokeAllSession_equiv_NoContext_witness :
    (RevokeAllSession Scenario.env Scenario.state "alice").Err =
      (RevokeAllSessionsNoContext Scenario.env Scenario.state "alice").2 ∧
    (RevokeAllSession Scenario.envSessionRemoveFails Scenario.state "alice").Err =
      (RevokeAllSessionsNoContext Scenario.envSessionRemoveFails Scenario.state "alice").2 ∧
    (RevokeAllSessionsNoContext Scenario.envSessionRemoveFails Scenario.state "alice").2 =
      some Scenario.storeErr ∧
    callsSince Scenario.state (RevokeAllSessionsNoContext Scenario.env Scenario.state "alice").1 =
      [.SessionGetSessions "alice", .SessionRemove "s1", .RevokeWebrtcToken "s1",
       .RevokeAccessToken "t2", .RevokeWebrtcToken "s2", .SessionRemove "s3",
       .RevokeWebrtcToken "s3", .RemoveAllSessionsForUserId "alice"] :=
  ⟨(RevokeAllSession_equiv_NoContext Scenario.env Scenario.state "alice").2.2.2.2.2.2.2.2 rfl,
   (RevokeAllSession_equiv_NoContext Scenario.envSessionRemoveFails Scenario.state
      "alice").2.2.2.2.2.2.2.2 rfl,
   by decide, by decide⟩

/-! ## A removal that fails during the sweep -/

/-- The loop of `RevokeAllSession` over an enumeration in which `Session().Remove` fails
first for the session `x`: it leaves through `return` with that error; the records whose
id was passed to `Session().Remove` before are gone, a record goes only if its id was
passed to `Session().Remove` or its token to `app.RevokeAccessToken` before; cache entries
are only evicted by the revocation of an `IsOAuth` session before `x`; the cache eviction
is not among the calls and no removal or revocation is called for a later session. -/
theorem RevokeAllSession_loop_stops (e : Env) (userId : String) (x : Session)
    (post : List Session) (err : AppError) (hx : x.IsOAuth = false)
    (hfail : e.fault (.SessionRemove x.Id) = some err) (pre : List Session)
    (hpre : ∀ s ∈ pre, s.IsOAuth = false → e.fault (.SessionRemove s.Id) = none) (st : State) :
    (RevokeAllSession.loop e userId (pre ++ x :: post) st).2 = true ∧
    (RevokeAllSession.loop e userId (pre ++ x :: post) st).1.Err = some err ∧
    (∀ s ∈ (RevokeAllSession.loop e userId (pre ++ x :: post) st).1.sessions,
      s ∈ st.sessions ∧ removedBy pre s = false) ∧
    (∀ s ∈ st.sessions, removedBy pre s = false → grantRevokedBy pre s.Token = false →
      s ∈ (RevokeAllSession.loop e userId (pre ++ x :: post) st).1.sessions) ∧
    (∀ s ∈ (RevokeAllSession.loop e userId (pre ++ x :: post) st).1.cache, s ∈ st.cache) ∧
    ((∀ s ∈ pre, s.IsOAuth = false) →
      (RevokeAllSession.loop e userId (pre ++ x :: post) st).1.cache = st.cache) ∧
    ∃ extra, (RevokeAllSession.loop e userId (pre ++ x :: post) st).1.calls = st.calls ++ extra ∧
      (∀ u, Call.RemoveAllSessionsForUserId u ∉ extra) ∧
      (∀ s ∈ post, removedBy (pre ++ [x]) s = false → Call.SessionRemove s.Id ∉ extra) ∧
      (∀ s ∈ post, grantRevokedBy pre s.Token = false →
        Call.RevokeAccessToken s.Token ∉ extra) := by
  induction pre generalizing st with
  | nil =>
    simp only [List.nil_append]
    unfold RevokeAllSession.loop
    simp only [hx, Bool.false_eq_true, if_false, Store.Session.Remove, hfail,
      LogAuditWithUserId, State.call]
    refine ⟨trivial, trivial, fun s hs => ⟨hs, by simp [removedBy]⟩, fun s hs _ _ => hs,
      fun s hs => hs, fun _ => trivial,
      [.LogAudit userId ("session_id=" ++ x.Id), .SessionRemove x.Id], by simp, by simp, ?_,
      by simp⟩
    intro s _ hr
    simp only [removedBy, List.nil_append, List.any_cons, hx, Bool.not_false, Bool.true_and,
      List.any_nil, Bool.or_false, beq_eq_false_iff_ne, ne_eq] at hr
    simpa using hr
  | cons y rest ih =>
    have hrest : ∀ s ∈ rest, s.IsOAuth = false → e.fault (.SessionRemove s.Id) = none :=
      fun s hs => hpre s (List.mem_cons_of_mem _ hs)
    simp only [List.cons_append]
    unfold RevokeAllSession.loop
    cases hy : y.IsOAuth
    · have hf := hpre y (List.mem_cons_self _ _) hy
      obtain ⟨h1, h2, h3, h3b, h4, h4b, extra, h5, h6, h7, h8⟩ := ih hrest
        (app.RevokeWebrtcToken
          (Store.Session.Remove e (LogAuditWithUserId st userId ("session_id=" ++ y.Id)) y.Id).1
          y.Id)
      simp only [Store.Session.Remove, hf, LogAuditWithUserId, State.call,
        app.RevokeWebrtcToken, Bool.false_eq_true, if_false] at h1 h2 h3 h3b h4 h4b h5 ⊢
      have hsplit : ∀ s, removedBy (y :: rest) s = false →
          removedBy rest s = false ∧ s.Id ≠ y.Id := by
        intro s hr
        simp only [removedBy, List.any_cons, hy, Bool.not_false, Bool.true_and,
          Bool.or_eq_false_iff, beq_eq_false_iff_ne, ne_eq] at hr ⊢
        exact ⟨hr.2, hr.1⟩
      refine ⟨h1, h2, ?_, ?_, h4, ?_, [.LogAudit userId ("session_id=" ++ y.Id),
        .SessionRemove y.Id, .RevokeWebrtcToken y.Id] ++ extra, by rw [h5]; simp, ?_, ?_, ?_⟩
      · intro s hs
        obtain ⟨hm, hr⟩ := h3 s hs
        have hm2 := List.mem_filter.mp hm
        refine ⟨hm2.1, ?_⟩
        unfold removedBy at hr ⊢
        rw [List.any_cons, hr, Bool.or_false]
        simpa [hy, bne] using hm2.2
      · intro s hs hr hg
        obtain ⟨hr1, hr2⟩ := hsplit s hr
        have hg2 : grantRevokedBy rest s.Token = false := by
          simpa [grantRevokedBy, hy] using hg
        exact h3b s (List.mem_filter.mpr ⟨hs, by simpa [bne] using hr2⟩) hr1 hg2
      · intro hall
        exact h4b (fun s hs => hall s (List.mem_cons_of_mem _ hs))
      · intro u hmem
        rcases List.mem_append.mp hmem with hm | hm
        · simp at hm
        · exact h6 u hm
      · intro s hs hr hmem
        have hr2 : removedBy (rest ++ [x]) s = false ∧ s.Id ≠ y.Id := by
          simp only [removedBy, List.cons_append, List.any_cons, hy, Bool.not_false,
            Bool.true_and, Bool.or_eq_false_iff, beq_eq_false_iff_ne, ne_eq] at hr
          exact ⟨hr.2, hr.1⟩
        rcases List.mem_append.mp hmem with hm | hm
        · simp at hm
          exact hr2.2 hm
        · exact h7 s hs hr2.1 hm
      · intro s hs hg hmem
        have hg2 : grantRevokedBy rest s.Token = false := by
          simpa [grantRevokedBy, hy] using hg
        rcases List.mem_append.mp hmem with hm | hm
        · simp at hm
        · exact h8 s hs hg2 hm
    · obtain ⟨h1, h2, h3, h3b, h4, -, extra, h5, h6, h7, h8⟩ := ih hrest
        (app.RevokeWebrtcToken
          (app.RevokeAccessToken e (LogAuditWithUserId st userId ("session_id=" ++ y.Id))
            y.Token).1 y.Id)
      have hsplit : ∀ t, grantRevokedBy (y :: rest) t = false →
          grantRevokedBy rest t = false ∧ t ≠ y.Token := by
        intro t hg
        simp only [grantRevokedBy, List.any_cons, hy, Bool.true_and,
          Bool.or_eq_false_iff, beq_eq_false_iff_ne, ne_eq] at hg ⊢
        exact ⟨hg.2, hg.1⟩
      have hrem : ∀ s, removedBy (y :: rest) s = removedBy rest s := by
        intro s
        simp [removedBy, hy]
      have hcalls : (app.RevokeWebrtcToken
          (app.RevokeAccessToken e (LogAuditWithUserId st userId ("session_id=" ++ y.Id))
            y.Token).1 y.Id).calls = st.calls ++ [.LogAudit userId ("session_id=" ++ y.Id),
              .RevokeAccessToken y.Token, .RevokeWebrtcToken y.Id] := by
        cases hf : e.fault (.RevokeAccessToken y.Token) <;>
          simp [app.RevokeAccessToken, hf, LogAuditWithUserId, State.call, app.RevokeWebrtcToken]
      have hsub : ∀ s ∈ (app.RevokeWebrtcToken
          (app.RevokeAccessToken e (LogAuditWithUserId st userId ("session_id=" ++ y.Id))
            y.Token).1 y.Id).sessions, s ∈ st.sessions := by
        intro s hs
        cases hf : e.fault (.RevokeAccessToken y.Token) <;>
          simp only [app.RevokeAccessToken, hf, LogAuditWithUserId, State.call,
            app.RevokeWebrtcToken] at hs
        · exact (List.mem_filter.mp hs).1
        · exact hs
      have hkeep : ∀ s ∈ st.sessions, s.Token ≠ y.Token → s ∈ (app.RevokeWebrtcToken
          (app.RevokeAccessToken e (LogAuditWithUserId st userId ("session_id=" ++ y.Id))
            y.Token).1 y.Id).sessions := by
        intro s hs hne
        cases hf : e.fault (.RevokeAccessToken y.Token) <;>
          simp only [app.RevokeAccessToken, hf, LogAuditWithUserId, State.call,
            app.RevokeWebrtcToken]
        · exact List.mem_filter.mpr ⟨hs, by simpa [bne] using hne⟩
        · exact hs
      have hcsub : ∀ s ∈ (app.RevokeWebrtcToken
          (app.RevokeAccessToken e (LogAuditWithUserId st userId ("session_id=" ++ y.Id))
            y.Token).1 y.Id).cache, s ∈ st.cache := by
        intro s hs
        cases hf : e.fault (.RevokeAccessToken y.Token) <;>
          simp only [app.RevokeAccessToken, hf, LogAuditWithUserId, State.call,
            app.RevokeWebrtcToken] at hs
        · exact (List.mem_filter.mp hs).1
        · exact hs
      simp only [if_true]
      rw [hcalls] at h5
      refine ⟨h1, h2, ?_, ?_, ?_, ?_, [.LogAudit userId ("session_id=" ++ y.Id),
        .RevokeAccessToken y.Token, .RevokeWebrtcToken y.Id] ++ extra, by rw [h5]; simp, ?_, ?_,
        ?_⟩
      · intro s hs
        obtain ⟨hm, hr⟩ := h3 s hs
        exact ⟨hsub s hm, by rw [hrem]; exact hr⟩
      · intro s hs hr hg
        obtain ⟨hg1, hg2⟩ := hsplit _ hg
        exact h3b s (hkeep s hs hg2) (by rw [← hrem]; exact hr) hg1
      · intro s hs
        exact hcsub s (h4 s hs)
      · intro hall
        have := hall y (List.mem_cons_self _ _)
        rw [hy] at this
        exact absurd this (by decide)
      · intro u hmem
        rcases List.mem_append.mp hmem with hm | hm
        · simp at hm
        · exact h6 u hm
      · intro s hs hr hmem
        have hr2 : removedBy (rest ++ [x]) s = false := by
          simpa [removedBy, hy] using hr
        rcases List.mem_append.mp hmem with hm | hm
        · simp at hm
        · exact h7 s hs hr2 hm
      · intro s hs hg hmem
        obtain ⟨hg1, hg2⟩ := hsplit _ hg
        rcases List.mem_append.mp hmem with hm | hm
        · simp at hm
          exact hg2 hm
        · exact h8 s hs hg1 hm

/-- C25, as stated, fails: the sweep over the sessions `s1`, `s2`, `s3` of alice stops at the
failing removal of `s3`, and yet a cache entry of alice has been cleared: `s2` has `IsOAuth`
set and comes before `s3`, so it was revoked through `app.RevokeAccessToken`, which evicts
the cache entry of the session it revokes. -/
theorem sweep_evicts_before_failed_removal :
    sessionsOf Scenario.oauthCachedState "alice" = [Scenario.s1, Scenario.s2, Scenario.s3] ∧
    Scenario.envRemoveS3Fails.fault (.SessionRemove Scenario.s3.Id) = some Scenario.storeErr ∧
    Scenario.s2 ∈ Scenario.oauthCachedState.cache ∧
    Scenario.s2.UserId = "alice" ∧
    (RevokeAllSession Scenario.envRemoveS3Fails Scenario.oauthCachedState "alice").Err =
      some Scenario.storeErr ∧
    Scenario.s2 ∉
      (RevokeAllSession Scenario.envRemoveS3Fails Scenario.oauthCachedState "alice").cache ∧
    (RevokeAllSessionsNoContext Scenario.envRemoveS3Fails Scenario.oauthCachedState
      "alice").2 = some Scenario.storeErr ∧
    Scenario.s2 ∉
      (RevokeAllSessionsNoContext Scenario.envRemoveS3Fails Scenario.oauthCachedState
        "alice").1.cache := by
  decide

/-- C25 (amended): the revocation sweep is not total on store failure. Let
`Session().GetSessions` enumerate `pre ++ x :: post` and let the removal of `x` be the first
`Session().Remove` that fails. Then `RevokeAllSession` puts that error into `c.Err` and
`RevokeAllSessionsNoContext` returns it, and both stop at once: neither `Session().Remove`
nor `app.RevokeAccessToken` is called for a session of `post`, and
`app.RemoveAllSessionsForUserId` is not called. So `x` and every session later in the
enumeration keep their durable record (ids and tokens being distinct), and the cache only
loses what the revocation of an `IsOAuth` session of `pre` evicted: it is unchanged when
no session of `pre` has `IsOAuth` set. -/
theorem sweep_stops_at_failed_removal (e : Env) (st : State) (userId : String)
    (pre : List Session) (x : Session) (post : List Session) (err : AppError)
    (henum : sessionsOf st userId = pre ++ x :: post)
    (hget : e.fault (.SessionGetSessions userId) = none)
    (hpre : ∀ s ∈ pre, s.IsOAuth = false → e.fault (.SessionRemove s.Id) = none)
    (hx : x.IsOAuth = false) (hfail : e.fault (.SessionRemove x.Id) = some err) :
    ((RevokeAllSession e st userId).Err = some err ∧
      (∀ s ∈ (RevokeAllSession e st userId).sessions, s ∈ st.sessions ∧ removedBy pre s = false) ∧
      (∀ s ∈ (RevokeAllSession e st userId).cache, s ∈ st.cache) ∧
      ((∀ s ∈ pre, s.IsOAuth = false) → (RevokeAllSession e st userId).cache = st.cache) ∧
      (∀ u, Call.RemoveAllSessionsForUserId u ∉ callsSince st (RevokeAllSession e st userId)) ∧
      (∀ s ∈ post, removedBy (pre ++ [x]) s = false →
        Call.SessionRemove s.Id ∉ callsSince st (RevokeAllSession e st userId)) ∧
      (∀ s ∈ post, grantRevokedBy pre s.Token = false →
        Call.RevokeAccessToken s.Token ∉ callsSince st (RevokeAllSession e st userId))) ∧
    ((RevokeAllSessionsNoContext e st userId).2 = some err ∧
      (∀ s ∈ (RevokeAllSessionsNoContext e st userId).1.sessions,
        s ∈ st.sessions ∧ removedBy pre s = false) ∧
      (∀ s ∈ (RevokeAllSessionsNoContext e st userId).1.cache, s ∈ st.cache) ∧
      ((∀ s ∈ pre, s.IsOAuth = false) →
        (RevokeAllSessionsNoContext e st userId).1.cache = st.cache) ∧
      (∀ u, Call.RemoveAllSessionsForUserId u ∉
        callsSince st (RevokeAllSessionsNoContext e st userId).1) ∧
      (∀ s ∈ post, removedBy (pre ++ [x]) s = false →
        Call.SessionRemove s.Id ∉ callsSince st (RevokeAllSessionsNoContext e st userId).1) ∧
      (∀ s ∈ post, grantRevokedBy pre s.Token = false →
        Call.RevokeAccessToken s.Token ∉
          callsSince st (RevokeAllSessionsNoContext e st userId).1)) ∧
    (((sessionsOf st userId).map (fun s => s.Id)).Nodup →
      ((sessionsOf st userId).map (fun s => s.Token)).Nodup →
      ∀ s ∈ x :: post, s ∈ (RevokeAllSession e st userId).sessions ∧
        s ∈ (RevokeAllSessionsNoContext e st userId).1.sessions) := by
  have hL := RevokeAllSession_loop_stops e userId x post err hx hfail pre hpre
    (st.call (.SessionGetSessions userId))
  have hrel := RevokeAllSession_loop_NoContext e userId (pre ++ x :: post)
    (st.call (.SessionGetSessions userId)) (st.call (.SessionGetSessions userId))
    st.calls [.SessionGetSessions userId] [.SessionGetSessions userId] rfl rfl rfl rfl rfl rfl rfl
  have hfilter : st.sessions.filter (fun s => s.UserId == userId) = pre ++ x :: post := henum
  have hRAS : RevokeAllSession e st userId =
      (RevokeAllSession.loop e userId (pre ++ x :: post) (st.call (.SessionGetSessions userId))).1 := by
    unfold RevokeAllSession Store.Session.GetSessions
    rw [hget]
    dsimp only
    rw [hfilter]
    generalize RevokeAllSession.loop e userId (pre ++ x :: post)
      (st.call (.SessionGetSessions userId)) = res at hL
    obtain ⟨s2, b⟩ := res
    obtain ⟨hb, -⟩ := hL
    simp only at hb
    subst hb
    rfl
  obtain ⟨hb, hE, hS, hSb, hC, hCb, extra, hcalls, hno, hnorm, hnoa⟩ := hL
  obtain ⟨r1, -, r3, -, ⟨ya, yb, hya, hyb, hyy⟩, r6⟩ := hrel
  have hNCerr : (RevokeAllSessionsNoContext.loop e (pre ++ x :: post)
      (st.call (.SessionGetSessions userId))).2 = some err := by
    rcases r6 with ⟨hf, -, -⟩ | ⟨err2, -, ho, hE2⟩
    · rw [hb] at hf
      cases hf
    · rw [hE] at hE2
      cases hE2
      exact ho
  have hNC : RevokeAllSessionsNoContext e st userId =
      ((RevokeAllSessionsNoContext.loop e (pre ++ x :: post)
        (st.call (.SessionGetSessions userId))).1, some err) := by
    unfold RevokeAllSessionsNoContext Store.Session.GetSessions
    rw [hget]
    dsimp only
    rw [hfilter]
    generalize RevokeAllSessionsNoContext.loop e (pre ++ x :: post)
      (st.call (.SessionGetSessions userId)) = res at hNCerr
    obtain ⟨s2, o⟩ := res
    simp only at hNCerr
    subst hNCerr
    rfl
  have hcsA : callsSince st (RevokeAllSession e st userId) =
      [.SessionGetSessions userId] ++ extra := by
    rw [hRAS]
    exact callsSince_append st _ _ (by rw [hcalls]; simp [State.call])
  have hya2 : ya = [.SessionGetSessions userId] ++ extra := by
    have := hya.symm.trans hcalls
    simp only [State.call, List.append_assoc] at this
    exact List.append_cancel_left this
  have hcsB : callsSince st (RevokeAllSessionsNoContext e st userId).1 =
      ([Call.SessionGetSessions userId] ++ extra).filter (fun c => !c.isAudit) := by
    rw [hNC]
    rw [callsSince_append st _ yb hyb, ← hyy, hya2]
  have hsessB : (RevokeAllSessionsNoContext e st userId).1.sessions =
      (RevokeAllSession e st userId).sessions := by
    rw [hNC, hRAS]
    exact r1.symm
  have hcacheB : (RevokeAllSessionsNoContext e st userId).1.cache =
      (RevokeAllSession e st userId).cache := by
    rw [hNC, hRAS]
    exact r3.symm
  have hSA : ∀ s ∈ (RevokeAllSession e st userId).sessions,
      s ∈ st.sessions ∧ removedBy pre s = false := by
    rw [hRAS]
    exact hS
  have hCA : ∀ s ∈ (RevokeAllSession e st userId).cache, s ∈ st.cache := by
    rw [hRAS]
    exact hC
  have hCAeq : (∀ s ∈ pre, s.IsOAuth = false) → (RevokeAllSession e st userId).cache = st.cache := by
    rw [hRAS]
    exact hCb
  refine ⟨⟨by rw [hRAS]; exact hE, hSA, hCA, hCAeq, ?_, ?_, ?_⟩,
    ⟨by rw [hNC], by rw [hsessB]; exact hSA, by rw [hcacheB]; exact hCA,
      by rw [hcacheB]; exact hCAeq, ?_, ?_, ?_⟩, ?_⟩
  · intro u hmem
    rw [hcsA] at hmem
    rcases List.mem_append.mp hmem with hm | hm
    · simp at hm
    · exact hno u hm
  · intro s hs hr hmem
    rw [hcsA] at hmem
    rcases List.mem_append.mp hmem with hm | hm
    · simp at hm
    · exact hnorm s hs hr hm
  · intro s hs hg hmem
    rw [hcsA] at hmem
    rcases List.mem_append.mp hmem with hm | hm
    · simp at hm
    · exact hnoa s hs hg hm
  · intro u hmem
    rw [hcsB] at hmem
    rcases List.mem_append.mp (List.mem_filter.mp hmem).1 with hm | hm
    · simp at hm
    · exact hno u hm
  · intro s hs hr hmem
    rw [hcsB] at hmem
    rcases List.mem_append.mp (List.mem_filter.mp hmem).1 with hm | hm
    · simp at hm
    · exact hnorm s hs hr hm
  · intro s hs hg hmem
    rw [hcsB] at hmem
    rcases List.mem_append.mp (List.mem_filter.mp hmem).1 with hm | hm
    · simp at hm
    · exact hnoa s hs hg hm
  · intro hnodup hnodupT s hs
    have hmemst : s ∈ st.sessions := by
      have : s ∈ sessionsOf st userId := by rw [henum]; exact List.mem_append_right _ hs
      exact (List.mem_filter.mp this).1
    have hnot : removedBy pre s = false := by
      rw [henum, List.map_append] at hnodup
      have hdis := (List.nodup_append.mp hnodup).2.2
      unfold removedBy
      rw [Bool.eq_false_iff]
      intro hany
      obtain ⟨y, hy, hcond⟩ := List.any_eq_true.mp hany
      simp only [Bool.and_eq_true, beq_iff_eq] at hcond
      exact hdis (List.mem_map_of_mem _ hy) (hcond.2 ▸ List.mem_map_of_mem _ hs)
    have hnotT : grantRevokedBy pre s.Token = false := by
      rw [henum, List.map_append] at hnodupT
      have hdis := (List.nodup_append.mp hnodupT).2.2
      unfold grantRevokedBy
      rw [Bool.eq_false_iff]
      intro hany
      obtain ⟨y, hy, hcond⟩ := List.any_eq_true.mp hany
      simp only [Bool.and_eq_true, beq_iff_eq] at hcond
      exact hdis (List.mem_map_of_mem _ hy) (hcond.2 ▸ List.mem_map_of_mem _ hs)
    have hin : s ∈ (RevokeAllSession e st userId).sessions := by
      rw [hRAS]
      exact hSb s hmemst hnot hnotT
    exact ⟨hin, by rw [hsessB]; exact hin⟩

/-- Witness of C25: every removal fails, so the sweep over the sessions `s1`, `s2`, `s3` of
alice stops at `s1`: the later sessions `s2` and `s3` keep their record, the cache is as
before and the sweep without context returns the error. When only the removal of `s3`
fails, after `s1` and `s2`, the record of `s3` stays. -/
theorem sweep_stops_at_failed_removal_witness :
    sessionsOf Scenario.state "alice" = [] ++ Scenario.s1 :: [Scenario.s2, Scenario.s3] ∧
    (Scenario.s2 ∈ (RevokeAllSession Scenario.envSessionRemoveFails Scenario.state
        "alice").sessions ∧
      Scenario.s3 ∈ (RevokeAllSession Scenario.envSessionRemoveFails Scenario.state
        "alice").sessions) ∧
    (RevokeAllSession Scenario.envSessionRemoveFails Scenario.state "alice").cache =
      Scenario.state.cache ∧
    (RevokeAllSessionsNoContext Scenario.envSessionRemoveFails Scenario.state "alice").2 =
      some Scenario.storeErr ∧
    Scenario.s3 ∈ (RevokeAllSession Scenario.envRemoveS3Fails Scenario.state "alice").sessions :=
  have h := sweep_stops_at_failed_removal Scenario.envSessionRemoveFails Scenario.state "alice"
    [] Scenario.s1 [Scenario.s2, Scenario.s3] Scenario.storeErr
    (by decide) (by decide) (by decide) (by decide) (by decide)
  have h3 := sweep_stops_at_failed_removal Scenario.envRemoveS3Fails Scenario.state "alice"
    [Scenario.s1, Scenario.s2] Scenario.s3 [] Scenario.storeErr
    (by decide) (by decide) (by decide) (by decide) (by decide)
  ⟨by decide,
   ⟨(h.2.2 (by decide) (by decide) Scenario.s2 (by decide)).1,
    (h.2.2 (by decide) (by decide) Scenario.s3 (by decide)).1⟩,
   h.1.2.2.2.1 (by decide), h.2.1.1,
   (h3.2.2 (by decide) (by decide) Scenario.s3 (by decide)).1⟩

/-! ## An OAuth login without an account -/

/-- C24: `LoginByOAuth` returns nil and establishes no session whenever `app.GetUserByAuth`
returns an error: no session is saved or cached, no cookie or header is written and
`c.Session` is unchanged. This includes the first login, where the error is
`MISSING_AUTH_ACCOUNT_ERROR` and `app.CreateOAuthUser` then succeeds: the account is
created, `c.Err` is set to nil, the only calls are the three of the provider, the lookup and
the creation (so `doLogin` is not called) and nil is returned. If the creation fails its
error is set; for any other lookup error that error is set. -/
theorem LoginByOAuth_lookup_error (e : Env) (st : State) (r : Request)
    (service userData : String) (provider : OauthProvider) (err : AppError)
    (hprov : e.GetOauthProvider service = some provider)
    (hauth : provider.GetAuthDataFromJson userData ≠ "")
    (hlookup : (app.GetUserByAuth e (st.call (.GetAuthDataFromJson service userData))
      (provider.GetAuthDataFromJson userData) service).2 = .error err) :
    (LoginByOAuth e st r service userData).2 = none ∧
    (LoginByOAuth e st r service userData).1.sessions = st.sessions ∧
    (LoginByOAuth e st r service userData).1.cache = st.cache ∧
    (LoginByOAuth e st r service userData).1.Session = st.Session ∧
    (LoginByOAuth e st r service userData).1.cookies = st.cookies ∧
    (LoginByOAuth e st r service userData).1.header = st.header ∧
    (∀ s, Call.SessionSave s ∉ callsSince st (LoginByOAuth e st r service userData).1) ∧
    (err.Id ≠ e.model.MISSING_AUTH_ACCOUNT_ERROR →
      (LoginByOAuth e st r service userData).1.Err = some err ∧
      (LoginByOAuth e st r service userData).1.users = st.users) ∧
    (err.Id = e.model.MISSING_AUTH_ACCOUNT_ERROR →
      (∀ u, e.CreateOAuthUser service userData = .ok u →
        (LoginByOAuth e st r service userData).1.Err = none ∧
        (LoginByOAuth e st r service userData).1.users = st.users ++ [u] ∧
        callsSince st (LoginByOAuth e st r service userData).1 =
          [.GetAuthDataFromJson service userData,
           .GetUserByAuth (provider.GetAuthDataFromJson userData) service,
           .CreateOAuthUser service userData]) ∧
      (∀ err2, e.CreateOAuthUser service userData = .error err2 →
        (LoginByOAuth e st r service userData).1.Err = some err2 ∧
        (LoginByOAuth e st r service userData).1.users = st.users)) := by
  have hlen : ¬ len (provider.GetAuthDataFromJson userData) = 0 :=
    (len_eq_zero_iff _).not.mpr hauth
  have hres : app.GetUserByAuth e (st.call (.GetAuthDataFromJson service userData))
      (provider.GetAuthDataFromJson userData) service =
      ({ st with calls := st.calls ++ [.GetAuthDataFromJson service userData,
          .GetUserByAuth (provider.GetAuthDataFromJson userData) service] }, .error err) := by
    revert hlookup
    unfold app.GetUserByAuth
    cases hf : e.fault (.GetUserByAuth (provider.GetAuthDataFromJson userData) service) with
    | some err0 =>
      intro h
      simp only [State.call] at h ⊢
      cases h
      simp
    | none =>
      cases hu : (st.call (.GetAuthDataFromJson service userData)).users.find?
          (fun u => u.AuthData == some (provider.GetAuthDataFromJson userData) &&
            u.AuthService == service) with
      | some u =>
        intro h
        cases h
      | none =>
        intro h
        simp only [State.call] at h ⊢
        cases h
        simp
  unfold LoginByOAuth
  simp only [hprov, beq_iff_eq, hlen, if_false, hres]
  by_cases hmiss : err.Id = e.model.MISSING_AUTH_ACCOUNT_ERROR
  · cases hc : e.CreateOAuthUser service userData with
    | error err2 =>
      simp [hmiss, app.CreateOAuthUser, hc, State.call, callsSince]
    | ok u =>
      simp [hmiss, app.CreateOAuthUser, hc, State.call, callsSince]
  · simp [hmiss, callsSince]

/-- Witness of C24: the first OAuth login of frank; no account carries his auth-data, the
account is created, no error is set, nil is returned and no session exists for him. -/
theorem LoginByOAuth_lookup_error_witness :
    (LoginByOAuth Scenario.envCreateOAuth Scenario.state Scenario.oauthReq "gitlab"
      "frank-ext").2 = none ∧
    (LoginByOAuth Scenario.envCreateOAuth Scenario.state Scenario.oauthReq "gitlab"
      "frank-ext").1.Err = none ∧
    (LoginByOAuth Scenario.envCreateOAuth Scenario.state Scenario.oauthReq "gitlab"
      "frank-ext").1.users = Scenario.state.users ++ [Scenario.frank "gitlab" "frank-ext"] ∧
    (LoginByOAuth Scenario.envCreateOAuth Scenario.state Scenario.oauthReq "gitlab"
      "frank-ext").1.sessions = Scenario.state.sessions :=
  have h := LoginByOAuth_lookup_error Scenario.envCreateOAuth Scenario.state Scenario.oauthReq
    "gitlab" "frank-ext" { GetAuthDataFromJson := fun d => d }
    (NewLocAppError "SqlUserStore.GetByAuthData"
      "store.sql_user.get_by_auth.missing_account.app_error" "")
    rfl (by decide) rfl
  have h2 := (h.2.2.2.2.2.2.2.2 rfl).1 (Scenario.frank "gitlab" "frank-ext") rfl
  ⟨h.1, h2.1, h2.2.1, h.2.1⟩

/-! ## The age of a recovery token -/

/-- The calls of `ResetPassword`: the lookup of the user, then at most the password write. -/
theorem ResetPassword_calls (e : Env) (st : State) (userId newPassword : String) :
    (ResetPassword e st userId newPassword).1.calls = st.calls ++ [.UserGet userId] ∨
    (ResetPassword e st userId newPassword).1.calls = st.calls ++
      [.UserGet userId, .UserUpdatePassword userId (e.HashPassword newPassword)] := by
  unfold ResetPassword Store.User.Get Store.User.UpdatePassword HasPermissionToContext
  cases e.fault (.UserGet userId) with
  | some err => simp [State.call]
  | none =>
    cases st.users.find? (fun u => u.Id == userId) with
    | none => simp [State.call]
    | some user =>
      cases hw : e.fault (.UserUpdatePassword userId (e.HashPassword newPassword)) <;>
        cases hp : e.HasPermissionTo st.Session e.model.PERMISSION_MANAGE_SYSTEM <;>
        cases ha : user.AuthData <;>
        simp [State.call, State.go, hw, hp, ha] <;>
        (split <;> simp_all)

/-- C26: `resetPassword` accepts a found recovery token if and only if `now - CreateAt` is
strictly less than `PASSWORD_RECOVER_EXPIRY_TIME`. For a well-formed request whose code is
found, `ResetPassword` is called exactly when the age is below the window, and then the
deletion of the token is started; otherwise the request ends with the link-expired error
and changes nothing. In particular a token whose age equals the window is rejected as
expired. The age is taken within `int64`. -/
theorem resetPassword_strict_expiry (e : Env) (st : State) (r : Request)
    (recovery : PasswordRecovery)
    (hcode : len (lookup r.props "code") = e.model.PASSWORD_RECOVERY_CODE_SIZE)
    (hpw : e.IsPasswordValid (lookup r.props "new_password") = none)
    (hget : e.fault (.PasswordRecoveryGetByCode (lookup r.props "code")) = none)
    (hfound : st.recovery.find? (fun x => x.Code == lookup r.props "code") = some recovery)
    (hlo : -9223372036854775808 ≤ e.GetMillis - recovery.CreateAt)
    (hhi : e.GetMillis - recovery.CreateAt < 9223372036854775808) :
    (Call.UserGet recovery.UserId ∈ callsSince st (resetPassword e st r) ↔
      e.GetMillis - recovery.CreateAt < e.model.PASSWORD_RECOVER_EXPIRY_TIME) ∧
    (e.GetMillis - recovery.CreateAt < e.model.PASSWORD_RECOVER_EXPIRY_TIME →
      Task.PasswordRecoveryDelete recovery.UserId ∈ (resetPassword e st r).pending ∧
      ∃ extra, callsSince st (resetPassword e st r) =
        [.LogAudit st.Session.UserId "attempt",
         .PasswordRecoveryGetByCode (lookup r.props "code"),
         .UserGet recovery.UserId] ++ extra) ∧
    (e.model.PASSWORD_RECOVER_EXPIRY_TIME ≤ e.GetMillis - recovery.CreateAt →
      (resetPassword e st r).Err = some (NewLocAppError "resetPassword"
        "api.user.reset_password.link_expired.app_error" "") ∧
      (resetPassword e st r).users = st.users ∧
      (resetPassword e st r).recovery = st.recovery ∧
      (resetPassword e st r).pending = st.pending ∧
      callsSince st (resetPassword e st r) =
        [.LogAudit st.Session.UserId "attempt",
         .PasswordRecoveryGetByCode (lookup r.props "code"),
         .LogAudit "" "fail - link expired"]) ∧
    (e.GetMillis - recovery.CreateAt = e.model.PASSWORD_RECOVER_EXPIRY_TIME →
      (resetPassword e st r).Err = some (NewLocAppError "resetPassword"
        "api.user.reset_password.link_expired.app_error" "") ∧
      (resetPassword e st r).users = st.users) := by
  have hw := wrap64_of_int64 _ hlo hhi
  have hrej : e.model.PASSWORD_RECOVER_EXPIRY_TIME ≤ e.GetMillis - recovery.CreateAt →
      (resetPassword e st r).Err = some (NewLocAppError "resetPassword"
        "api.user.reset_password.link_expired.app_error" "") ∧
      (resetPassword e st r).users = st.users ∧
      (resetPassword e st r).recovery = st.recovery ∧
      (resetPassword e st r).pending = st.pending ∧
      callsSince st (resetPassword e st r) =
        [.LogAudit st.Session.UserId "attempt",
         .PasswordRecoveryGetByCode (lookup r.props "code"),
         .LogAudit "" "fail - link expired"] := by
    intro hexp
    have hnot : ¬ e.GetMillis - recovery.CreateAt < e.model.PASSWORD_RECOVER_EXPIRY_TIME := by
      omega
    simp [resetPassword, hcode, hpw, Store.PasswordRecovery.GetByCode, hget, hfound, hw, hnot,
      LogAudit, LogAuditWithUserId, State.call, callsSince]
  have hacc : e.GetMillis - recovery.CreateAt < e.model.PASSWORD_RECOVER_EXPIRY_TIME →
      Task.PasswordRecoveryDelete recovery.UserId ∈ (resetPassword e st r).pending ∧
      ∃ extra, callsSince st (resetPassword e st r) =
        [.LogAudit st.Session.UserId "attempt",
         .PasswordRecoveryGetByCode (lookup r.props "code"),
         .UserGet recovery.UserId] ++ extra := by
    intro hfresh
    have hrun : resetPassword e st r = resetPassword.redeem e
        { st with calls := st.calls ++ [.LogAudit st.Session.UserId "attempt"] ++
            [.PasswordRecoveryGetByCode (lookup r.props "code")] }
        recovery.UserId (lookup r.props "new_password") := by
      simp [resetPassword, hcode, hpw, Store.PasswordRecovery.GetByCode, hget, hfound, hw,
        hfresh, LogAudit, LogAuditWithUserId, State.call]
    rw [hrun]
    refine ⟨(resetPassword_redeem_spec e _ _ _).2.2, ?_⟩
    have hcalls : ∃ extra, (ResetPassword e
        (({ st with calls := st.calls ++ [.LogAudit st.Session.UserId "attempt"] ++
          [.PasswordRecoveryGetByCode (lookup r.props "code")] } : State).go
          (.PasswordRecoveryDelete recovery.UserId))
        recovery.UserId (lookup r.props "new_password")).1.calls =
        (({ st with calls := st.calls ++ [.LogAudit st.Session.UserId "attempt"] ++
          [.PasswordRecoveryGetByCode (lookup r.props "code")] } : State).go
          (.PasswordRecoveryDelete recovery.UserId)).calls ++
          Call.UserGet recovery.UserId :: extra := by
      rcases ResetPassword_calls e
        (({ st with calls := st.calls ++ [.LogAudit st.Session.UserId "attempt"] ++
          [.PasswordRecoveryGetByCode (lookup r.props "code")] } : State).go
          (.PasswordRecoveryDelete recovery.UserId))
        recovery.UserId (lookup r.props "new_password") with h | h
      · exact ⟨[], h⟩
      · exact ⟨_, h⟩
    obtain ⟨extra, hcalls⟩ := hcalls
    unfold resetPassword.redeem
    dsimp only
    generalize ResetPassword e _ recovery.UserId (lookup r.props "new_password") = res at hcalls ⊢
    obtain ⟨st3, o⟩ := res
    simp only [State.go] at hcalls
    cases o with
    | some err =>
      exact ⟨extra, callsSince_append st _ _ (by simp [hcalls])⟩
    | none =>
      exact ⟨extra ++ [.LogAudit recovery.UserId "success"], callsSince_append st _ _ (by
        simp [hcalls, LogAuditWithUserId, State.call])⟩
  refine ⟨⟨?_, ?_⟩, hacc, hrej, fun h => ⟨(hrej (le_of_eq h.symm)).1, (hrej (le_of_eq h.symm)).2.1⟩⟩
  · intro hmem
    by_contra hnot
    have h := (hrej (by omega)).2.2.2.2
    rw [h] at hmem
    simp at hmem
  · intro hfresh
    obtain ⟨-, extra, h⟩ := hacc hfresh
    rw [h]
    simp

/-- Witness of C26: the recovery token of alice is accepted one millisecond before its age
reaches the window of 3600000 ms and rejected as expired when the age equals the window. -/
theorem resetPassword_strict_expiry_witness :
    Call.UserGet "alice" ∈ callsSince Scenario.state
      (resetPassword Scenario.envBeforeExpiry Scenario.state Scenario.resetReq) ∧
    (resetPassword Scenario.envAtExpiry Scenario.state Scenario.resetReq).Err =
      some (NewLocAppError "resetPassword" "api.user.reset_password.link_expired.app_error" "") :=
  ⟨(resetPassword_strict_expiry Scenario.envBeforeExpiry Scenario.state Scenario.resetReq
      { UserId := "alice", Code := "abcd", CreateAt := 4999000 }
      (by decide) (by decide) (by decide) (by decide) (by decide) (by decide)).1.mpr (by decide),
   ((resetPassword_strict_expiry Scenario.envAtExpiry Scenario.state Scenario.resetReq
      { UserId := "alice", Code := "abcd", CreateAt := 4999000 }
      (by decide) (by decide) (by decide) (by decide) (by decide) (by decide)).2.2.2
      (by decide)).1⟩

/-! ## A SAML login after a failed sweep -/

/-- The sweep loop writes no header. -/
theorem RevokeAllSession_loop_header (e : Env) (userId : String) (l : List Session) (st : State) :
    (RevokeAllSession.loop e userId l st).1.header = st.header := by
  induction l generalizing st with
  | nil => rfl
  | cons x rest ih =>
    unfold RevokeAllSession.loop
    cases hx : x.IsOAuth
    · cases hf : e.fault (.SessionRemove x.Id) with
      | some err => simp [Store.Session.Remove, hf, LogAuditWithUserId, State.call]
      | none =>
        simp only [Store.Session.Remove, hf, Bool.false_eq_true, if_false]
        rw [ih]
        simp [LogAuditWithUserId, State.call, app.RevokeWebrtcToken]
    · simp only [if_true]
      rw [ih]
      cases hf : e.fault (.RevokeAccessToken x.Token) <;>
        simp [app.RevokeAccessToken, hf, LogAuditWithUserId, State.call, app.RevokeWebrtcToken]

/-- The sweep writes no header. -/
theorem RevokeAllSession_header (e : Env) (st : State) (userId : String) :
    (RevokeAllSession e st userId).header = st.header := by
  unfold RevokeAllSession Store.Session.GetSessions
  cases hf : e.fault (.SessionGetSessions userId) with
  | some err => simp [State.call]
  | none =>
    have h := RevokeAllSession_loop_header e userId
      (st.sessions.filter (fun s => s.UserId == userId)) (st.call (.SessionGetSessions userId))
    dsimp only
    generalize RevokeAllSession.loop e userId
      (st.sessions.filter (fun s => s.UserId == userId)) (st.call (.SessionGetSessions userId))
      = res at h
    obtain ⟨st2, b⟩ := res
    cases b <;> simpa [app.RemoveAllSessionsForUserId, State.call] using h

/-- C27: in `completeSaml` with the relay action `email_to_sso`, `doLogin` is called whether
or not the preceding `RevokeAllSession` succeeded. When the sweep leaves an error in
`c.Err` and `Session().Save` succeeds, a new session of the user is nevertheless saved,
cached, made `c.Session` and returned in the token header and the cookie, while the
request finishes with the error of the sweep and without the redirect. -/
theorem completeSaml_login_after_failed_sweep (e : Env) (st : State) (r : Request)
    (samlInterface : SamlInterface) (user : User) (stateStr : String) (err : AppError)
    (hsaml : e.GetSamlInterface = some samlInterface)
    (hstate : lookup r.form "RelayState" ≠ "")
    (hdec : e.DecodeString (lookup r.form "RelayState") = .ok stateStr)
    (haction : lookup (e.MapFromJson stateStr) "action" = e.model.OAUTH_ACTION_EMAIL_TO_SSO)
    (hne : e.model.OAUTH_ACTION_EMAIL_TO_SSO ≠ e.model.OAUTH_ACTION_SIGNUP)
    (hlogin : samlInterface.DoLogin (lookup r.form "SAMLResponse") (e.MapFromJson stateStr) =
      .ok user)
    (hcrit : e.checkUserAdditionalAuthenticationCriteria user "" = none)
    (hsweep : (RevokeAllSession e
      (st.call (.SamlDoLogin (lookup r.form "SAMLResponse") (e.MapFromJson stateStr)))
      user.Id).Err = some err)
    (hsave : ∀ s, e.fault (.SessionSave s) = none) :
    (completeSaml e st r).Err = some err ∧
    (completeSaml e st r).body = st.body ∧
    (completeSaml e st r).Session.UserId = user.Id ∧
    (completeSaml e st r).Session ∈ (completeSaml e st r).sessions ∧
    (completeSaml e st r).Session ∈ (completeSaml e st r).cache ∧
    (completeSaml e st r).sessions =
      (RevokeAllSession e
        (st.call (.SamlDoLogin (lookup r.form "SAMLResponse") (e.MapFromJson stateStr)))
        user.Id).sessions ++ [(completeSaml e st r).Session] ∧
    (completeSaml e st r).header =
      setHeader st.header e.model.HEADER_TOKEN (completeSaml e st r).Session.Token ∧
    (∃ cookie, (completeSaml e st r).cookies = st.cookies ++ [cookie] ∧
      cookie.Value = (completeSaml e st r).Session.Token) ∧
    (∃ s, Call.SessionSave s ∈ (completeSaml e st r).calls ∧
      Call.AddSessionToCache (completeSaml e st r).Session ∈ (completeSaml e st r).calls) := by
  have hlen : len (lookup r.form "RelayState") > 0 := by
    have := (len_eq_zero_iff _).not.mpr hstate
    omega
  have hlen0 : ¬ (len "" > 0) := by
    have := (len_eq_zero_iff "").mpr rfl
    omega
  have hspec := RevokeAllSession_spec e
    (st.call (.SamlDoLogin (lookup r.form "SAMLResponse") (e.MapFromJson stateStr))) user.Id
  have hrun : completeSaml e st r = doLogin.persist e
      ((RevokeAllSession e
        (st.call (.SamlDoLogin (lookup r.form "SAMLResponse") (e.MapFromJson stateStr)))
        user.Id).go (.sendSignInChangeEmail user.Email
          (e.Title e.model.USER_AUTH_SERVICE_SAML ++ " SSO"))) r
      (Session.SetExpireInDays e
        { Id := "", Token := "", ExpiresAt := 0, UserId := user.Id, Roles := user.GetRawRoles,
          DeviceId := "", IsOAuth := false, Props := [] } e.SessionLengthWebInDays)
      (wrap64 (e.SessionLengthWebInDays * 60 * 60 * 24)) := by
    have hpers := doLogin_persist_cases e
      ((RevokeAllSession e
        (st.call (.SamlDoLogin (lookup r.form "SAMLResponse") (e.MapFromJson stateStr)))
        user.Id).go (.sendSignInChangeEmail user.Email
          (e.Title e.model.USER_AUTH_SERVICE_SAML ++ " SSO"))) r
      (Session.SetExpireInDays e
        { Id := "", Token := "", ExpiresAt := 0, UserId := user.Id, Roles := user.GetRawRoles,
          DeviceId := "", IsOAuth := false, Props := [] } e.SessionLengthWebInDays)
      (wrap64 (e.SessionLengthWebInDays * 60 * 60 * 24))
    rcases hpers with ⟨err0, hf, -⟩ | ⟨saved, -, -, -, hE, -⟩
    · rw [hsave] at hf
      cases hf
    · have hE2 := hE.trans hsweep
      simp only [completeSaml, hsaml, hlen, if_true, hdec, hlogin, hcrit, completeSaml.finish,
        haction, beq_iff_eq, hne, if_false, doLogin, hlen0]
      rw [if_pos (by rw [hE2]; rfl)]
  obtain ⟨-, -, -, -, -, hSess, hCook, hBody⟩ := hspec
  rw [hrun]
  rcases doLogin_persist_cases e
      ((RevokeAllSession e
        (st.call (.SamlDoLogin (lookup r.form "SAMLResponse") (e.MapFromJson stateStr)))
        user.Id).go (.sendSignInChangeEmail user.Email
          (e.Title e.model.USER_AUTH_SERVICE_SAML ++ " SSO"))) r
      (Session.SetExpireInDays e
        { Id := "", Token := "", ExpiresAt := 0, UserId := user.Id, Roles := user.GetRawRoles,
          DeviceId := "", IsOAuth := false, Props := [] } e.SessionLengthWebInDays)
      (wrap64 (e.SessionLengthWebInDays * 60 * 60 * 24)) with
    ⟨err0, hf, -⟩ | ⟨saved, -, -, hsaved, hE, hS, hss, hC, hH, ⟨cookie, hcv, -, hck⟩, hcalls⟩
  · rw [hsave] at hf
    cases hf
  · have hhead : (RevokeAllSession e
        (st.call (.SamlDoLogin (lookup r.form "SAMLResponse") (e.MapFromJson stateStr)))
        user.Id).header = st.header := by
      have := RevokeAllSession_header e
        (st.call (.SamlDoLogin (lookup r.form "SAMLResponse") (e.MapFromJson stateStr))) user.Id
      simpa [State.call] using this
    refine ⟨hE.trans hsweep, ?_, ?_, by rw [hS, hss]; simp, by rw [hS, hC]; simp,
      by rw [hS]; exact hss, ?_, ⟨cookie, ?_, by rw [hS, hcv]⟩, ?_⟩
    · have hb : (RevokeAllSession e
          (st.call (.SamlDoLogin (lookup r.form "SAMLResponse") (e.MapFromJson stateStr)))
          user.Id).body = st.body := hBody
      simp only [doLogin.persist, Store.Session.Save, hsave, app.AddSessionToCache, State.call,
        State.go] at hb ⊢
      exact hb
    · rw [hS, hsaved]
      exact (doLogin_clientProps_fields e r _).1
    · rw [hS, hH]
      show setHeader (RevokeAllSession e
        (st.call (.SamlDoLogin (lookup r.form "SAMLResponse") (e.MapFromJson stateStr)))
        user.Id).header _ _ = _
      rw [hhead]
    · rw [hck]
      show (RevokeAllSession e
        (st.call (.SamlDoLogin (lookup r.form "SAMLResponse") (e.MapFromJson stateStr)))
        user.Id).cookies ++ [cookie] = _
      rw [hCook]
      rfl
    · exact ⟨doLogin.clientProps e r (Session.SetExpireInDays e
          { Id := "", Token := "", ExpiresAt := 0, UserId := user.Id, Roles := user.GetRawRoles,
            DeviceId := "", IsOAuth := false, Props := [] } e.SessionLengthWebInDays),
        by rw [hcalls]; simp, by rw [hcalls, hS]; simp⟩

/-- Witness of C27: alice completes the SAML flow with the relay action `email_to_sso` while
`Session().GetSessions` fails; the request ends with the store error and without a
redirect, and a fifth session, hers, is in the store and in the cache. -/
theorem completeSaml_login_after_failed_sweep_witness :
    (completeSaml Scenario.envSamlSweepFails Scenario.state Scenario.samlReq).Err =
      some Scenario.storeErr ∧
    (completeSaml Scenario.envSamlSweepFails Scenario.state Scenario.samlReq).body =
      Scenario.state.body ∧
    (completeSaml Scenario.envSamlSweepFails Scenario.state Scenario.samlReq).Session.UserId =
      "alice" ∧
    (completeSaml Scenario.envSamlSweepFails Scenario.state Scenario.samlReq).Session ∈
      (completeSaml Scenario.envSamlSweepFails Scenario.state Scenario.samlReq).cache ∧
    (completeSaml Scenario.envSamlSweepFails Scenario.state Scenario.samlReq).sessions.length =
      5 :=
  have h := completeSaml_login_after_failed_sweep Scenario.envSamlSweepFails Scenario.state
    Scenario.samlReq Scenario.saml Scenario.alice "email_to_sso" Scenario.storeErr
    rfl (by decide) rfl rfl (by decide) rfl rfl (by decide) (fun _ => rfl)
  ⟨h.1, h.2.1, h.2.2.1, h.2.2.2.2.1, by decide⟩

/-! ## The request body of `updateMfa` -/

/-- Once `activate` and `token` have been read, `updateMfa` writes the audit entry
`attempt` first. -/
theorem updateMfa_apply_calls (e : Env) (st : State) (activate : Bool) (token : String) :
    ∃ extra, (updateMfa.apply e st activate token).calls =
      st.calls ++ Call.LogAudit st.Session.UserId "attempt" :: extra := by
  cases activate
  · cases hf : e.fault (.DeactivateMfa st.Session.UserId)
    · exact ⟨[.DeactivateMfa st.Session.UserId,
        .LogAudit st.Session.UserId "success - deactivated"], by
        simp [updateMfa.apply, app.DeactivateMfa, hf, LogAudit, LogAuditWithUserId, State.call,
          State.go]⟩
    · exact ⟨[.DeactivateMfa st.Session.UserId], by
        simp [updateMfa.apply, app.DeactivateMfa, hf, LogAudit, LogAuditWithUserId, State.call]⟩
  · cases hf : e.fault (.ActivateMfa st.Session.UserId token)
    · exact ⟨[.ActivateMfa st.Session.UserId token,
        .LogAudit st.Session.UserId "success - activated"], by
        simp [updateMfa.apply, app.ActivateMfa, hf, LogAudit, LogAuditWithUserId, State.call,
          State.go]⟩
    · exact ⟨[.ActivateMfa st.Session.UserId token], by
        simp [updateMfa.apply, app.ActivateMfa, hf, LogAudit, LogAuditWithUserId, State.call]⟩

/-- The tail of `updateMfa` never ends in the state of a rejected parameter. -/
theorem updateMfa_apply_ne_invalid (e : Env) (st : State) (activate : Bool) (token : String)
    (where_ name : String) : updateMfa.apply e st activate token ≠ SetInvalidParam st where_ name := by
  intro h
  obtain ⟨extra, hc⟩ := updateMfa_apply_calls e st activate token
  rw [h] at hc
  have := congrArg List.length hc
  simp [SetInvalidParam] at this

/-- C28: `updateMfa` is not total on its input. For every request body with `activate` true
whose `token` field is absent or is not a string, the unchecked type assertion on the token
aborts the handler with a run-time panic (the result `.error`), and this is the only way
it panics. The invalid-parameter error is returned exactly when `activate` is absent or not
a boolean, or `activate` is true and the token is the empty string. With `activate` false
the token is not read. -/
theorem updateMfa_token_assertion (e : Env) (st : State) (props : List (String × JsonValue)) :
    ((∃ msg, updateMfa e st props = .error msg) ↔
      lookupInterface props "activate" = some (.bool true) ∧
      ∀ token, lookupInterface props "token" ≠ some (.string token)) ∧
    ((∃ name, updateMfa e st props = .ok (SetInvalidParam st "updateMfa" name)) ↔
      (∀ b, lookupInterface props "activate" ≠ some (.bool b)) ∨
      (lookupInterface props "activate" = some (.bool true) ∧
        lookupInterface props "token" = some (.string ""))) ∧
    ((∀ b, lookupInterface props "activate" ≠ some (.bool b)) →
      updateMfa e st props = .ok (SetInvalidParam st "updateMfa" "activate")) ∧
    (lookupInterface props "activate" = some (.bool true) →
      lookupInterface props "token" = some (.string "") →
      updateMfa e st props = .ok (SetInvalidParam st "updateMfa" "token")) ∧
    (∀ token, lookupInterface props "activate" = some (.bool true) →
      lookupInterface props "token" = some (.string token) → token ≠ "" →
      updateMfa e st props = .ok (updateMfa.apply e st true token)) ∧
    (lookupInterface props "activate" = some (.bool false) →
      updateMfa e st props = .ok (updateMfa.apply e st false "")) := by
  have hne := updateMfa_apply_ne_invalid e st
  have h0 : len "" = 0 := (len_eq_zero_iff "").mpr rfl
  unfold updateMfa
  cases ha : lookupInterface props "activate" with
  | none => simp
  | some a =>
    cases a with
    | null => simp
    | string s => simp
    | number n => simp
    | array items => simp
    | bool activate =>
      cases activate with
      | false =>
        simp only [Bool.false_eq_true, if_false]
        refine ⟨by simp, ?_, by simp, by simp, by simp, by simp⟩
        constructor
        · rintro ⟨name, h⟩
          exact absurd (Except.ok.inj h) (hne false "" "updateMfa" name)
        · rintro (h | ⟨h, -⟩)
          · exact absurd rfl (h false)
          · cases h
      | true =>
        simp only [if_true]
        cases ht : lookupInterface props "token" with
        | none => simp
        | some t =>
          cases t with
          | null => simp
          | bool b => simp
          | number n => simp
          | array items => simp
          | string token =>
            by_cases htok : token = ""
            · subst htok
              simp [h0]
            · have hl : ¬ len token = 0 := (len_eq_zero_iff token).not.mpr htok
              simp only [beq_iff_eq, hl, if_false]
              refine ⟨by simp, ?_, by simp, by simp [htok], by simp, by simp⟩
              constructor
              · rintro ⟨name, h⟩
                exact absurd (Except.ok.inj h) (hne true token "updateMfa" name)
              · rintro (h | ⟨-, h⟩)
                · exact absurd rfl (h true)
                · simp at h
                  exact absurd h htok

/-- Witness of C28: a body without `token`, or with a number as `token`, makes the handler
panic when `activate` is true; a string as `activate` and an empty token are rejected as
invalid parameters. -/
theorem updateMfa_token_assertion_witness :
    (∃ msg, updateMfa Scenario.env Scenario.state [("activate", .bool true)] = .error msg) ∧
    (∃ msg, updateMfa Scenario.env Scenario.state
      [("activate", .bool true), ("token", .number 123456)] = .error msg) ∧
    updateMfa Scenario.env Scenario.state [("activate", .string "true")] =
      .ok (SetInvalidParam Scenario.state "updateMfa" "activate") ∧
    updateMfa Scenario.env Scenario.state [("activate", .bool true), ("token", .string "")] =
      .ok (SetInvalidParam Scenario.state "updateMfa" "token") :=
  ⟨(updateMfa_token_assertion Scenario.env Scenario.state [("activate", .bool true)]).1.mpr
      ⟨rfl, by simp [lookupInterface]⟩,
   (updateMfa_token_assertion Scenario.env Scenario.state
      [("activate", .bool true), ("token", .number 123456)]).1.mpr
      ⟨rfl, by simp [lookupInterface]⟩,
   (updateMfa_token_assertion Scenario.env Scenario.state
      [("activate", .string "true")]).2.2.1 (by simp [lookupInterface]),
   (updateMfa_token_assertion Scenario.env Scenario.state
      [("activate", .bool true), ("token", .string "")]).2.2.2.1 rfl rfl⟩

/-! ## The guard of `updateActive` -/

/-- The sweep without a context only appends calls of the sweep to the call trace. -/
theorem RevokeAllSessionsNoContext_calls_sweep (e : Env) (st : State) (userId : String) :
    ∃ extra, (RevokeAllSessionsNoContext e st userId).1.calls = st.calls ++ extra ∧
      ∀ c ∈ extra, c.isSweep = true := by
  unfold RevokeAllSessionsNoContext Store.Session.GetSessions
  cases hf : e.fault (.SessionGetSessions userId) with
  | some err => exact ⟨[.SessionGetSessions userId], by simp [State.call, Call.isSweep]⟩
  | none =>
    obtain ⟨-, -, -, -, ⟨ya, yb, hya, hyb, hyy⟩, -⟩ := RevokeAllSession_loop_NoContext e userId
      (st.sessions.filter (fun s => s.UserId == userId))
      (st.call (.SessionGetSessions userId)) (st.call (.SessionGetSessions userId))
      st.calls [.SessionGetSessions userId] [.SessionGetSessions userId] rfl rfl rfl rfl rfl rfl rfl
    obtain ⟨extra, hex, hsw⟩ := RevokeAllSession_loop_calls_sweep e userId
      (st.sessions.filter (fun s => s.UserId == userId)) (st.call (.SessionGetSessions userId))
    have hya2 : ya = [.SessionGetSessions userId] ++ extra := by
      have := hya.symm.trans hex
      simp only [State.call, List.append_assoc] at this
      exact List.append_cancel_left this
    have hyb2 : ∀ c ∈ yb, c.isSweep = true := by
      intro c hc
      rw [← hyy, hya2] at hc
      rcases List.mem_append.mp (List.mem_filter.mp hc).1 with h | h
      · simp at h
        subst h
        rfl
      · exact hsw c h
    dsimp only
    generalize RevokeAllSessionsNoContext.loop e
      (st.sessions.filter (fun s => s.UserId == userId)) (st.call (.SessionGetSessions userId))
      = res at hyb
    obtain ⟨st2, o⟩ := res
    simp only at hyb
    cases o with
    | some err => exact ⟨yb, hyb, hyb2⟩
    | none =>
      refine ⟨yb ++ [.RemoveAllSessionsForUserId userId], by
        simp [app.RemoveAllSessionsForUserId, State.call, hyb], ?_⟩
      intro c hc
      rcases List.mem_append.mp hc with h | h
      · exact hyb2 c h
      · simp at h
        subst h
        rfl

/-- The first call of `UpdateActive` is `User().Update` with the new `DeleteAt`, and it is
the only call of `User().Update`. -/
theorem UpdateActive_calls (e : Env) (st : State) (user : User) (active : Bool) :
    ∃ extra, (UpdateActive e st user active).1.calls = st.calls ++
        Call.UserUpdate { user with DeleteAt := if active then 0 else e.GetMillis } :: extra ∧
      ∀ c ∈ extra, ∀ u, c ≠ Call.UserUpdate u := by
  have hsweep : ∀ c : Call, c.isSweep = true → ∀ u, c ≠ Call.UserUpdate u := by
    intro c hc u h
    subst h
    simp [Call.isSweep] at hc
  cases active
  · simp only [Bool.false_eq_true, if_false]
    cases hf : e.fault (.UserUpdate { user with DeleteAt := e.GetMillis }) with
    | some err =>
      exact ⟨[], by simp [UpdateActive, Store.User.Update, hf, State.call], by simp⟩
    | none =>
      cases hany : st.users.any (fun u => u.Id == user.Id) with
      | false =>
        exact ⟨[], by simp [UpdateActive, Store.User.Update, hf, hany, State.call], by simp⟩
      | true =>
        by_cases hpos : 0 < e.GetMillis
        · obtain ⟨extra, hex, hsw⟩ := RevokeAllSessionsNoContext_calls_sweep e
            { st with
              users := st.users.map (fun u =>
                if u.Id == user.Id then { user with DeleteAt := e.GetMillis } else u),
              calls := st.calls ++ [.UserUpdate { user with DeleteAt := e.GetMillis }] } user.Id
          refine ⟨extra ++ [.ChannelExtraUpdateByUser user.Id e.GetMillis], ?_, ?_⟩
          · cases hx : e.fault (.ChannelExtraUpdateByUser user.Id e.GetMillis) <;>
              simp only [UpdateActive, Store.User.Update, hf, hany, State.call, hpos,
                Store.Channel.ExtraUpdateByUser, hx, Bool.false_eq_true, if_false, if_true,
                gt_iff_lt] <;>
              (rw [hex]; simp)
          · intro c hc
            rcases List.mem_append.mp hc with h | h
            · exact hsweep c (hsw c h)
            · simp at h
              subst h
              simp
        · refine ⟨[.ChannelExtraUpdateByUser user.Id e.GetMillis], ?_, by simp⟩
          cases hx : e.fault (.ChannelExtraUpdateByUser user.Id e.GetMillis) <;>
            simp [UpdateActive, Store.User.Update, hf, hany, State.call, hpos,
              Store.Channel.ExtraUpdateByUser, hx]
  · simp only [if_true]
    cases hf : e.fault (.UserUpdate { user with DeleteAt := 0 }) with
    | some err =>
      exact ⟨[], by simp [UpdateActive, Store.User.Update, hf, State.call], by simp⟩
    | none =>
      cases hany : st.users.any (fun u => u.Id == user.Id) with
      | false =>
        exact ⟨[], by simp [UpdateActive, Store.User.Update, hf, hany, State.call], by simp⟩
      | true =>
        refine ⟨[.ChannelExtraUpdateByUser user.Id e.GetMillis], ?_, by simp⟩
        cases hx : e.fault (.ChannelExtraUpdateByUser user.Id e.GetMillis) <;>
          simp [UpdateActive, Store.User.Update, hf, hany, State.call,
            Store.Channel.ExtraUpdateByUser, hx]

/-- A request that passes the guard of `updateActive` reaches `UpdateActive`: after the
lookup of the target, `User().Update` is called with the new `DeleteAt`. -/
theorem updateActive_reach (e : Env) (st : State) (r : Request) (user : User)
    (h26 : len (lookup r.props "user_id") = 26)
    (hget : e.fault (.UserGet (lookup r.props "user_id")) = none)
    (hfound : st.users.find? (fun x => x.Id == lookup r.props "user_id") = some user)
    (hallow : e.HasPermissionTo st.Session e.model.PERMISSION_MANAGE_SYSTEM = true ∨
      ((lookup r.props "active" == "true") = false ∧
        lookup r.props "user_id" = st.Session.UserId))
    (hl : user.IsLDAPUser e = false) :
    ∃ extra, callsSince st (updateActive e st r) =
      Call.UserGet (lookup r.props "user_id") ::
        Call.UserUpdate { user with DeleteAt :=
          if (lookup r.props "active" == "true") = true then 0 else e.GetMillis } :: extra := by
  have hrun : updateActive e st r =
      (match UpdateActive e (st.call (.UserGet (lookup r.props "user_id"))) user
          (lookup r.props "active" == "true") with
        | (st2, .error err) => { st2 with Err := some err }
        | (st2, .ok ruser) =>
          let st3 := if !(lookup r.props "active" == "true") then
            app.SetStatusOffline st2 ruser.Id false else st2
          let st4 := LogAuditWithUserId st3 ruser.Id
            ("active=" ++ toString (lookup r.props "active" == "true"))
          { st4 with body := st4.body ++ [.UserToJson ruser] }) := by
    rcases hallow with hp | ⟨hact, hself⟩
    · cases hact : (lookup r.props "active" == "true") <;>
        cases hselfb : (lookup r.props "user_id" == st.Session.UserId) <;>
        simp [updateActive, h26, Store.User.Get, hget, hfound, State.call,
          HasPermissionToContext, hp, hl, hact, hselfb]
    · have hselfb : (lookup r.props "user_id" == st.Session.UserId) = true := by
        simp [hself]
      cases hp : e.HasPermissionTo st.Session e.model.PERMISSION_MANAGE_SYSTEM <;>
        simp [updateActive, h26, Store.User.Get, hget, hfound, State.call,
          HasPermissionToContext, hp, hl, hact, hselfb]
  obtain ⟨extra, hex, -⟩ := UpdateActive_calls e (st.call (.UserGet (lookup r.props "user_id")))
    user (lookup r.props "active" == "true")
  rw [hrun]
  generalize UpdateActive e (st.call (.UserGet (lookup r.props "user_id"))) user
    (lookup r.props "active" == "true") = res at hex
  obtain ⟨st2, out⟩ := res
  simp only [State.call] at hex
  cases out with
  | error err =>
    exact ⟨extra, callsSince_append st _ _ (by simp [hex])⟩
  | ok ruser =>
    cases hact : (lookup r.props "active" == "true")
    · exact ⟨extra ++ [.SetStatusOffline ruser.Id false, .LogAudit ruser.Id ("active=" ++ toString false)],
        callsSince_append st _ _ (by
          simp [hex, hact, app.SetStatusOffline, LogAuditWithUserId, State.call])⟩
    · exact ⟨extra ++ [.LogAudit ruser.Id ("active=" ++ toString true)],
        callsSince_append st _ _ (by
          simp [hex, hact, LogAuditWithUserId, State.call])⟩

/-- A request that does not pass the guard of `updateActive` changes nothing: the only
call is at most the lookup of the target. -/
theorem updateActive_rejected (e : Env) (st : State) (r : Request)
    (hrej : ∀ user, st.users.find? (fun x => x.Id == lookup r.props "user_id") = some user →
      len (lookup r.props "user_id") = 26 →
      e.fault (.UserGet (lookup r.props "user_id")) = none →
      user.IsLDAPUser e = true ∨
      (e.HasPermissionTo st.Session e.model.PERMISSION_MANAGE_SYSTEM = false ∧
        ((lookup r.props "active" == "true") = true ∨
          (lookup r.props "user_id" == st.Session.UserId) = false))) :
    (callsSince st (updateActive e st r) = [] ∨
      callsSince st (updateActive e st r) = [.UserGet (lookup r.props "user_id")]) ∧
    (updateActive e st r).users = st.users ∧
    (updateActive e st r).sessions = st.sessions := by
  by_cases h26 : len (lookup r.props "user_id") = 26
  swap
  · simp [updateActive, h26, SetInvalidParam, callsSince]
  cases hget : e.fault (.UserGet (lookup r.props "user_id")) with
  | some err => simp [updateActive, h26, Store.User.Get, hget, State.call, callsSince]
  | none =>
  cases hfound : st.users.find? (fun x => x.Id == lookup r.props "user_id") with
  | none => simp [updateActive, h26, Store.User.Get, hget, hfound, State.call, callsSince]
  | some user =>
    cases hact : (lookup r.props "active" == "true") <;>
      cases hselfb : (lookup r.props "user_id" == st.Session.UserId) <;>
      cases hp : e.HasPermissionTo st.Session e.model.PERMISSION_MANAGE_SYSTEM <;>
      cases hl : user.IsLDAPUser e <;>
      first
        | (simp [updateActive, h26, Store.User.Get, hget, hfound, State.call, callsSince,
            HasPermissionToContext, hp, hl, hact, hselfb]
           done)
        | (have hcontra := hrej user hfound h26 hget
           simp [hact, hselfb, hp, hl] at hcontra)

/-- C29, as stated, fails: dave, who does not hold the manage-system permission, asks to
deactivate erin, an LDAP user. The permission check comes first, so the request is
rejected with 403, not with 400. -/
theorem updateActive_ldap_target_forbidden :
    Scenario.erin.IsLDAPUser Scenario.env = true ∧
    Scenario.env.HasPermissionTo Scenario.daveState.Session
      Scenario.env.model.PERMISSION_MANAGE_SYSTEM = false ∧
    (updateActive Scenario.env Scenario.daveState
      (Scenario.updateActiveReq "ldapuserldapuserldapuser26" "false")).Err =
      some { NewLocAppError "updateActive" "api.user.update_active.permissions.app_error"
               "userId=ldapuserldapuserldapuser26" with StatusCode := 403 } := by
  decide

/-- C29 (amended): `updateActive` reaches the mutation `UpdateActive`, whose first call is
`User().Update`, only if the target is not an LDAP user and either the caller holds the
manage-system permission or the request is a self-deactivation (`active` is not `true` and
`user_id` is the user id of the session). For a target that the store finds, the checks
come in this order: a caller without manage-system whose request is not a
self-deactivation is rejected with 403 whatever the target is, so such a principal can
never reactivate their own account; a request that passes this check for an LDAP user is
rejected with 400, also when the caller holds manage-system; every other request reaches
`UpdateActive`, so a principal without manage-system who is not an LDAP user can
deactivate their own account. A rejected request changes no user and no session. -/
theorem updateActive_guard (e : Env) (st : State) (r : Request) :
    (∀ u, Call.UserUpdate u ∈ callsSince st (updateActive e st r) →
      ∃ user, st.users.find? (fun x => x.Id == lookup r.props "user_id") = some user ∧
        user.IsLDAPUser e = false ∧
        (e.HasPermissionTo st.Session e.model.PERMISSION_MANAGE_SYSTEM = true ∨
          ((lookup r.props "active" == "true") = false ∧
            lookup r.props "user_id" = st.Session.UserId))) ∧
    (∀ user, len (lookup r.props "user_id") = 26 →
      e.fault (.UserGet (lookup r.props "user_id")) = none →
      st.users.find? (fun x => x.Id == lookup r.props "user_id") = some user →
      (e.HasPermissionTo st.Session e.model.PERMISSION_MANAGE_SYSTEM = false →
        ((lookup r.props "active" == "true") = true ∨
          lookup r.props "user_id" ≠ st.Session.UserId) →
        (updateActive e st r).Err = some
          { NewLocAppError "updateActive" "api.user.update_active.permissions.app_error"
              ("userId=" ++ lookup r.props "user_id") with StatusCode := 403 } ∧
        (updateActive e st r).users = st.users ∧
        (updateActive e st r).sessions = st.sessions ∧
        callsSince st (updateActive e st r) = [.UserGet (lookup r.props "user_id")]) ∧
      ((e.HasPermissionTo st.Session e.model.PERMISSION_MANAGE_SYSTEM = true ∨
          ((lookup r.props "active" == "true") = false ∧
            lookup r.props "user_id" = st.Session.UserId)) →
        user.IsLDAPUser e = true →
        (updateActive e st r).Err = some
          { NewLocAppError "updateActive" "api.user.update_active.no_deactivate_ldap.app_error"
              ("userId=" ++ lookup r.props "user_id") with StatusCode := 400 } ∧
        (updateActive e st r).users = st.users ∧
        (updateActive e st r).sessions = st.sessions ∧
        callsSince st (updateActive e st r) = [.UserGet (lookup r.props "user_id")]) ∧
      ((e.HasPermissionTo st.Session e.model.PERMISSION_MANAGE_SYSTEM = true ∨
          ((lookup r.props "active" == "true") = false ∧
            lookup r.props "user_id" = st.Session.UserId)) →
        user.IsLDAPUser e = false →
        Call.UserUpdate { user with DeleteAt :=
            if (lookup r.props "active" == "true") = true then 0 else e.GetMillis } ∈
          callsSince st (updateActive e st r))) := by
  refine ⟨?_, ?_⟩
  · intro u hmem
    by_cases hreach : ∃ user,
        st.users.find? (fun x => x.Id == lookup r.props "user_id") = some user ∧
        user.IsLDAPUser e = false ∧
        (e.HasPermissionTo st.Session e.model.PERMISSION_MANAGE_SYSTEM = true ∨
          ((lookup r.props "active" == "true") = false ∧
            lookup r.props "user_id" = st.Session.UserId))
    · exact hreach
    · exfalso
      have hrej := updateActive_rejected e st r (by
        intro user hfound _ _
        cases hl : user.IsLDAPUser e with
        | true => exact Or.inl rfl
        | false =>
          right
          cases hp : e.HasPermissionTo st.Session e.model.PERMISSION_MANAGE_SYSTEM with
          | true => exact absurd ⟨user, hfound, hl, Or.inl hp⟩ hreach
          | false =>
            refine ⟨rfl, ?_⟩
            cases hact : (lookup r.props "active" == "true") with
            | true => exact Or.inl rfl
            | false =>
              right
              cases hselfb : (lookup r.props "user_id" == st.Session.UserId) with
              | false => rfl
              | true =>
                exact absurd ⟨user, hfound, hl, Or.inr ⟨hact, by simpa using hselfb⟩⟩ hreach)
      rcases hrej.1 with h | h <;> rw [h] at hmem <;> simp at hmem
  · intro user h26 hget hfound
    refine ⟨?_, ?_, ?_⟩
    · intro hp hor
      rcases hor with hact | hself
      · cases hselfb : (lookup r.props "user_id" == st.Session.UserId) <;>
          simp [updateActive, h26, Store.User.Get, hget, hfound, State.call, callsSince,
            HasPermissionToContext, hp, hact, hselfb, NewLocAppError]
      · have hselfb : (lookup r.props "user_id" == st.Session.UserId) = false := by
          simpa using hself
        cases hact : (lookup r.props "active" == "true") <;>
          simp [updateActive, h26, Store.User.Get, hget, hfound, State.call, callsSince,
            HasPermissionToContext, hp, hact, hselfb, NewLocAppError]
    · intro hallow hl
      rcases hallow with hp | ⟨hact, hself⟩
      · cases hact : (lookup r.props "active" == "true") <;>
          cases hselfb : (lookup r.props "user_id" == st.Session.UserId) <;>
          simp [updateActive, h26, Store.User.Get, hget, hfound, State.call, callsSince,
            HasPermissionToContext, hp, hl, hact, hselfb, NewLocAppError]
      · have hselfb : (lookup r.props "user_id" == st.Session.UserId) = true := by
          simp [hself]
        cases hp : e.HasPermissionTo st.Session e.model.PERMISSION_MANAGE_SYSTEM <;>
          simp [updateActive, h26, Store.User.Get, hget, hfound, State.call, callsSince,
            HasPermissionToContext, hp, hl, hact, hselfb, NewLocAppError]
    · intro hallow hl
      obtain ⟨extra, h⟩ := updateActive_reach e st r user h26 hget hfound hallow hl
      rw [h]
      simp

/-- Witness of C29: dave, without manage-system, deactivates his own account and is refused
the reactivation with 403; the system admin is refused the deactivation of the LDAP user
erin with 400. -/
theorem updateActive_guard_witness :
    Call.UserUpdate { Scenario.dave with DeleteAt := 5000000 } ∈
      callsSince Scenario.daveState (updateActive Scenario.env Scenario.daveState
        (Scenario.updateActiveReq "abcdefghijklmnopqrstuvwxyz" "false")) ∧
    (updateActive Scenario.env Scenario.daveState
      (Scenario.updateActiveReq "abcdefghijklmnopqrstuvwxyz" "true")).Err.map
        (fun err => err.StatusCode) = some 403 ∧
    (updateActive Scenario.env Scenario.adminDaveState
      (Scenario.updateActiveReq "ldapuserldapuserldapuser26" "false")).Err.map
        (fun err => err.StatusCode) = some 400 :=
  ⟨((updateActive_guard Scenario.env Scenario.daveState
      (Scenario.updateActiveReq "abcdefghijklmnopqrstuvwxyz" "false")).2 Scenario.dave
      (by decide) rfl (by decide)).2.2 (Or.inr ⟨by decide, by decide⟩) (by decide),
   congrArg (fun o => o.map (fun err => err.StatusCode))
    (((updateActive_guard Scenario.env Scenario.daveState
      (Scenario.updateActiveReq "abcdefghijklmnopqrstuvwxyz" "true")).2 Scenario.dave
      (by decide) rfl (by decide)).1 (by decide) (Or.inl (by decide))).1,
   congrArg (fun o => o.map (fun err => err.StatusCode))
    (((updateActive_guard Scenario.env Scenario.adminDaveState
      (Scenario.updateActiveReq "ldapuserldapuserldapuser26" "false")).2 Scenario.erin
      (by decide) rfl (by decide)).2.1 (Or.inl (by decide)) (by decide)).1⟩

end Api

